import Mathlib

/-!
# Holiday date generator

A Lean model of the holiday generator of the React application:
`src/src/context/GlobalHolidayContext.jsx` (all countries) and
`src/src/context/HolidayContext.jsx` (South Africa only).

Modelling conventions.

* A JavaScript Number that holds a year is a natural number; arithmetic is exact,
  which agrees with IEEE doubles for all values below `2^53`.
* A JavaScript string is a Lean `String`.
* The host environment is explicit: `tz` is the offset of the host's local time
  zone from UTC in minutes (a zone with a constant offset, positive east of
  Greenwich), and `dir` is the country directory `getCountryByCode` of
  `src/src/data/countries`, which is not part of the sources at hand.
* A `Date` object is its time value: `some t` with `t` in milliseconds since the
  epoch, or `none` for the time value NaN ("Invalid Date").
* A call that throws (a `RangeError` of `toISOString`, a `TypeError` of calling
  `undefined`) returns `none`.
-/

namespace JS

/-! ## ECMAScript date arithmetic (ECMA-262, "Time Values and Time Range") -/

def msPerDay : Int := 86400000

def msPerMinute : Int := 60000

def msPerHour : Int := 3600000

def msPerSecond : Int := 1000

/-- ECMAScript `Day(t)`: the day number of a time value. -/
def Day (t : Int) : Int := t / msPerDay

/-- ECMAScript `TimeWithinDay(t)`. -/
def TimeWithinDay (t : Int) : Int := t % msPerDay

/-- ECMAScript `DaysInYear(y)`. -/
def DaysInYear (y : Int) : Int :=
  if y % 4 ≠ 0 then 365
  else if y % 100 ≠ 0 then 366
  else if y % 400 ≠ 0 then 365
  else 366

/-- ECMAScript `InLeapYear`, as a function of the year: 1 in a leap year, else 0. -/
def InLeapYear (y : Int) : Int := if DaysInYear y = 366 then 1 else 0

/-- ECMAScript `DayFromYear(y)`: the day number of 1 January of year `y`. -/
def DayFromYear (y : Int) : Int :=
  365 * (y - 1970) + (y - 1969) / 4 - (y - 1901) / 100 + (y - 1601) / 400

/-- ECMAScript `YearFromTime`, on day numbers: the largest `y` with
`DayFromYear y ≤ n`.  It is computed from an estimate that is off by at most
one (see `YearFromDay_eq`). -/
def YearFromDay (n : Int) : Int :=
  let y0 := 1970 + (n * 400) / 146097
  if n < DayFromYear y0 then y0 - 1
  else if DayFromYear (y0 + 1) ≤ n then y0 + 1
  else y0

/-- ECMAScript `DayWithinYear`, on day numbers. -/
def DayWithinYear (n : Int) : Int := n - DayFromYear (YearFromDay n)

/-- Day within the year of the first day of month `m` (0 = January), for
`leap = InLeapYear`: the boundaries of the table of ECMAScript `MonthFromTime`. -/
def monthStart (m : Int) (leap : Int) : Int :=
  if m = 0 then 0
  else if m = 1 then 31
  else if m = 2 then 59 + leap
  else if m = 3 then 90 + leap
  else if m = 4 then 120 + leap
  else if m = 5 then 151 + leap
  else if m = 6 then 181 + leap
  else if m = 7 then 212 + leap
  else if m = 8 then 243 + leap
  else if m = 9 then 273 + leap
  else if m = 10 then 304 + leap
  else 334 + leap

/-- Number of days of month `m` (0 = January) in a year with `leap = InLeapYear`. -/
def daysInMonth (m : Int) (leap : Int) : Int :=
  if m = 11 then 31 else monthStart (m + 1) leap - monthStart m leap

/-- ECMAScript `MonthFromTime`, on day numbers (0 = January). -/
def MonthFromDay (n : Int) : Int :=
  let d := DayWithinYear n
  let leap := InLeapYear (YearFromDay n)
  if d < 31 then 0
  else if d < 59 + leap then 1
  else if d < 90 + leap then 2
  else if d < 120 + leap then 3
  else if d < 151 + leap then 4
  else if d < 181 + leap then 5
  else if d < 212 + leap then 6
  else if d < 243 + leap then 7
  else if d < 273 + leap then 8
  else if d < 304 + leap then 9
  else if d < 334 + leap then 10
  else 11

/-- ECMAScript `DateFromTime`, on day numbers: the day of the month, from 1. -/
def DateFromDay (n : Int) : Int :=
  DayWithinYear n - monthStart (MonthFromDay n) (InLeapYear (YearFromDay n)) + 1

/-- ECMAScript `WeekDay`, on day numbers: 0 = Sunday, ..., 6 = Saturday. -/
def WeekDay (n : Int) : Int := (n + 4) % 7

/-- ECMAScript `MakeDay(year, month, date)` for integral arguments: the day number
of day `date` of month `month` (0 = January) of `year`, where `month` and `date`
may lie outside their usual ranges. -/
def MakeDay (year month date : Int) : Int :=
  let ym := year + month / 12
  let mn := month % 12
  DayFromYear ym + monthStart mn (InLeapYear ym) + date - 1

/-- ECMAScript `TimeClip`: a time value is at most 8.64e15 ms from the epoch. -/
def TimeClip (t : Int) : Option Int :=
  if -8640000000000000 ≤ t ∧ t ≤ 8640000000000000 then some t else none

/-- ECMAScript `LocalTime(t)` in a zone `tz` minutes east of UTC. -/
def LocalTime (tz : Int) (t : Int) : Int := t + tz * msPerMinute

/-- ECMAScript `UTC(t)` in a zone `tz` minutes east of UTC. -/
def UTC (tz : Int) (t : Int) : Int := t - tz * msPerMinute

/-- A `Date` object, as its time value; `none` is the Invalid Date. -/
abbrev Date := Option Int

/-- ECMAScript `MakeFullYear`: a year from 0 to 99 means 1900 + year. -/
def MakeFullYear (year : Int) : Int :=
  if 0 ≤ year ∧ year ≤ 99 then 1900 + year else year

/-- `new Date(year, month, date)`: local midnight of the given day. -/
def Date.ofYMD (tz : Int) (year month date : Int) : Date :=
  TimeClip (UTC tz (MakeDay (MakeFullYear year) month date * msPerDay))

/-- `new Date(d)` for a Date `d`: a copy with the same time value. -/
def Date.copy (d : Date) : Date := d.bind TimeClip

/-- `d.getDate()`: the local day of the month; `none` is NaN. -/
def Date.getDate (tz : Int) (d : Date) : Option Int :=
  d.map (fun t => DateFromDay (Day (LocalTime tz t)))

/-- `d.getFullYear()`: the local year; `none` is NaN. -/
def Date.getFullYear (tz : Int) (d : Date) : Option Int :=
  d.map (fun t => YearFromDay (Day (LocalTime tz t)))

/-- `d.getMonth()`: the local month, 0 = January; `none` is NaN. -/
def Date.getMonth (tz : Int) (d : Date) : Option Int :=
  d.map (fun t => MonthFromDay (Day (LocalTime tz t)))

/-- `d.getDay()`: the local day of the week, 0 = Sunday; `none` is NaN. -/
def Date.getDay (tz : Int) (d : Date) : Option Int :=
  d.map (fun t => WeekDay (Day (LocalTime tz t)))

/-- `d.setDate(dt)`: the Date after the assignment; `dt = none` is NaN. -/
def Date.setDate (tz : Int) (d : Date) (dt : Option Int) : Date :=
  match d, dt with
  | some tv, some v =>
    let t := LocalTime tz tv
    let newDate :=
      MakeDay (YearFromDay (Day t)) (MonthFromDay (Day t)) v * msPerDay + TimeWithinDay t
    TimeClip (UTC tz newDate)
  | _, _ => none

/-! ## Strings and numbers -/

/-- `String(n)` for a non-negative integer below `10^21`: its decimal digits. -/
def numberToString (n : Nat) : String := toString n

/-- `s.padStart(n, c)` for a one-character filler. -/
def padStart (s : String) (n : Nat) (c : Char) : String :=
  String.mk (List.replicate (n - s.data.length) c ++ s.data)

/-- `s.split(sep)` for a one-character separator, on character lists: the
pieces between the occurrences of `sep`; never empty. -/
def splitChars (sep : Char) : List Char → List (List Char)
  | [] => [[]]
  | c :: cs =>
    if c = sep then [] :: splitChars sep cs
    else match splitChars sep cs with
      | [] => [[c]]
      | t :: ts => (c :: t) :: ts

/-- `s.split(sep)` for a one-character separator. -/
def split (s : String) (sep : Char) : List String :=
  (splitChars sep s.data).map String.mk

/-- The code units that `name.toLowerCase().replace(/[^a-z0-9]/g, '-')` produces
from one character of `name`.  ASCII capitals are lowered and ASCII lower-case
letters and digits are kept.  Two other characters have a lower-case form with
an ASCII letter: the Kelvin sign U+212A (`k`) and U+0130 (`i` followed by the
combining dot U+0307, which the replacement turns into a hyphen).  A character
outside the Basic Multilingual Plane is two UTF-16 code units, each replaced by
a hyphen.  Every other character becomes one hyphen: the regular expression has
no `+`, so it replaces character by character. -/
def slugChar (c : Char) : List Char :=
  if 'A' ≤ c ∧ c ≤ 'Z' then [c.toLower]
  else if ('a' ≤ c ∧ c ≤ 'z') ∨ ('0' ≤ c ∧ c ≤ '9') then [c]
  else if c.toNat = 0x212A then ['k']
  else if c.toNat = 0x130 then ['i', '-']
  else if 0x10000 ≤ c.toNat then ['-', '-']
  else ['-']

/-- `name.toLowerCase().replace(/[^a-z0-9]/g, '-')`. -/
def slug (name : String) : String :=
  String.mk (name.data.flatMap slugChar)

/-- ECMAScript `StrWhiteSpaceChar`: white space and line terminators. -/
def isStrWhiteSpace (c : Char) : Bool :=
  let n := c.toNat
  n = 0x9 || n = 0xA || n = 0xB || n = 0xC || n = 0xD || n = 0x20 || n = 0xA0 ||
  n = 0x1680 || (0x2000 ≤ n && n ≤ 0x200A) || n = 0x2028 || n = 0x2029 ||
  n = 0x202F || n = 0x205F || n = 0x3000 || n = 0xFEFF

/-- Value of a character as a digit in radix up to 36, if it is one. -/
def digitValue (c : Char) : Option Nat :=
  if '0' ≤ c ∧ c ≤ '9' then some (c.toNat - 48)
  else if 'a' ≤ c ∧ c ≤ 'z' then some (c.toNat - 87)
  else if 'A' ≤ c ∧ c ≤ 'Z' then some (c.toNat - 55)
  else none

/-- Is `c` a digit of radix `r`? -/
def isRadixDigit (r : Nat) (c : Char) : Bool :=
  match digitValue c with
  | some v => v < r
  | none => false

/-- The number written by digits `cs` in radix `r`. -/
def radixValue (r : Nat) (cs : List Char) : Nat :=
  cs.foldl (fun acc c => acc * r + (digitValue c).getD 0) 0

/-- `parseInt(s)` with no radix argument; `none` is NaN.  Leading white space is
skipped, a sign is read, a prefix `0x` or `0X` selects radix 16, and the longest
prefix of digits is the value (NaN when that prefix is empty). -/
def parseInt (s : String) : Option Int :=
  let cs := s.data.dropWhile isStrWhiteSpace
  let neg := cs.head? = some '-'
  let cs := if cs.head? = some '-' ∨ cs.head? = some '+' then cs.tail else cs
  let hex := cs.take 2 = ['0', 'x'] ∨ cs.take 2 = ['0', 'X']
  let radix := if hex then 16 else 10
  let cs := if hex then cs.drop 2 else cs
  let ds := cs.takeWhile (isRadixDigit radix)
  if ds = [] then none
  else if neg then some (-(radixValue radix ds : Int))
  else some (radixValue radix ds : Int)

/-- The value of a list of decimal digits, `none` unless all are digits and
there is at least one. -/
def decimalValue (cs : List Char) : Option Nat :=
  if cs ≠ [] ∧ cs.all (isRadixDigit 10) then some (radixValue 10 cs) else none

/-! ## Rendering and parsing dates -/

/-- The year of the ECMAScript date-time string format: four digits from 0 to
9999, else a sign and six digits. -/
def isoYear (y : Int) : String :=
  if 0 ≤ y ∧ y ≤ 9999 then padStart (numberToString y.toNat) 4 '0'
  else (if y < 0 then "-" else "+") ++ padStart (numberToString y.natAbs) 6 '0'

/-- `d.toISOString()`: the UTC rendering `YYYY-MM-DDTHH:mm:ss.sssZ`; `none` is the
`RangeError` thrown for an Invalid Date. -/
def Date.toISOString (d : Date) : Option String :=
  d.map fun t =>
    let n := Day t
    let w := TimeWithinDay t
    isoYear (YearFromDay n) ++ "-" ++
      padStart (numberToString (MonthFromDay n + 1).toNat) 2 '0' ++ "-" ++
      padStart (numberToString (DateFromDay n).toNat) 2 '0' ++ "T" ++
      padStart (numberToString (w / msPerHour).toNat) 2 '0' ++ ":" ++
      padStart (numberToString (w % msPerHour / msPerMinute).toNat) 2 '0' ++ ":" ++
      padStart (numberToString (w % msPerMinute / msPerSecond).toNat) 2 '0' ++ "." ++
      padStart (numberToString (w % msPerSecond).toNat) 3 '0' ++ "Z"

/-- `new Date(s)` for a string: the date-only forms of the ECMAScript date-time
string format (`YYYY`, `YYYY-MM`, `YYYY-MM-DD`, the year also as a sign and six
digits), read as UTC.  Any other string gives the Invalid Date: ECMA-262 leaves
such strings to the implementation and lets it return NaN.  An engine may read
some of them all the same (V8 reads `999-01-01` and `10000-01-01` as local
dates), so that for a year outside 1000 to 9999, where the template of the fixed
holidays leaves the format, the sorted list of an engine may stand in another
order than that of this model.  (Forms with a time part never reach this
function in the generator.) -/
def Date.parse (s : String) : Date :=
  let cs := s.data
  let signed := cs.head? = some '+' ∨ cs.head? = some '-'
  let neg := cs.head? = some '-'
  let body := if signed then cs.tail else cs
  let ylen := if signed then 6 else 4
  let rest := body.drop ylen
  let month : Option Nat :=
    if rest = [] then some 1
    else if rest.head? = some '-' ∧ ((rest.drop 1).take 2).length = 2 then
      decimalValue ((rest.drop 1).take 2)
    else none
  let rest2 := rest.drop 3
  let day : Option Nat :=
    if rest2 = [] then some 1
    else if rest2.head? = some '-' ∧ rest2.length = 3 then decimalValue (rest2.drop 1)
    else none
  match (if (body.take ylen).length = ylen then decimalValue (body.take ylen) else none),
      month, day with
  | some y, some m, some d =>
    if (neg ∧ y = 0) ∨ m < 1 ∨ 12 < m ∨ d < 1 ∨ 31 < d then none
    else
      let yr : Int := if neg then -(y : Int) else y
      TimeClip (MakeDay yr ((m : Int) - 1) d * msPerDay)
  | _, _, _ => none

/-- The comparator value `new Date(x) - new Date(y)`; `none` is NaN. -/
def dateDifference (x y : String) : Option Int :=
  match Date.parse x, Date.parse y with
  | some a, some b => some (a - b)
  | _, _ => none

/-- `Array.prototype.sort(comparefn)`: a stable sort by the comparator, whose
value NaN counts as `+0` (ECMAScript `SortCompare`).  When the comparator is not
a consistent ordering of the elements, ECMA-262 leaves the order to the
implementation; the model then is one stable insertion sort. -/
def sort {α : Type} (comparefn : α → α → Option Int) (l : List α) : List α :=
  l.insertionSort (fun a b => (comparefn a b).getD 0 ≤ 0)

/-- `xs.map(f)` for a callback that may throw: `none` as soon as one call does. -/
def mapThrowing {α β : Type} (f : α → Option β) : List α → Option (List β)
  | [] => some []
  | a :: as =>
    match f a with
    | none => none
    | some b => (mapThrowing f as).map (b :: ·)

/-- `xs.findIndex(p)`: the index of the first element that satisfies `p`, and
-1 when there is none. -/
def findIndex {α : Type} (p : α → Bool) : List α → Int
  | [] => -1
  | a :: as =>
    if p a then 0
    else if findIndex p as < 0 then -1 else findIndex p as + 1

end JS

open JS

/-- A country record of the country directory (`src/src/data/countries`). -/
structure Country where
  code : String
  name : String
  continent : String
deriving DecidableEq, Repr

/-- A fixed-date holiday definition `{ name, month, day, description, type }`. -/
structure HolidayDef where
  name : String
  month : Nat
  day : Nat
  description : String
  type : String
deriving DecidableEq, Repr

/-- A moveable holiday before formatting: `{ name, date, description, type }`
with `date` a Date object. -/
structure VariableHoliday where
  name : String
  date : Date
  description : String
  type : String
deriving DecidableEq, Repr

/-- The template `${year}-${String(month).padStart(2, '0')}-${String(day).padStart(2, '0')}`. -/
def fixedDate (year month day : Nat) : String :=
  numberToString year ++ "-" ++ padStart (numberToString month) 2 '0' ++ "-" ++
    padStart (numberToString day) 2 '0'

/-- The expression `holiday.date.toISOString().split('T')[0]`; `none` when
`toISOString` throws. -/
def isoDate (d : Date) : Option String :=
  (Date.toISOString d).map fun s => (split s 'T').headD ""

/-- `calculateEaster`, lines 30 to 43: the month and the day of the anonymous
Gregorian algorithm.  On a year `≥ 0` every operand of `%` and of `Math.floor`
is non-negative. -/
def easterMonthDay (year : Nat) : Int × Int :=
  let year : Int := year
  let a := year % 19
  let b := year / 100
  let c := year % 100
  let d := b / 4
  let e := b % 4
  let f := (b + 8) / 25
  let g := (b - f + 1) / 3
  let h := (19 * a + b - d - g + 15) % 30
  let i := c / 4
  let k := c % 4
  let l := (32 + 2 * e + 2 * i - h - k) % 7
  let m := (a + 11 * h + 22 * l) / 451
  let month := (h + l - 7 * m + 114) / 31
  let day := ((h + l - 7 * m + 114) % 31) + 1
  (month, day)

/-- `calculateEaster(year)`, the same text in both context modules:
`new Date(year, month - 1, day)`. -/
def calculateEaster (tz : Int) (year : Nat) : Date :=
  Date.ofYMD tz year ((easterMonthDay year).1 - 1) (easterMonthDay year).2

namespace GlobalHolidayContext

/-- A holiday occurrence as `getHolidaysForCountry` builds it. -/
structure Holiday where
  id : String
  name : String
  date : String
  description : String
  type : String
  countryCode : String
  observed : Bool
deriving DecidableEq, Repr

/-- `generateHolidayId(name, year, countryCode)`. -/
def generateHolidayId (name : String) (year : Nat) (countryCode : String) : String :=
  countryCode ++ "-" ++ slug name ++ "-" ++ numberToString year

/-- `calculateChineseNewYear(year)`: the table, else 10 February. -/
def calculateChineseNewYear (tz : Int) (year : Nat) : Date :=
  if year = 2024 then Date.ofYMD tz 2024 1 10
  else if year = 2025 then Date.ofYMD tz 2025 0 29
  else if year = 2026 then Date.ofYMD tz 2026 1 17
  else if year = 2027 then Date.ofYMD tz 2027 1 6
  else if year = 2028 then Date.ofYMD tz 2028 0 26
  else if year = 2029 then Date.ofYMD tz 2029 1 13
  else if year = 2030 then Date.ofYMD tz 2030 1 3
  else Date.ofYMD tz year 1 10

/-- `calculateEidAlFitr(year)`: the table, else 10 April. -/
def calculateEidAlFitr (tz : Int) (year : Nat) : Date :=
  if year = 2024 then Date.ofYMD tz 2024 3 10
  else if year = 2025 then Date.ofYMD tz 2025 2 30
  else if year = 2026 then Date.ofYMD tz 2026 2 20
  else if year = 2027 then Date.ofYMD tz 2027 2 9
  else if year = 2028 then Date.ofYMD tz 2028 1 26
  else if year = 2029 then Date.ofYMD tz 2029 1 14
  else if year = 2030 then Date.ofYMD tz 2030 1 4
  else Date.ofYMD tz year 3 10

/-- `calculateEidAlAdha(year)`: the table, else 16 June. -/
def calculateEidAlAdha (tz : Int) (year : Nat) : Date :=
  if year = 2024 then Date.ofYMD tz 2024 5 16
  else if year = 2025 then Date.ofYMD tz 2025 5 6
  else if year = 2026 then Date.ofYMD tz 2026 4 26
  else if year = 2027 then Date.ofYMD tz 2027 4 16
  else if year = 2028 then Date.ofYMD tz 2028 4 4
  else if year = 2029 then Date.ofYMD tz 2029 3 23
  else if year = 2030 then Date.ofYMD tz 2030 3 12
  else Date.ofYMD tz year 5 16

/-- The object literal `holidayData`: its own properties, in source order. -/
def holidayData : List (String × List HolidayDef) :=
  [
    ("ZA", [
      ⟨"New Year's Day", 1, 1,
        "The first day of the Gregorian calendar year", "National"⟩,
      ⟨"Human Rights Day", 3, 21,
        "Commemorates the Sharpeville Massacre and celebrates human rights", "National"⟩,
      ⟨"Freedom Day", 4, 27,
        "Commemorates the first democratic elections in 1994", "National"⟩,
      ⟨"Workers' Day", 5, 1,
        "International Workers' Day celebrating laborers", "National"⟩,
      ⟨"Youth Day", 6, 16,
        "Commemorates the 1976 Soweto uprising", "National"⟩,
      ⟨"National Women's Day", 8, 9,
        "Commemorates the 1956 women's march to the Union Buildings", "National"⟩,
      ⟨"Heritage Day", 9, 24,
        "Celebrates South Africa's cultural diversity", "National"⟩,
      ⟨"Day of Reconciliation", 12, 16,
        "Promotes reconciliation and national unity", "National"⟩,
      ⟨"Christmas Day", 12, 25,
        "Christian holiday celebrating the birth of Jesus Christ", "Religious"⟩,
      ⟨"Day of Goodwill", 12, 26,
        "Boxing Day, promoting goodwill and charity", "National"⟩]),
    ("NG", [
      ⟨"New Year's Day", 1, 1,
        "The first day of the Gregorian calendar year", "National"⟩,
      ⟨"Labour Day", 5, 1,
        "International Workers' Day celebrating laborers", "National"⟩,
      ⟨"Children's Day", 5, 27,
        "Celebrates children and their rights", "National"⟩,
      ⟨"Democracy Day", 6, 12,
        "Commemorates Nigeria's return to democracy", "National"⟩,
      ⟨"Independence Day", 10, 1,
        "Commemorates Nigerian independence from Britain", "National"⟩,
      ⟨"Christmas Day", 12, 25,
        "Christian holiday celebrating the birth of Jesus Christ", "Religious"⟩,
      ⟨"Boxing Day", 12, 26,
        "Traditional day for giving to the less fortunate", "National"⟩]),
    ("KE", [
      ⟨"New Year's Day", 1, 1,
        "The first day of the Gregorian calendar year", "National"⟩,
      ⟨"Labour Day", 5, 1,
        "International Workers' Day celebrating laborers", "National"⟩,
      ⟨"Madaraka Day", 6, 1,
        "Commemorates self-governance", "National"⟩,
      ⟨"Mashujaa Day", 10, 20,
        "Honors national heroes", "National"⟩,
      ⟨"Jamhuri Day", 12, 12,
        "Commemorates independence and republic status", "National"⟩,
      ⟨"Christmas Day", 12, 25,
        "Christian holiday celebrating the birth of Jesus Christ", "Religious"⟩,
      ⟨"Boxing Day", 12, 26,
        "Traditional day for giving to the less fortunate", "National"⟩]),
    ("EG", [
      ⟨"New Year's Day", 1, 1,
        "The first day of the Gregorian calendar year", "National"⟩,
      ⟨"Coptic Christmas", 1, 7,
        "Coptic Orthodox celebration of Christ's birth", "Religious"⟩,
      ⟨"Revolution Day", 1, 25,
        "Commemorates the 2011 Egyptian Revolution", "National"⟩,
      ⟨"Sinai Liberation Day", 4, 25,
        "Commemorates the return of Sinai Peninsula", "National"⟩,
      ⟨"Labour Day", 5, 1,
        "International Workers' Day celebrating laborers", "National"⟩,
      ⟨"Revolution Day July", 7, 23,
        "Commemorates the 1952 Egyptian Revolution", "National"⟩]),
    ("CN", [
      ⟨"New Year's Day", 1, 1,
        "The first day of the Gregorian calendar year", "National"⟩,
      ⟨"Tomb Sweeping Day", 4, 4,
        "Traditional day to honor ancestors", "Cultural"⟩,
      ⟨"Labour Day", 5, 1,
        "International Workers' Day celebrating laborers", "National"⟩,
      ⟨"Dragon Boat Festival", 6, 10,
        "Traditional festival with boat races", "Cultural"⟩,
      ⟨"Mid Autumn Festival", 9, 17,
        "Traditional festival celebrating the harvest moon", "Cultural"⟩,
      ⟨"National Day", 10, 1,
        "Commemorates the founding of the People's Republic of China", "National"⟩]),
    ("IN", [
      ⟨"New Year's Day", 1, 1,
        "The first day of the Gregorian calendar year", "National"⟩,
      ⟨"Republic Day", 1, 26,
        "Commemorates the adoption of the Indian Constitution", "National"⟩,
      ⟨"Independence Day", 8, 15,
        "Commemorates India's independence from British rule", "National"⟩,
      ⟨"Gandhi Jayanti", 10, 2,
        "Celebrates the birthday of Mahatma Gandhi", "National"⟩,
      ⟨"Christmas Day", 12, 25,
        "Christian holiday celebrating the birth of Jesus Christ", "Religious"⟩]),
    ("JP", [
      ⟨"New Year's Day", 1, 1,
        "The first day of the Gregorian calendar year", "National"⟩,
      ⟨"Coming of Age Day", 1, 8,
        "Celebrates young people reaching adulthood", "Cultural"⟩,
      ⟨"National Foundation Day", 2, 11,
        "Celebrates the founding of Japan", "National"⟩,
      ⟨"Showa Day", 4, 29,
        "Honors Emperor Showa's birthday", "National"⟩,
      ⟨"Constitution Memorial Day", 5, 3,
        "Commemorates the postwar constitution", "National"⟩,
      ⟨"Greenery Day", 5, 4,
        "Appreciates nature and the environment", "Cultural"⟩,
      ⟨"Children's Day", 5, 5,
        "Celebrates children and their happiness", "Cultural"⟩]),
    ("GB", [
      ⟨"New Year's Day", 1, 1,
        "The first day of the Gregorian calendar year", "National"⟩,
      ⟨"May Day", 5, 1,
        "Early May bank holiday", "National"⟩,
      ⟨"Spring Bank Holiday", 5, 27,
        "Late May bank holiday", "National"⟩,
      ⟨"Summer Bank Holiday", 8, 26,
        "Late August bank holiday", "National"⟩,
      ⟨"Christmas Day", 12, 25,
        "Christian holiday celebrating the birth of Jesus Christ", "Religious"⟩,
      ⟨"Boxing Day", 12, 26,
        "Traditional day for giving to the less fortunate", "National"⟩]),
    ("DE", [
      ⟨"New Year's Day", 1, 1,
        "The first day of the Gregorian calendar year", "National"⟩,
      ⟨"Labour Day", 5, 1,
        "International Workers' Day celebrating laborers", "National"⟩,
      ⟨"German Unity Day", 10, 3,
        "Commemorates German reunification", "National"⟩,
      ⟨"Christmas Day", 12, 25,
        "Christian holiday celebrating the birth of Jesus Christ", "Religious"⟩,
      ⟨"Boxing Day", 12, 26,
        "Second Christmas Day", "Religious"⟩]),
    ("FR", [
      ⟨"New Year's Day", 1, 1,
        "The first day of the Gregorian calendar year", "National"⟩,
      ⟨"Labour Day", 5, 1,
        "International Workers' Day celebrating laborers", "National"⟩,
      ⟨"Victory in Europe Day", 5, 8,
        "Commemorates the end of World War II in Europe", "National"⟩,
      ⟨"Bastille Day", 7, 14,
        "French National Day", "National"⟩,
      ⟨"Assumption of Mary", 8, 15,
        "Catholic holiday honoring the Virgin Mary", "Religious"⟩,
      ⟨"All Saints' Day", 11, 1,
        "Christian holiday honoring all saints", "Religious"⟩,
      ⟨"Armistice Day", 11, 11,
        "Commemorates the end of World War I", "National"⟩,
      ⟨"Christmas Day", 12, 25,
        "Christian holiday celebrating the birth of Jesus Christ", "Religious"⟩]),
    ("US", [
      ⟨"New Year's Day", 1, 1,
        "The first day of the Gregorian calendar year", "National"⟩,
      ⟨"Martin Luther King Jr. Day", 1, 15,
        "Honors the civil rights leader", "National"⟩,
      ⟨"Presidents' Day", 2, 19,
        "Honors all U.S. presidents", "National"⟩,
      ⟨"Memorial Day", 5, 27,
        "Honors military personnel who died in service", "National"⟩,
      ⟨"Independence Day", 7, 4,
        "Commemorates the Declaration of Independence", "National"⟩,
      ⟨"Labor Day", 9, 2,
        "Celebrates the contributions of workers", "National"⟩,
      ⟨"Columbus Day", 10, 14,
        "Commemorates Christopher Columbus's arrival", "National"⟩,
      ⟨"Veterans Day", 11, 11,
        "Honors military veterans", "National"⟩,
      ⟨"Thanksgiving", 11, 28,
        "Traditional harvest celebration", "National"⟩,
      ⟨"Christmas Day", 12, 25,
        "Christian holiday celebrating the birth of Jesus Christ", "Religious"⟩]),
    ("CA", [
      ⟨"New Year's Day", 1, 1,
        "The first day of the Gregorian calendar year", "National"⟩,
      ⟨"Family Day", 2, 19,
        "Celebrates the importance of families", "National"⟩,
      ⟨"Victoria Day", 5, 20,
        "Celebrates Queen Victoria's birthday", "National"⟩,
      ⟨"Canada Day", 7, 1,
        "Commemorates Canadian Confederation", "National"⟩,
      ⟨"Labour Day", 9, 2,
        "Celebrates the contributions of workers", "National"⟩,
      ⟨"Thanksgiving", 10, 14,
        "Traditional harvest celebration", "National"⟩,
      ⟨"Remembrance Day", 11, 11,
        "Honors military personnel", "National"⟩,
      ⟨"Christmas Day", 12, 25,
        "Christian holiday celebrating the birth of Jesus Christ", "Religious"⟩,
      ⟨"Boxing Day", 12, 26,
        "Traditional day for giving to the less fortunate", "National"⟩]),
    ("BR", [
      ⟨"New Year's Day", 1, 1,
        "The first day of the Gregorian calendar year", "National"⟩,
      ⟨"Tiradentes", 4, 21,
        "Honors the Brazilian independence martyr", "National"⟩,
      ⟨"Labour Day", 5, 1,
        "International Workers' Day celebrating laborers", "National"⟩,
      ⟨"Independence Day", 9, 7,
        "Commemorates Brazilian independence", "National"⟩,
      ⟨"Our Lady of Aparecida", 10, 12,
        "Patron saint of Brazil", "Religious"⟩,
      ⟨"All Souls' Day", 11, 2,
        "Day to remember the deceased", "Religious"⟩,
      ⟨"Proclamation of the Republic", 11, 15,
        "Commemorates the establishment of the republic", "National"⟩,
      ⟨"Christmas Day", 12, 25,
        "Christian holiday celebrating the birth of Jesus Christ", "Religious"⟩]),
    ("AR", [
      ⟨"New Year's Day", 1, 1,
        "The first day of the Gregorian calendar year", "National"⟩,
      ⟨"Labour Day", 5, 1,
        "International Workers' Day celebrating laborers", "National"⟩,
      ⟨"Revolution Day", 5, 25,
        "Commemorates the May Revolution", "National"⟩,
      ⟨"Flag Day", 6, 20,
        "Honors the Argentine flag", "National"⟩,
      ⟨"Independence Day", 7, 9,
        "Commemorates Argentine independence", "National"⟩,
      ⟨"San Martín Day", 8, 17,
        "Honors General José de San Martín", "National"⟩,
      ⟨"Columbus Day", 10, 12,
        "Day of Cultural Diversity", "National"⟩,
      ⟨"Christmas Day", 12, 25,
        "Christian holiday celebrating the birth of Jesus Christ", "Religious"⟩]),
    ("AU", [
      ⟨"New Year's Day", 1, 1,
        "The first day of the Gregorian calendar year", "National"⟩,
      ⟨"Australia Day", 1, 26,
        "Commemorates the arrival of the First Fleet", "National"⟩,
      ⟨"Labour Day", 3, 11,
        "Celebrates workers and their contributions", "National"⟩,
      ⟨"ANZAC Day", 4, 25,
        "Honors Australian and New Zealand Army Corps", "National"⟩,
      ⟨"Queen's Birthday", 6, 10,
        "Celebrates the monarch's birthday", "National"⟩,
      ⟨"Christmas Day", 12, 25,
        "Christian holiday celebrating the birth of Jesus Christ", "Religious"⟩,
      ⟨"Boxing Day", 12, 26,
        "Traditional day for giving to the less fortunate", "National"⟩]),
    ("NZ", [
      ⟨"New Year's Day", 1, 1,
        "The first day of the Gregorian calendar year", "National"⟩,
      ⟨"Day after New Year's Day", 1, 2,
        "Extended New Year celebration", "National"⟩,
      ⟨"Waitangi Day", 2, 6,
        "Commemorates the Treaty of Waitangi", "National"⟩,
      ⟨"ANZAC Day", 4, 25,
        "Honors Australian and New Zealand Army Corps", "National"⟩,
      ⟨"Queen's Birthday", 6, 3,
        "Celebrates the monarch's birthday", "National"⟩,
      ⟨"Labour Day", 10, 28,
        "Celebrates workers and their contributions", "National"⟩,
      ⟨"Christmas Day", 12, 25,
        "Christian holiday celebrating the birth of Jesus Christ", "Religious"⟩,
      ⟨"Boxing Day", 12, 26,
        "Traditional day for giving to the less fortunate", "National"⟩])]

/-- Property names that every object literal inherits from `Object.prototype`.
`holidayData[countryCode]` is a function (or the prototype object) for these
keys: a truthy value without a `map` method. -/
def inheritedKeys : List String :=
  ["constructor", "hasOwnProperty", "isPrototypeOf", "propertyIsEnumerable",
   "toLocaleString", "toString", "valueOf", "__proto__", "__defineGetter__",
   "__defineSetter__", "__lookupGetter__", "__lookupSetter__"]

/-- `getDefaultHolidays(countryCode)`, with `country = getCountryByCode(countryCode)`. -/
def getDefaultHolidays (dir : String → Option Country) (countryCode : String) :
    List HolidayDef :=
  let country := dir countryCode
  let countryName := match country with
    | some c => c.name
    | none => "National"
  [⟨"New Year's Day", 1, 1, "The first day of the Gregorian calendar year", "National"⟩] ++
  (if countryCode ∉ ["US"] then
    [⟨"Labour Day", 5, 1, "International Workers' Day celebrating laborers", "National"⟩]
   else []) ++
  (if country.isSome ∧ countryCode ∉ ["SA", "AE", "IR", "AF", "PK", "BD", "ID", "MY"] then
    [⟨"Christmas Day", 12, 25,
      "Christian holiday celebrating the birth of Jesus Christ", "Religious"⟩]
   else []) ++
  [⟨"Independence Day", 7, 1, countryName ++ " Independence Day", "National"⟩,
   ⟨"National Day", 12, 1, countryName ++ " National Day", "National"⟩]

/-- The countries with Easter-based holidays (the list of lines 311 and 320). -/
def easterCountries : List String :=
  ["ZA", "GB", "AU", "DE", "FR", "IT", "ES", "CA", "BR", "AR", "CL", "CO", "RO", "PL", "NL"]

/-- The countries with Islamic holidays (line 330). -/
def islamicCountries : List String :=
  ["EG", "ID", "PK", "BD", "IR", "TR", "SA", "AE", "MY", "AF", "DZ", "MA", "SD"]

/-- The countries with Chinese New Year (line 350). -/
def lunarCountries : List String := ["CN", "SG", "MY", "TH", "VN", "ID"]

/-- The array `variableHolidays` of `getHolidaysForCountry`, lines 300 to 358. -/
def variableHolidays (tz : Int) (countryCode : String) (year : Nat) : List VariableHoliday :=
  let easter := calculateEaster tz year
  let goodFriday := (Date.copy easter).setDate tz ((easter.getDate tz).map (· - 2))
  let easterMonday := (Date.copy easter).setDate tz ((easter.getDate tz).map (· + 1))
  (if countryCode ∈ easterCountries then
    [⟨"Good Friday", goodFriday,
      "Christian holiday commemorating the crucifixion of Jesus Christ", "Religious"⟩]
   else []) ++
  (if countryCode ∈ easterCountries then
    [⟨"Easter Monday", easterMonday,
      "Day after Easter Sunday, celebrating the resurrection of Jesus Christ", "Religious"⟩]
   else []) ++
  (if countryCode ∈ islamicCountries then
    [⟨"Eid al-Fitr", calculateEidAlFitr tz year,
      "Islamic holiday marking the end of Ramadan", "Religious"⟩,
     ⟨"Eid al-Adha", calculateEidAlAdha tz year,
      "Islamic holiday commemorating Abraham's sacrifice", "Religious"⟩]
   else []) ++
  (if countryCode ∈ lunarCountries then
    [⟨"Chinese New Year", calculateChineseNewYear tz year,
      "Traditional Chinese lunar new year celebration", "Cultural"⟩]
   else [])

/-- The callback of `baseHolidays.map` (lines 360 to 368). -/
def formatFixed (countryCode : String) (year : Nat) (holiday : HolidayDef) : Holiday :=
  { id := generateHolidayId holiday.name year countryCode
    name := holiday.name
    date := fixedDate year holiday.month holiday.day
    description := holiday.description
    type := holiday.type
    countryCode := countryCode
    observed := true }

/-- The callback of `variableHolidays.map` (lines 370 to 378); `none` when
`toISOString` throws. -/
def formatVariable (countryCode : String) (year : Nat) (holiday : VariableHoliday) :
    Option Holiday :=
  (isoDate holiday.date).map fun date =>
    { id := generateHolidayId holiday.name year countryCode
      name := holiday.name
      date := date
      description := holiday.description
      type := holiday.type
      countryCode := countryCode
      observed := true }

/-- The comparator `(a, b) => new Date(a.date) - new Date(b.date)`. -/
def compareDates (a b : Holiday) : Option Int := dateDifference a.date b.date

/-- `baseHolidays`: `holidayData[countryCode] || getDefaultHolidays(countryCode)`;
`none` when the lookup finds an inherited property, on which `.map` is not a
function. -/
def baseHolidays (dir : String → Option Country) (countryCode : String) :
    Option (List HolidayDef) :=
  match holidayData.lookup countryCode with
  | some table => some table
  | none =>
    if countryCode ∈ inheritedKeys then none
    else some (getDefaultHolidays dir countryCode)

/-- `getHolidaysForCountry(countryCode, year)`; `none` when the call throws. -/
def getHolidaysForCountry (tz : Int) (dir : String → Option Country)
    (countryCode : String) (year : Nat) : Option (List Holiday) :=
  match baseHolidays dir countryCode with
  | none => none
  | some base =>
    let fixedHolidays := base.map (formatFixed countryCode year)
    match mapThrowing (formatVariable countryCode year)
        (variableHolidays tz countryCode year) with
    | none => none
    | some variableHolidaysFormatted =>
      some (sort compareDates (fixedHolidays ++ variableHolidaysFormatted))

/-- The result of `getHolidayById`. -/
inductive Lookup where
  /-- The call threw. -/
  | threw
  /-- The call returned `null` or `undefined`. -/
  | notFound
  /-- The call returned an occurrence. -/
  | found (h : Holiday)
deriving DecidableEq, Repr

/-- `getHolidayById(holidayId)`. -/
def getHolidayById (tz : Int) (dir : String → Option Country) (holidayId : String) : Lookup :=
  let parts := split holidayId '-'
  if parts.length < 3 then Lookup.notFound
  else
    let countryCode := parts.headD ""
    let year := parseInt (parts.getLastD "")
    if countryCode = "" ∨ year = none ∨ year = some 0 then Lookup.notFound
    else
      match getHolidaysForCountry tz dir countryCode (year.getD 0).toNat with
      | none => Lookup.threw
      | some countryHolidays =>
        match countryHolidays.find? (fun holiday => holiday.id = holidayId) with
        | some h => Lookup.found h
        | none => Lookup.notFound

/-- The array `years` of `loadHolidays` (lines 408 to 412): the eight years from
`currentYear - 2` to `currentYear + 5`, with `currentYear` the local year of the
host's clock (2 at least). -/
def years (currentYear : Nat) : List Nat :=
  (List.range 8).map fun i => currentYear - 2 + i

/-- The array `holidaysByCountry[country.code]` that `loadHolidays` fills (lines
417 to 422): the lists of the years, one pushed after the other; `none` when a
call of `getHolidaysForCountry` throws. -/
def holidaysOfCountry (tz : Int) (dir : String → Option Country) (currentYear : Nat)
    (code : String) : Option (List Holiday) :=
  (mapThrowing (getHolidaysForCountry tz dir code) (years currentYear)).map List.flatten

/-- The object `holidaysByCountry` of `loadHolidays` (lines 414 to 425) as the
list of its entries, with `allCountries` the result of `getAllCountries()`;
`none` when a call throws.  (An entry written twice holds the same array both
times, so the first entry of a code stands for the property.) -/
def loadHolidays (tz : Int) (dir : String → Option Country) (allCountries : List Country)
    (currentYear : Nat) : Option (List (String × List Holiday)) :=
  mapThrowing (fun country =>
    (holidaysOfCountry tz dir currentYear country.code).map fun l => (country.code, l))
    allCountries

/-- The test of the search filter (lines 434 to 438) on one occurrence, with
`toLowerCase` as it acts on ASCII text. -/
def searchMatches (searchTerm : String) (holiday : Holiday) : Bool :=
  let lower := fun (s : String) => s.data.map Char.toLower
  decide (lower searchTerm <:+: lower holiday.name) ||
  decide (lower searchTerm <:+: lower holiday.description) ||
  decide (lower searchTerm <:+: lower holiday.type)

/-- The state `filteredHolidays` that the second effect of the provider computes
(lines 427 to 442) from the state `holidays`: the occurrences of the selected
country whose `new Date(holiday.date).getFullYear()` is `selectedYear`, then the
search filter when the search term is not empty. -/
def filteredHolidays (tz : Int) (holidays : List (String × List Holiday))
    (searchTerm selectedCountry : String) (selectedYear : Nat) : List Holiday :=
  let countryHolidays := (holidays.lookup selectedCountry).getD []
  let filtered := countryHolidays.filter fun holiday =>
    Date.getFullYear tz (Date.parse holiday.date) = some (selectedYear : Int)
  if searchTerm = "" then filtered else filtered.filter (searchMatches searchTerm)

/-- The dates that the comments beside the entries of the table of
`calculateChineseNewYear` name (lines 50 to 56): year, month (1 = January), day. -/
def chineseNewYearComments : List (Nat × Int × Int) :=
  [(2024, 2, 10), (2025, 1, 29), (2026, 2, 17), (2027, 2, 6), (2028, 1, 26), (2029, 2, 13),
   (2030, 2, 3)]

/-- The dates that the comments beside the entries of the table of
`calculateEidAlFitr` name (lines 64 to 70): year, month (1 = January), day. -/
def eidAlFitrComments : List (Nat × Int × Int) :=
  [(2024, 4, 10), (2025, 3, 30), (2026, 3, 20), (2027, 3, 9), (2028, 2, 26), (2029, 2, 14),
   (2030, 2, 4)]

/-- The dates that the comments beside the entries of the table of
`calculateEidAlAdha` name (lines 77 to 83): year, month (1 = January), day. -/
def eidAlAdhaComments : List (Nat × Int × Int) :=
  [(2024, 6, 16), (2025, 6, 6), (2026, 5, 26), (2027, 5, 16), (2028, 5, 4), (2029, 4, 23),
   (2030, 4, 12)]

end GlobalHolidayContext

namespace HolidayContext

/-- A holiday occurrence as `generateHolidaysForYear` builds it (no country code). -/
structure Holiday where
  id : String
  name : String
  date : String
  description : String
  type : String
  observed : Bool
deriving DecidableEq, Repr

/-- `generateHolidayId(name, year)` of the South-Africa module. -/
def generateHolidayId (name : String) (year : Nat) : String :=
  slug name ++ "-" ++ numberToString year

/-- The array `baseHolidays` of `generateHolidaysForYear`. -/
def baseHolidays : List HolidayDef :=
  [⟨"New Year's Day", 1, 1, "The first day of the Gregorian calendar year", "National"⟩,
   ⟨"Human Rights Day", 3, 21,
    "Commemorates the Sharpeville Massacre and celebrates human rights", "National"⟩,
   ⟨"Freedom Day", 4, 27, "Commemorates the first democratic elections in 1994", "National"⟩,
   ⟨"Workers' Day", 5, 1, "International Workers' Day celebrating laborers", "National"⟩,
   ⟨"Youth Day", 6, 16, "Commemorates the 1976 Soweto uprising", "National"⟩,
   ⟨"National Women's Day", 8, 9,
    "Commemorates the 1956 women's march to the Union Buildings", "National"⟩,
   ⟨"Heritage Day", 9, 24, "Celebrates South Africa's cultural diversity", "National"⟩,
   ⟨"Day of Reconciliation", 12, 16, "Promotes reconciliation and national unity", "National"⟩,
   ⟨"Christmas Day", 12, 25,
    "Christian holiday celebrating the birth of Jesus Christ", "Religious"⟩,
   ⟨"Day of Goodwill", 12, 26, "Boxing Day, promoting goodwill and charity", "National"⟩]

/-- The array `variableHolidays` of `generateHolidaysForYear`. -/
def variableHolidays (tz : Int) (year : Nat) : List VariableHoliday :=
  let easter := calculateEaster tz year
  let goodFriday := (Date.copy easter).setDate tz ((easter.getDate tz).map (· - 2))
  let familyDay := (Date.copy easter).setDate tz ((easter.getDate tz).map (· + 1))
  [⟨"Good Friday", goodFriday,
    "Christian holiday commemorating the crucifixion of Jesus Christ", "Religious"⟩,
   ⟨"Family Day", familyDay, "Day after Easter Sunday, celebrating family unity", "National"⟩]

/-- The callback of `baseHolidays.map`. -/
def formatFixed (year : Nat) (holiday : HolidayDef) : Holiday :=
  { id := generateHolidayId holiday.name year
    name := holiday.name
    date := fixedDate year holiday.month holiday.day
    description := holiday.description
    type := holiday.type
    observed := true }

/-- The callback of `variableHolidays.map`; `none` when `toISOString` throws. -/
def formatVariable (year : Nat) (holiday : VariableHoliday) : Option Holiday :=
  (isoDate holiday.date).map fun date =>
    { id := generateHolidayId holiday.name year
      name := holiday.name
      date := date
      description := holiday.description
      type := holiday.type
      observed := true }

/-- The comparator `(a, b) => new Date(a.date) - new Date(b.date)`. -/
def compareDates (a b : Holiday) : Option Int := dateDifference a.date b.date

/-- `generateHolidaysForYear(year)`; `none` when the call throws. -/
def generateHolidaysForYear (tz : Int) (year : Nat) : Option (List Holiday) :=
  let fixedHolidays := baseHolidays.map (formatFixed year)
  match mapThrowing (formatVariable year) (variableHolidays tz year) with
  | none => none
  | some variableHolidaysFormatted =>
    some (sort compareDates (fixedHolidays ++ variableHolidaysFormatted))

end HolidayContext

namespace BlogContext

/-- A blog post, with the properties that the editor and the sample posts give
it; `publishedAt` and `updatedAt` are absent from a post that was never saved. -/
structure Post where
  id : String
  title : String
  slug : String
  content : String
  excerpt : String
  author : String
  status : String
  featuredImage : String
  metaTitle : String
  metaDescription : String
  tags : List String
  publishedAt : Option String
  updatedAt : Option String
deriving DecidableEq, Repr

/-- `savePost(post)` as a function of the state `posts`: the array that it
passes to `setPosts`.  `t1` and `t2` are the results of the first and the second
call of `new Date().toISOString()` and `uuid` is the result of `uuidv4()`. -/
def savePost (t1 t2 uuid : String) (posts : List Post) (post : Post) : List Post :=
  let updatedPosts := posts
  let existingIndex := findIndex (fun p => p.id = post.id) updatedPosts
  if existingIndex ≥ 0 then
    updatedPosts.set existingIndex.toNat { post with updatedAt := some t1 }
  else
    updatedPosts ++ [{ post with
      id := if post.id = "" then uuid else post.id
      publishedAt := some t1
      updatedAt := some t2 }]

end BlogContext

/-- An occurrence of the global generator and one of the South-Africa generator
agree: they have the same date, and either they are the two names of the day
after Easter ("Easter Monday", Religious, and "Family Day", National), or they
have the same name, description and type and the global id is `ZA-` followed by
the South-Africa id. -/
def agrees (g : GlobalHolidayContext.Holiday) (s : HolidayContext.Holiday) : Prop :=
  g.date = s.date ∧
  ((s.name = "Family Day" ∧ s.type = "National" ∧ g.name = "Easter Monday" ∧
      g.type = "Religious") ∨
    (s.name ≠ "Family Day" ∧ g.name = s.name ∧ g.description = s.description ∧
      g.type = s.type ∧ g.id = "ZA-" ++ s.id))

/-! ## Auxiliary definitions used in the statements below -/

/-- The names of the moveable holidays, by membership of the country in the
three lists of `getHolidaysForCountry`. -/
def variableNames (easter islamic lunar : Bool) : List String :=
  (if easter then ["Good Friday"] else []) ++
  (if easter then ["Easter Monday"] else []) ++
  (if islamic then ["Eid al-Fitr", "Eid al-Adha"] else []) ++
  (if lunar then ["Chinese New Year"] else [])

/-- The names of the synthesized default set, by whether Labour Day and
Christmas Day are included. -/
def defaultNames (labour christmas : Bool) : List String :=
  ["New Year's Day"] ++ (if labour then ["Labour Day"] else []) ++
  (if christmas then ["Christmas Day"] else []) ++ ["Independence Day", "National Day"]

/-- Every name an occurrence of `getHolidaysForCountry` can have: the names of
the tables of `holidayData`, of the default set and of the moveable holidays. -/
def everyName : List String :=
  GlobalHolidayContext.holidayData.flatMap (fun p => p.2.map (·.name)) ++
    defaultNames true true ++ variableNames true true true

/-- The names of the occurrences of `HolidayContext.generateHolidaysForYear`. -/
def southAfricaNames : List String :=
  HolidayContext.baseHolidays.map (·.name) ++ ["Good Friday", "Family Day"]

/-- A number below 100 written with two decimal digits. -/
def twoDigits (n : Nat) : String := String.mk [Nat.digitChar (n / 10), Nat.digitChar (n % 10)]

/-- Is `c` one of `a` to `z` or `0` to `9`? -/
def isLowerAlphanumeric (c : Char) : Bool :=
  ('a' ≤ c && c ≤ 'z') || ('0' ≤ c && c ≤ '9')

/-- Helper of `slugCollapsingRuns`: `pending` says that the characters just read
form a run of non-alphanumeric characters, for which the hyphen is written. -/
def collapseRuns (pending : Bool) : List Char → List Char
  | [] => []
  | c :: cs =>
    if isLowerAlphanumeric c.toLower then c.toLower :: collapseRuns false cs
    else if pending then collapseRuns true cs
    else '-' :: collapseRuns true cs

/-- The slug as the specification words it: the name in lower case, with every
maximal run of non-alphanumeric characters replaced by a single hyphen. -/
def slugCollapsingRuns (name : String) : String :=
  String.mk (collapseRuns false name.data)

/-- The date part of the ISO rendering of day number `n`. -/
def isoDay (n : Int) : String :=
  isoYear (YearFromDay n) ++ "-" ++
    padStart (numberToString (MonthFromDay n + 1).toNat) 2 '0' ++ "-" ++
    padStart (numberToString (DateFromDay n).toNat) 2 '0'

/-- Day `d` of month `m` (1 = January) exists in year `y`. -/
def validDate (y m d : Nat) : Prop :=
  1 ≤ m ∧ m ≤ 12 ∧ 1 ≤ d ∧ (d : Int) ≤ daysInMonth ((m : Int) - 1) (InLeapYear y)

instance (y m d : Nat) : Decidable (validDate y m d) := by
  unfold validDate
  infer_instance

/-- A Date is local midnight of one of the days 2 January to 29 June of year
`Y` (day `w` within the year, from 0). -/
def JS.IsSpringMidnight (tz Y : Int) (d : Date) : Prop :=
  ∃ w : Int, 1 ≤ w ∧ w ≤ 179 ∧ d = some ((DayFromYear Y + w) * msPerDay - tz * msPerMinute)

/-- A date string of year `y`: the template of the fixed holidays at a day that
exists. -/
def JS.IsDateOf (y : Nat) (s : String) : Prop :=
  ∃ m d : Nat, validDate y m d ∧ s = fixedDate y m d

/-- One character of a name in the slug when the name has only ordinary
characters: lower-cased if that gives one of `a` to `z` or `0` to `9`, else a
hyphen. -/
def hyphenate (c : Char) : Char :=
  if isLowerAlphanumeric c.toLower then c.toLower else '-'

/-- The slug with one hyphen for each character that is not alphanumeric. -/
def slugCharByChar (name : String) : String :=
  String.mk (name.data.map hyphenate)

/-! ## Calendar facts -/

namespace JS

theorem monthStart_cases (m leap : Int) :
    (m = 0 ∧ monthStart m leap = 0) ∨ (m = 1 ∧ monthStart m leap = 31) ∨
    (m = 2 ∧ monthStart m leap = 59 + leap) ∨ (m = 3 ∧ monthStart m leap = 90 + leap) ∨
    (m = 4 ∧ monthStart m leap = 120 + leap) ∨ (m = 5 ∧ monthStart m leap = 151 + leap) ∨
    (m = 6 ∧ monthStart m leap = 181 + leap) ∨ (m = 7 ∧ monthStart m leap = 212 + leap) ∨
    (m = 8 ∧ monthStart m leap = 243 + leap) ∨ (m = 9 ∧ monthStart m leap = 273 + leap) ∨
    (m = 10 ∧ monthStart m leap = 304 + leap) ∨
    ((m < 0 ∨ 11 ≤ m) ∧ monthStart m leap = 334 + leap) := by
  unfold monthStart
  by_cases h0 : m = 0
  · simp [h0]
  by_cases h1 : m = 1
  · simp [h1]
  by_cases h2 : m = 2
  · simp [h2]
  by_cases h3 : m = 3
  · simp [h3]
  by_cases h4 : m = 4
  · simp [h4]
  by_cases h5 : m = 5
  · simp [h5]
  by_cases h6 : m = 6
  · simp [h6]
  by_cases h7 : m = 7
  · simp [h7]
  by_cases h8 : m = 8
  · simp [h8]
  by_cases h9 : m = 9
  · simp [h9]
  by_cases h10 : m = 10
  · simp [h10]
  simp only [h0, h1, h2, h3, h4, h5, h6, h7, h8, h9, h10, if_false, false_and, false_or]
  refine ⟨?_, trivial⟩
  omega

theorem daysInMonth_cases (m leap : Int) (hm : 0 ≤ m ∧ m ≤ 11) :
    (m = 0 ∧ daysInMonth m leap = 31) ∨ (m = 1 ∧ daysInMonth m leap = 28 + leap) ∨
    (m = 2 ∧ daysInMonth m leap = 31) ∨ (m = 3 ∧ daysInMonth m leap = 30) ∨
    (m = 4 ∧ daysInMonth m leap = 31) ∨ (m = 5 ∧ daysInMonth m leap = 30) ∨
    (m = 6 ∧ daysInMonth m leap = 31) ∨ (m = 7 ∧ daysInMonth m leap = 31) ∨
    (m = 8 ∧ daysInMonth m leap = 30) ∨ (m = 9 ∧ daysInMonth m leap = 31) ∨
    (m = 10 ∧ daysInMonth m leap = 30) ∨ (m = 11 ∧ daysInMonth m leap = 31) := by
  obtain ⟨h0, h11⟩ := hm
  interval_cases m <;> norm_num [daysInMonth, monthStart]
  ring

theorem InLeapYear_cases (y : Int) : InLeapYear y = 0 ∨ InLeapYear y = 1 := by
  unfold InLeapYear
  split_ifs <;> simp

theorem DaysInYear_eq (y : Int) : DaysInYear y = 365 + InLeapYear y := by
  unfold InLeapYear DaysInYear
  split_ifs <;> omega

theorem DayFromYear_succ (y : Int) : DayFromYear (y + 1) = DayFromYear y + DaysInYear y := by
  unfold DayFromYear DaysInYear
  split_ifs <;> omega

/-- The year of a day number is the year whose first day is the last one not
after it: the characterisation of ECMAScript `YearFromTime`. -/
theorem YearFromDay_eq (y n : Int) (h1 : DayFromYear y ≤ n) (h2 : n < DayFromYear (y + 1)) :
    YearFromDay n = y := by
  have hb : 1970 + (n * 400) / 146097 - 1 ≤ y ∧ y ≤ 1970 + (n * 400) / 146097 + 1 := by
    unfold DayFromYear at h1 h2
    constructor <;> omega
  obtain ⟨k, hk⟩ : ∃ k : Int, k = 1970 + (n * 400) / 146097 := ⟨_, rfl⟩
  have hy : y = k - 1 ∨ y = k ∨ y = k + 1 := by omega
  unfold YearFromDay
  simp only [← hk]
  rcases hy with hy | hy | hy <;> subst hy
  · have e : k - 1 + 1 = k := by ring
    rw [e] at h2
    rw [if_pos h2]
  · rw [if_neg (by omega), if_neg (by omega)]
  · have h3 := DayFromYear_succ k
    have h4 := DaysInYear_eq k
    have h5 := InLeapYear_cases k
    rw [if_neg (by omega), if_pos h1]

theorem MakeDay_eq (y m d : Int) (hm : 0 ≤ m ∧ m ≤ 11) :
    MakeDay y m d = DayFromYear y + monthStart m (InLeapYear y) + d - 1 := by
  unfold MakeDay
  have h1 : m / 12 = 0 := by omega
  have h2 : m % 12 = m := by omega
  simp only [h1, h2, add_zero]

theorem monthStart_bounds (m leap d : Int) (hm : 0 ≤ m ∧ m ≤ 11) (hl : leap = 0 ∨ leap = 1)
    (hd : 1 ≤ d ∧ d ≤ daysInMonth m leap) :
    0 ≤ monthStart m leap + d - 1 ∧ monthStart m leap + d - 1 < 365 + leap := by
  obtain ⟨h0, h11⟩ := hm
  unfold daysInMonth at hd
  interval_cases m <;> simp [monthStart] at hd ⊢ <;> omega

theorem YearFromDay_MakeDay (y m d : Int) (hm : 0 ≤ m ∧ m ≤ 11)
    (hd : 1 ≤ d ∧ d ≤ daysInMonth m (InLeapYear y)) : YearFromDay (MakeDay y m d) = y := by
  have hb := monthStart_bounds m (InLeapYear y) d hm (InLeapYear_cases y) hd
  have hs := DayFromYear_succ y
  have hy := DaysInYear_eq y
  rw [MakeDay_eq y m d hm]
  exact YearFromDay_eq y _ (by omega) (by omega)

theorem monthOfDay_aux (w leap m : Int) (hl : leap = 0 ∨ leap = 1) (hm : 0 ≤ m ∧ m ≤ 11)
    (h1 : monthStart m leap ≤ w) (h2 : w < monthStart m leap + daysInMonth m leap) :
    (if w < 31 then 0
      else if w < 59 + leap then 1
      else if w < 90 + leap then 2
      else if w < 120 + leap then 3
      else if w < 151 + leap then 4
      else if w < 181 + leap then 5
      else if w < 212 + leap then 6
      else if w < 243 + leap then 7
      else if w < 273 + leap then 8
      else if w < 304 + leap then 9
      else if w < 334 + leap then 10
      else 11 : Int) = m := by
  obtain ⟨h0, h11⟩ := hm
  have hs : ∀ k : Int, monthStart k leap =
      if k = 0 then 0 else if k = 1 then 31 else if k = 2 then 59 + leap
      else if k = 3 then 90 + leap else if k = 4 then 120 + leap
      else if k = 5 then 151 + leap else if k = 6 then 181 + leap
      else if k = 7 then 212 + leap else if k = 8 then 243 + leap
      else if k = 9 then 273 + leap else if k = 10 then 304 + leap else 334 + leap :=
    fun _ => rfl
  unfold daysInMonth at h2
  have hm' : m = 0 ∨ m = 1 ∨ m = 2 ∨ m = 3 ∨ m = 4 ∨ m = 5 ∨ m = 6 ∨ m = 7 ∨ m = 8 ∨ m = 9 ∨
      m = 10 ∨ m = 11 := by omega
  rcases hm' with h | h | h | h | h | h | h | h | h | h | h | h <;> subst h <;>
    norm_num [hs] at h1 h2 <;>
    repeat (first | rw [if_pos (by omega)] | rw [if_neg (by omega)])

theorem MonthFromDay_MakeDay (y m d : Int) (hm : 0 ≤ m ∧ m ≤ 11)
    (hd : 1 ≤ d ∧ d ≤ daysInMonth m (InLeapYear y)) : MonthFromDay (MakeDay y m d) = m := by
  have hY := YearFromDay_MakeDay y m d hm hd
  unfold MonthFromDay DayWithinYear
  rw [hY, MakeDay_eq y m d hm]
  exact monthOfDay_aux _ _ m (InLeapYear_cases y) hm (by omega) (by omega)

theorem DateFromDay_MakeDay (y m d : Int) (hm : 0 ≤ m ∧ m ≤ 11)
    (hd : 1 ≤ d ∧ d ≤ daysInMonth m (InLeapYear y)) : DateFromDay (MakeDay y m d) = d := by
  unfold DateFromDay DayWithinYear
  rw [MonthFromDay_MakeDay y m d hm hd, YearFromDay_MakeDay y m d hm hd, MakeDay_eq y m d hm]
  ring

/-- The day number of 1 March, by the count of leap days up to the year. -/
theorem DayFromYear_march (y : Int) :
    DayFromYear y + 59 + InLeapYear y = 365 * y + y / 4 - y / 100 + y / 400 - 719468 := by
  unfold DayFromYear InLeapYear DaysInYear
  split_ifs <;> omega

theorem Day_mul_msPerDay (n : Int) : Day (n * msPerDay) = n := by
  unfold Day msPerDay
  omega

theorem LocalTime_UTC (tz t : Int) : LocalTime tz (UTC tz t) = t := by
  unfold LocalTime UTC
  ring

end JS

/-! ## Facts about characters, digits and decimal numerals -/

namespace JS

theorem char_le_iff (a b : Char) : a ≤ b ↔ a.toNat ≤ b.toNat := Iff.rfl

theorem char_eq_of_toNat_eq (a b : Char) (h : a.toNat = b.toNat) : a = b :=
  Char.ext (UInt32.ext h)

/-- A digit of radix 10 is one of the characters `0` to `9`. -/
theorem isRadixDigit_ten_iff (c : Char) :
    isRadixDigit 10 c = true ↔ (48 ≤ c.toNat ∧ c.toNat ≤ 57) := by
  have h0 : ('0' : Char).toNat = 48 := rfl
  have h9 : ('9' : Char).toNat = 57 := rfl
  have ha : ('a' : Char).toNat = 97 := rfl
  have hz : ('z' : Char).toNat = 122 := rfl
  have hA : ('A' : Char).toNat = 65 := rfl
  have hZ : ('Z' : Char).toNat = 90 := rfl
  unfold isRadixDigit digitValue
  simp only [char_le_iff, h0, h9, ha, hz, hA, hZ]
  split_ifs with h1 h2 h3 <;> simp <;> omega

theorem digitValue_of_digit (c : Char) (h : isRadixDigit 10 c = true) :
    digitValue c = some (c.toNat - 48) := by
  rw [isRadixDigit_ten_iff] at h
  have h0 : ('0' : Char).toNat = 48 := rfl
  have h9 : ('9' : Char).toNat = 57 := rfl
  unfold digitValue
  rw [if_pos (by simp only [char_le_iff, h0, h9]; omega)]

theorem digitChar_toNat (k : Nat) (h : k < 10) : (Nat.digitChar k).toNat = 48 + k := by
  interval_cases k <;> rfl

theorem isRadixDigit_digitChar (k : Nat) (h : k < 10) :
    isRadixDigit 10 (Nat.digitChar k) = true := by
  rw [isRadixDigit_ten_iff, digitChar_toNat k h]
  omega

theorem digitValue_digitChar (k : Nat) (h : k < 10) :
    digitValue (Nat.digitChar k) = some k := by
  rw [digitValue_of_digit _ (isRadixDigit_digitChar k h), digitChar_toNat k h]
  simp

theorem toDigitsCore_succ (fuel n : Nat) (ds : List Char) :
    Nat.toDigitsCore 10 (fuel + 1) n ds =
      if n / 10 = 0 then Nat.digitChar (n % 10) :: ds
      else Nat.toDigitsCore 10 fuel (n / 10) (Nat.digitChar (n % 10) :: ds) := rfl

/-- The digits do not depend on the fuel, once there is enough of it. -/
theorem toDigitsCore_eq : ∀ (n fuel : Nat) (ds : List Char), n < fuel →
    Nat.toDigitsCore 10 fuel n ds = Nat.toDigits 10 n ++ ds := by
  intro n
  induction n using Nat.strong_induction_on with
  | _ n ih =>
    intro fuel ds h
    obtain ⟨f, rfl⟩ : ∃ f, fuel = f + 1 := ⟨fuel - 1, by omega⟩
    unfold Nat.toDigits
    rw [toDigitsCore_succ, toDigitsCore_succ]
    by_cases h0 : n / 10 = 0
    · simp [h0]
    · rw [if_neg h0, if_neg h0, ih (n / 10) (by omega) f _ (by omega),
        ih (n / 10) (by omega) n _ (by omega)]
      simp

theorem toDigits_lt_ten (n : Nat) (h : n < 10) : Nat.toDigits 10 n = [Nat.digitChar n] := by
  unfold Nat.toDigits
  rw [toDigitsCore_succ, if_pos (by omega), Nat.mod_eq_of_lt h]

theorem toDigits_ge_ten (n : Nat) (h : 10 ≤ n) :
    Nat.toDigits 10 n = Nat.toDigits 10 (n / 10) ++ [Nat.digitChar (n % 10)] := by
  conv_lhs => unfold Nat.toDigits
  rw [toDigitsCore_succ, if_neg (by omega), toDigitsCore_eq (n / 10) n _ (by omega)]

theorem numberToString_data (n : Nat) : (numberToString n).data = Nat.toDigits 10 n := rfl

theorem toDigits_ne_nil (n : Nat) : Nat.toDigits 10 n ≠ [] := by
  by_cases h : n < 10
  · rw [toDigits_lt_ten n h]; simp
  · rw [toDigits_ge_ten n (by omega)]; simp

theorem toDigits_isDigit : ∀ (n : Nat), ∀ c ∈ Nat.toDigits 10 n, isRadixDigit 10 c = true := by
  intro n
  induction n using Nat.strong_induction_on with
  | _ n ih =>
    intro c hc
    by_cases h : n < 10
    · rw [toDigits_lt_ten n h] at hc
      simp only [List.mem_singleton] at hc
      subst hc
      exact isRadixDigit_digitChar n h
    · rw [toDigits_ge_ten n (by omega)] at hc
      simp only [List.mem_append, List.mem_singleton] at hc
      rcases hc with hc | hc
      · exact ih (n / 10) (by omega) c hc
      · subst hc
        exact isRadixDigit_digitChar _ (Nat.mod_lt _ (by decide))

theorem radixValue_append_singleton (r : Nat) (cs : List Char) (c : Char) :
    radixValue r (cs ++ [c]) = radixValue r cs * r + (digitValue c).getD 0 := by
  unfold radixValue
  rw [List.foldl_append]
  rfl

theorem radixValue_toDigits : ∀ (n : Nat), radixValue 10 (Nat.toDigits 10 n) = n := by
  intro n
  induction n using Nat.strong_induction_on with
  | _ n ih =>
    by_cases h : n < 10
    · rw [toDigits_lt_ten n h]
      simp [radixValue, digitValue_digitChar n h]
    · rw [toDigits_ge_ten n (by omega), radixValue_append_singleton, ih (n / 10) (by omega),
        digitValue_digitChar _ (Nat.mod_lt _ (by decide))]
      simp only [Option.getD_some]
      omega

theorem toDigits_two (n : Nat) (h1 : 10 ≤ n) (h2 : n < 100) :
    Nat.toDigits 10 n = [Nat.digitChar (n / 10), Nat.digitChar (n % 10)] := by
  rw [toDigits_ge_ten n h1, toDigits_lt_ten (n / 10) (by omega)]
  rfl

theorem toDigits_four (n : Nat) (h1 : 1000 ≤ n) (h2 : n < 10000) :
    Nat.toDigits 10 n = [Nat.digitChar (n / 1000), Nat.digitChar (n / 100 % 10),
      Nat.digitChar (n / 10 % 10), Nat.digitChar (n % 10)] := by
  rw [toDigits_ge_ten n (by omega), toDigits_ge_ten (n / 10) (by omega),
    toDigits_ge_ten (n / 10 / 10) (by omega), toDigits_lt_ten (n / 10 / 10 / 10) (by omega)]
  have e1 : n / 10 / 10 / 10 = n / 1000 := by omega
  have e2 : n / 10 / 10 % 10 = n / 100 % 10 := by omega
  rw [e1, e2]
  rfl

/-- `String(n).padStart(2, '0')` writes a number below 100 with two digits. -/
theorem padStart_two (n : Nat) (h : n < 100) :
    padStart (numberToString n) 2 '0' = twoDigits n := by
  unfold padStart twoDigits
  rw [numberToString_data]
  by_cases h10 : n < 10
  · rw [toDigits_lt_ten n h10]
    have e1 : n / 10 = 0 := by omega
    have e2 : n % 10 = n := by omega
    rw [e1, e2]
    rfl
  · rw [toDigits_two n (by omega) h]
    rfl

end JS

/-! ## Facts about Date objects -/

namespace JS

theorem TimeClip_of_range (t : Int) (h : -8640000000000000 ≤ t ∧ t ≤ 8640000000000000) :
    TimeClip t = some t := by
  unfold TimeClip
  rw [if_pos h]

theorem TimeWithinDay_mul (n : Int) : TimeWithinDay (n * msPerDay) = 0 := by
  unfold TimeWithinDay msPerDay
  omega

/-- The time value of local midnight of day number `n`. -/
theorem localMidnight_range (tz n : Int) (htz : -1440 < tz ∧ tz < 1440)
    (hn : -99999999 ≤ n ∧ n ≤ 99999998) :
    -8640000000000000 ≤ n * msPerDay - tz * msPerMinute ∧
      n * msPerDay - tz * msPerMinute ≤ 8640000000000000 := by
  unfold msPerDay msPerMinute
  omega

theorem DayFromYear_bounds (y : Int) (h : 0 ≤ y ∧ y ≤ 275760) :
    -719528 ≤ DayFromYear y ∧ DayFromYear y ≤ 99999744 := by
  unfold DayFromYear
  omega

theorem monthStart_le (m leap : Int) (hl : leap = 0 ∨ leap = 1) :
    0 ≤ monthStart m leap ∧ monthStart m leap ≤ 335 := by
  have := monthStart_cases m leap
  omega

/-- Day numbers of the first half of a year up to 275760, a few days either
way, are time values that a Date can hold. -/
theorem MakeDay_bounds (y m d : Int) (hy : 0 ≤ y ∧ y ≤ 275760) (hm : 0 ≤ m ∧ m ≤ 5)
    (hd : -40 ≤ d ∧ d ≤ 70) :
    -99999999 ≤ MakeDay y m d ∧ MakeDay y m d ≤ 99999998 := by
  rw [MakeDay_eq y m d ⟨hm.1, by omega⟩]
  have h1 := DayFromYear_bounds y hy
  have hl := InLeapYear_cases y
  have h2 := monthStart_cases m (InLeapYear y)
  omega

theorem MakeFullYear_bounds (y : Nat) (hy : y ≤ 275760) :
    0 ≤ MakeFullYear y ∧ MakeFullYear y ≤ 275760 := by
  unfold MakeFullYear
  split_ifs <;> omega

theorem MakeFullYear_of_ge (y : Nat) (hy : 100 ≤ y) : MakeFullYear y = y := by
  unfold MakeFullYear
  rw [if_neg (by omega)]

/-- `new Date(year, month, date)` for a day of the first half of a year up to
275760 is local midnight of that day. -/
theorem ofYMD_eq (tz : Int) (y : Nat) (m d : Int) (htz : -1440 < tz ∧ tz < 1440)
    (hy : y ≤ 275760) (hm : 0 ≤ m ∧ m ≤ 5) (hd : -40 ≤ d ∧ d ≤ 70) :
    Date.ofYMD tz y m d = some (MakeDay (MakeFullYear y) m d * msPerDay - tz * msPerMinute) := by
  unfold Date.ofYMD UTC
  exact TimeClip_of_range _
    (localMidnight_range tz _ htz (MakeDay_bounds _ m d (MakeFullYear_bounds y hy) hm hd))

theorem MakeDay_add (y m d k : Int) : MakeDay y m (d + k) = MakeDay y m d + k := by
  unfold MakeDay
  ring

/-- `getDate()` of local midnight of a valid day. -/
theorem getDate_localMidnight (tz Y m d : Int) (hm : 0 ≤ m ∧ m ≤ 11)
    (hd : 1 ≤ d ∧ d ≤ daysInMonth m (InLeapYear Y)) :
    Date.getDate tz (some (MakeDay Y m d * msPerDay - tz * msPerMinute)) = some d := by
  unfold Date.getDate LocalTime
  simp only [Option.map_some', sub_add_cancel, Day_mul_msPerDay, DateFromDay_MakeDay Y m d hm hd]

theorem getMonth_localMidnight (tz Y m d : Int) (hm : 0 ≤ m ∧ m ≤ 11)
    (hd : 1 ≤ d ∧ d ≤ daysInMonth m (InLeapYear Y)) :
    Date.getMonth tz (some (MakeDay Y m d * msPerDay - tz * msPerMinute)) = some m := by
  unfold Date.getMonth LocalTime
  simp only [Option.map_some', sub_add_cancel, Day_mul_msPerDay, MonthFromDay_MakeDay Y m d hm hd]

theorem getFullYear_localMidnight (tz Y m d : Int) (hm : 0 ≤ m ∧ m ≤ 11)
    (hd : 1 ≤ d ∧ d ≤ daysInMonth m (InLeapYear Y)) :
    Date.getFullYear tz (some (MakeDay Y m d * msPerDay - tz * msPerMinute)) = some Y := by
  unfold Date.getFullYear LocalTime
  simp only [Option.map_some', sub_add_cancel, Day_mul_msPerDay, YearFromDay_MakeDay Y m d hm hd]

/-- `setDate(v)` on a copy of local midnight of a valid day: local midnight of
day `v` of the same month, where `v` may lie outside the month. -/
theorem setDate_localMidnight (tz Y m d v : Int) (htz : -1440 < tz ∧ tz < 1440)
    (hY : 0 ≤ Y ∧ Y ≤ 275760) (hm : 0 ≤ m ∧ m ≤ 5)
    (hd : 1 ≤ d ∧ d ≤ daysInMonth m (InLeapYear Y)) (hv : -40 ≤ v ∧ v ≤ 70) :
    Date.setDate tz (Date.copy (some (MakeDay Y m d * msPerDay - tz * msPerMinute))) (some v) =
      some (MakeDay Y m v * msPerDay - tz * msPerMinute) := by
  have hm' : 0 ≤ m ∧ m ≤ 11 := ⟨hm.1, by omega⟩
  have hd31 : d ≤ 31 := by
    have h1 := daysInMonth_cases m (InLeapYear Y) hm'
    have hl := InLeapYear_cases Y
    omega
  have hr := localMidnight_range tz _ htz (MakeDay_bounds Y m d hY hm ⟨by omega, by omega⟩)
  have hr' := localMidnight_range tz _ htz (MakeDay_bounds Y m v hY hm hv)
  unfold Date.copy
  rw [Option.some_bind, TimeClip_of_range _ hr]
  unfold Date.setDate LocalTime UTC
  simp only [sub_add_cancel, Day_mul_msPerDay, YearFromDay_MakeDay Y m d hm' hd,
    MonthFromDay_MakeDay Y m d hm' hd, TimeWithinDay_mul, add_zero]
  exact TimeClip_of_range _ hr'

/-- The UTC day of local midnight of day `n`: the day before, east of Greenwich. -/
theorem Day_localMidnight (tz n : Int) (htz : -1440 < tz ∧ tz < 1440) :
    Day (n * msPerDay - tz * msPerMinute) = if 0 < tz then n - 1 else n := by
  unfold Day msPerDay msPerMinute
  split_ifs <;> omega

end JS

/-! ## Facts about `split`, `parseInt` and `sort` -/

namespace JS

theorem splitChars_cons (sep c : Char) (cs : List Char) :
    splitChars sep (c :: cs) =
      if c = sep then [] :: splitChars sep cs
      else match splitChars sep cs with
        | [] => [[c]]
        | t :: ts => (c :: t) :: ts := by
  rw [splitChars]

theorem splitChars_ne_nil (sep : Char) (cs : List Char) : splitChars sep cs ≠ [] := by
  cases cs with
  | nil => simp [splitChars]
  | cons c cs =>
    rw [splitChars_cons]
    split_ifs
    · simp
    · split <;> simp

theorem splitChars_of_not_mem (sep : Char) : ∀ (cs : List Char), sep ∉ cs →
    splitChars sep cs = [cs] := by
  intro cs
  induction cs with
  | nil => intro _; rfl
  | cons c cs ih =>
    intro h
    simp only [List.mem_cons, not_or] at h
    rw [splitChars_cons, if_neg (fun e => h.1 e.symm), ih h.2]

/-- Splitting `xs ++ sep :: ys` gives the pieces of `xs` followed by those of `ys`. -/
theorem splitChars_append_sep (sep : Char) (ys : List Char) : ∀ (xs : List Char),
    splitChars sep (xs ++ sep :: ys) = splitChars sep xs ++ splitChars sep ys := by
  intro xs
  induction xs with
  | nil =>
    rw [List.nil_append, splitChars_cons, if_pos rfl]
    rfl
  | cons c xs ih =>
    simp only [List.cons_append]
    by_cases hc : c = sep
    · rw [splitChars_cons, if_pos hc, splitChars_cons, if_pos hc, ih]
      rfl
    · have hne := splitChars_ne_nil sep xs
      rw [splitChars_cons, if_neg hc, ih, splitChars_cons, if_neg hc]
      cases hx : splitChars sep xs with
      | nil => exact absurd hx hne
      | cons t ts => rfl

theorem isRadixDigit_ne (c d : Char) (h : isRadixDigit 10 c = true)
    (hd : d.toNat < 48 ∨ 57 < d.toNat) : c ≠ d := by
  rw [isRadixDigit_ten_iff] at h
  rintro rfl
  omega

theorem not_isStrWhiteSpace_of_digit (c : Char) (h : isRadixDigit 10 c = true) :
    isStrWhiteSpace c = false := by
  rw [isRadixDigit_ten_iff] at h
  unfold isStrWhiteSpace
  simp only [Bool.or_eq_false_iff, Bool.and_eq_false_imp, decide_eq_false_iff_not,
    decide_eq_true_eq]
  omega

/-- `parseInt(String(n))` is `n`. -/
theorem parseInt_numberToString (n : Nat) : parseInt (numberToString n) = some (n : Int) := by
  have hd := toDigits_isDigit n
  have hv := radixValue_toDigits n
  unfold parseInt
  rw [numberToString_data]
  cases hds : Nat.toDigits 10 n with
  | nil => exact absurd hds (toDigits_ne_nil n)
  | cons c rest =>
    rw [hds] at hd hv
    have hc : isRadixDigit 10 c = true := hd c (by simp)
    have hw : isStrWhiteSpace c = false := not_isStrWhiteSpace_of_digit c hc
    have hm : c ≠ '-' := isRadixDigit_ne c _ hc (by decide)
    have hp : c ≠ '+' := isRadixDigit_ne c _ hc (by decide)
    have h1 : List.dropWhile isStrWhiteSpace (c :: rest) = c :: rest := by
      simp [List.dropWhile, hw]
    have hx : List.take 2 (c :: rest) ≠ ['0', 'x'] ∧ List.take 2 (c :: rest) ≠ ['0', 'X'] := by
      cases rest with
      | nil => simp
      | cons c2 r2 =>
        have hc2 : isRadixDigit 10 c2 = true := hd c2 (by simp)
        have := isRadixDigit_ne c2 'x' hc2 (by decide)
        have := isRadixDigit_ne c2 'X' hc2 (by decide)
        simp [*]
    have ht : List.takeWhile (isRadixDigit 10) (c :: rest) = c :: rest :=
      List.takeWhile_eq_self_iff.mpr hd
    simp only [h1, List.head?_cons, Option.some.injEq, hm, hp, or_self, if_false, hx.1, hx.2, ht,
      hv]
    simp

theorem orderedInsert_congr {α : Type} (r s : α → α → Prop) [DecidableRel r] [DecidableRel s]
    (a : α) : ∀ (l : List α), (∀ b ∈ l, r a b ↔ s a b) →
    l.orderedInsert r a = l.orderedInsert s a := by
  intro l
  induction l with
  | nil => intro _; rfl
  | cons b l ih =>
    intro h
    have hb : r a b ↔ s a b := h b (by simp)
    simp only [List.orderedInsert]
    by_cases hr : r a b
    · rw [if_pos hr, if_pos (hb.mp hr)]
    · rw [if_neg hr, if_neg (fun hs => hr (hb.mpr hs)), ih (fun c hc => h c (by simp [hc]))]

/-- Insertion sort depends on the relation only between elements of the list. -/
theorem insertionSort_congr {α : Type} (r s : α → α → Prop) [DecidableRel r] [DecidableRel s] :
    ∀ (l : List α), (∀ a ∈ l, ∀ b ∈ l, r a b ↔ s a b) →
    l.insertionSort r = l.insertionSort s := by
  intro l
  induction l with
  | nil => intro _; rfl
  | cons a l ih =>
    intro h
    simp only [List.insertionSort]
    rw [ih (fun x hx y hy => h x (by simp [hx]) y (by simp [hy]))]
    apply orderedInsert_congr
    intro b hb
    have hb' : b ∈ l := (List.perm_insertionSort s l).subset hb
    exact h a (by simp) b (by simp [hb'])

theorem sort_perm {α : Type} (cmp : α → α → Option Int) (l : List α) : (sort cmp l).Perm l :=
  List.perm_insertionSort _ l

/-- When the comparator is the difference of an integer key on the elements of
the list, `sort` orders the list by that key. -/
theorem sort_sorted_of_key {α : Type} (cmp : α → α → Option Int) (key : α → Int) (l : List α)
    (h : ∀ a ∈ l, ∀ b ∈ l, cmp a b = some (key a - key b)) :
    (sort cmp l).Pairwise (fun a b => key a ≤ key b) := by
  have e : sort cmp l = l.insertionSort (fun a b => key a ≤ key b) := by
    unfold sort
    apply insertionSort_congr
    intro a ha b hb
    rw [h a ha b hb]
    simp
  rw [e]
  haveI : IsTotal α (fun a b => key a ≤ key b) := ⟨fun a b => le_total (key a) (key b)⟩
  haveI : IsTrans α (fun a b => key a ≤ key b) := ⟨fun a b c => le_trans⟩
  exact List.sorted_insertionSort (fun a b => key a ≤ key b) l

theorem mapThrowing_map {α β γ : Type} (f : α → Option β) (g : β → γ) (g' : α → γ)
    (h : ∀ a b, f a = some b → g b = g' a) : ∀ (l : List α) (l' : List β),
    mapThrowing f l = some l' → l'.map g = l.map g' := by
  intro l
  induction l with
  | nil =>
    intro l' hl
    simp only [mapThrowing, Option.some.injEq] at hl
    subst hl
    rfl
  | cons a l ih =>
    intro l' hl
    unfold mapThrowing at hl
    cases hfa : f a with
    | none => rw [hfa] at hl; cases hl
    | some b =>
      rw [hfa] at hl
      cases hm : mapThrowing f l with
      | none => rw [hm] at hl; cases hl
      | some t =>
        rw [hm] at hl
        simp only [Option.map_some', Option.some.injEq] at hl
        subst hl
        simp only [List.map_cons, ih t hm, h a b hfa]

theorem mapThrowing_mem {α β : Type} (f : α → Option β) : ∀ (l : List α) (l' : List β),
    mapThrowing f l = some l' → ∀ b ∈ l', ∃ a ∈ l, f a = some b := by
  intro l
  induction l with
  | nil =>
    intro l' hl b hb
    simp only [mapThrowing, Option.some.injEq] at hl
    subst hl
    cases hb
  | cons a l ih =>
    intro l' hl b hb
    unfold mapThrowing at hl
    cases hfa : f a with
    | none => rw [hfa] at hl; cases hl
    | some b0 =>
      rw [hfa] at hl
      cases hm : mapThrowing f l with
      | none => rw [hm] at hl; cases hl
      | some t =>
        rw [hm] at hl
        simp only [Option.map_some', Option.some.injEq] at hl
        subst hl
        rcases List.mem_cons.mp hb with hb | hb
        · exact ⟨a, by simp, by rw [hfa, hb]⟩
        · obtain ⟨x, hx, hfx⟩ := ih t hm b hb
          exact ⟨x, by simp [hx], hfx⟩

end JS

/-! ## Facts about the ISO rendering -/

namespace JS

theorem padStart_isDigit (k w : Nat) :
    ∀ c ∈ (padStart (numberToString k) w '0').data, isRadixDigit 10 c = true := by
  intro c hc
  unfold padStart at hc
  simp only [List.mem_append, List.mem_replicate] at hc
  rcases hc with ⟨_, rfl⟩ | hc
  · decide
  · exact toDigits_isDigit k c hc

theorem isoYear_chars (y : Int) :
    ∀ c ∈ (isoYear y).data, isRadixDigit 10 c = true ∨ c = '-' ∨ c = '+' := by
  intro c hc
  unfold isoYear at hc
  split_ifs at hc
  · exact Or.inl (padStart_isDigit _ _ c hc)
  · rw [String.data_append, List.mem_append] at hc
    rcases hc with hc | hc
    · simp only [String.data, List.mem_singleton] at hc
      exact Or.inr (Or.inl hc)
    · exact Or.inl (padStart_isDigit _ _ c hc)
  · rw [String.data_append, List.mem_append] at hc
    rcases hc with hc | hc
    · simp only [String.data, List.mem_singleton] at hc
      exact Or.inr (Or.inr hc)
    · exact Or.inl (padStart_isDigit _ _ c hc)

theorem isoDay_no_T (n : Int) : 'T' ∉ (isoDay n).data := by
  intro h
  unfold isoDay at h
  simp only [String.data_append, List.mem_append] at h
  have hd : ∀ c, isRadixDigit 10 c = true → c ≠ 'T' :=
    fun c hc => isRadixDigit_ne c 'T' hc (by decide)
  rcases h with (((h | h) | h) | h) | h
  · rcases isoYear_chars _ _ h with h1 | h1 | h1
    · exact hd _ h1 rfl
    · revert h1; decide
    · revert h1; decide
  · revert h; decide
  · exact hd _ (padStart_isDigit _ _ _ h) rfl
  · revert h; decide
  · exact hd _ (padStart_isDigit _ _ _ h) rfl

/-- The expression `d.toISOString().split('T')[0]` is the date part of the
rendering: the UTC date of the time value. -/
theorem isoDate_some (t : Int) : isoDate (some t) = some (isoDay (Day t)) := by
  unfold isoDate Date.toISOString
  simp only [Option.map_some', Option.some.injEq]
  unfold split
  have e : ∀ (a b c d e f g : String), (isoDay (Day t) ++ "T" ++ a ++ b ++ c ++ d ++ e ++ f ++ g).data =
      (isoDay (Day t)).data ++ 'T' :: (a ++ b ++ c ++ d ++ e ++ f ++ g).data := by
    intro a b c d e f g
    simp only [String.data_append, List.append_assoc]
    rfl
  have e2 := e (padStart (numberToString (TimeWithinDay t / msPerHour).toNat) 2 '0') ":"
    (padStart (numberToString (TimeWithinDay t % msPerHour / msPerMinute).toNat) 2 '0') ":"
    (padStart (numberToString (TimeWithinDay t % msPerMinute / msPerSecond).toNat) 2 '0') "."
    (padStart (numberToString (TimeWithinDay t % msPerSecond).toNat) 3 '0' ++ "Z")
  simp only [← String.append_assoc] at e2
  have hT := isoDay_no_T (Day t)
  unfold isoDay at e2 hT ⊢
  rw [e2, splitChars_append_sep, splitChars_of_not_mem 'T' _ hT]
  rfl

end JS

/-! ## Facts about the generator -/

namespace GlobalHolidayContext

theorem variableHolidays_names (tz : Int) (cc : String) (y : Nat) :
    (variableHolidays tz cc y).map (·.name) =
      variableNames (decide (cc ∈ easterCountries)) (decide (cc ∈ islamicCountries))
        (decide (cc ∈ lunarCountries)) := by
  unfold variableHolidays variableNames
  by_cases h1 : cc ∈ easterCountries <;> by_cases h2 : cc ∈ islamicCountries <;>
    by_cases h3 : cc ∈ lunarCountries <;> simp [h1, h2, h3]

theorem getDefaultHolidays_names (dir : String → Option Country) (cc : String) :
    (getDefaultHolidays dir cc).map (·.name) =
      defaultNames (decide (cc ∉ ["US"]))
        (decide ((dir cc).isSome ∧ cc ∉ ["SA", "AE", "IR", "AF", "PK", "BD", "ID", "MY"])) := by
  unfold getDefaultHolidays defaultNames
  by_cases h1 : cc ∉ ["US"] <;>
    by_cases h2 : (dir cc).isSome ∧ cc ∉ ["SA", "AE", "IR", "AF", "PK", "BD", "ID", "MY"] <;>
    simp only [h1, h2, if_true, if_false, decide_True, decide_False, List.map_append,
      List.map_cons, List.map_nil, not_true_eq_false, not_false_eq_true] <;> simp

theorem lookup_mem {α : Type} (k : String) (v : α) : ∀ (l : List (String × α)),
    l.lookup k = some v → (k, v) ∈ l := by
  intro l
  induction l with
  | nil => intro h; cases h
  | cons p l ih =>
    intro h
    obtain ⟨k', v'⟩ := p
    simp only [List.lookup] at h
    by_cases e : k = k'
    · subst e
      simp only [beq_self_eq_true] at h
      cases h
      simp
    · have : (k == k') = false := by simpa using e
      rw [this] at h
      exact List.mem_cons_of_mem _ (ih h)

set_option maxRecDepth 100000 in
theorem table_slugs_nodup : ∀ p ∈ holidayData, ∀ e i l : Bool,
    ((p.2.map (·.name) ++ variableNames e i l).map slug).Nodup := by
  decide

set_option maxRecDepth 100000 in
theorem default_slugs_nodup : ∀ a b e i l : Bool,
    ((defaultNames a b ++ variableNames e i l).map slug).Nodup := by
  decide


theorem baseHolidays_cases (dir : String → Option Country) (cc : String)
    (base : List HolidayDef) (h : baseHolidays dir cc = some base) :
    (cc, base) ∈ holidayData ∨
      (holidayData.lookup cc = none ∧ base = getDefaultHolidays dir cc) := by
  unfold baseHolidays at h
  cases hl : holidayData.lookup cc with
  | some table =>
    rw [hl] at h
    simp only [Option.some.injEq] at h
    subst h
    exact Or.inl (lookup_mem cc table holidayData hl)
  | none =>
    rw [hl] at h
    simp only at h
    split_ifs at h
    simp only [Option.some.injEq] at h
    exact Or.inr ⟨rfl, h.symm⟩

/-- The list that `getHolidaysForCountry` returns is the sorted concatenation of
the formatted fixed and moveable holidays. -/
theorem getHolidaysForCountry_eq (tz : Int) (dir : String → Option Country) (cc : String)
    (y : Nat) (l : List Holiday) (h : getHolidaysForCountry tz dir cc y = some l) :
    ∃ base varf, baseHolidays dir cc = some base ∧
      mapThrowing (formatVariable cc y) (variableHolidays tz cc y) = some varf ∧
      l = sort compareDates (base.map (formatFixed cc y) ++ varf) := by
  unfold getHolidaysForCountry at h
  cases hb : baseHolidays dir cc with
  | none => rw [hb] at h; cases h
  | some base =>
    rw [hb] at h
    cases hv : mapThrowing (formatVariable cc y) (variableHolidays tz cc y) with
    | none => rw [hv] at h; cases h
    | some varf =>
      rw [hv] at h
      simp only [Option.some.injEq] at h
      exact ⟨base, varf, rfl, rfl, h.symm⟩

theorem formatVariable_id (cc : String) (y : Nat) (v : VariableHoliday) (o : Holiday)
    (h : formatVariable cc y v = some o) : o.id = generateHolidayId v.name y cc := by
  unfold formatVariable at h
  cases hd : isoDate v.date with
  | none => rw [hd] at h; cases h
  | some d =>
    rw [hd] at h
    simp only [Option.map_some', Option.some.injEq] at h
    rw [← h]

theorem formatVariable_name (cc : String) (y : Nat) (v : VariableHoliday) (o : Holiday)
    (h : formatVariable cc y v = some o) : o.name = v.name := by
  unfold formatVariable at h
  cases hd : isoDate v.date with
  | none => rw [hd] at h; cases h
  | some d =>
    rw [hd] at h
    simp only [Option.map_some', Option.some.injEq] at h
    rw [← h]

/-- Every occurrence is one of the base holidays or one of the moveable ones,
and its id is `generateHolidayId` of its own name. -/
theorem getHolidaysForCountry_id (tz : Int) (dir : String → Option Country) (cc : String)
    (y : Nat) (l : List Holiday) (h : getHolidaysForCountry tz dir cc y = some l) :
    ∀ o ∈ l, o.id = generateHolidayId o.name y cc := by
  obtain ⟨base, varf, _, hv, rfl⟩ := getHolidaysForCountry_eq tz dir cc y l h
  intro o ho
  have ho' := (sort_perm compareDates _).subset ho
  rcases List.mem_append.mp ho' with h1 | h1
  · obtain ⟨d, _, rfl⟩ := List.mem_map.mp h1
    rfl
  · obtain ⟨v, _, hfv⟩ := mapThrowing_mem _ _ _ hv o h1
    rw [formatVariable_id cc y v o hfv, formatVariable_name cc y v o hfv]

theorem generateHolidayId_inj (y : Nat) (cc a b : String)
    (h : generateHolidayId a y cc = generateHolidayId b y cc) : slug a = slug b := by
  unfold generateHolidayId at h
  have h' := congrArg String.data h
  simp only [String.data_append, List.append_assoc, List.append_cancel_left_eq] at h'
  have h'' := List.append_cancel_right h'
  exact String.ext h''

/-- The names of the occurrences, up to order: those of the base holidays and
those of the moveable holidays of the country. -/
theorem getHolidaysForCountry_names (tz : Int) (dir : String → Option Country) (cc : String)
    (y : Nat) (l : List Holiday) (h : getHolidaysForCountry tz dir cc y = some l) :
    ∃ base, baseHolidays dir cc = some base ∧
      (l.map (·.name)).Perm (base.map (·.name) ++
        variableNames (decide (cc ∈ easterCountries)) (decide (cc ∈ islamicCountries))
          (decide (cc ∈ lunarCountries))) := by
  obtain ⟨base, varf, hb, hv, rfl⟩ := getHolidaysForCountry_eq tz dir cc y l h
  refine ⟨base, hb, ?_⟩
  have hp := (sort_perm compareDates (base.map (formatFixed cc y) ++ varf)).map (·.name)
  refine hp.trans ?_
  rw [List.map_append, List.map_map, ← variableHolidays_names tz cc y,
    mapThrowing_map (formatVariable cc y) (·.name) (·.name)
      (fun a b hab => formatVariable_name cc y a b hab) _ _ hv]
  rfl

theorem names_slugs_nodup (dir : String → Option Country) (cc : String)
    (base : List HolidayDef) (hb : baseHolidays dir cc = some base) :
    ((base.map (·.name) ++
        variableNames (decide (cc ∈ easterCountries)) (decide (cc ∈ islamicCountries))
          (decide (cc ∈ lunarCountries))).map slug).Nodup := by
  rcases baseHolidays_cases dir cc base hb with h | ⟨_, h⟩
  · exact table_slugs_nodup (cc, base) h _ _ _
  · subst h
    rw [getDefaultHolidays_names]
    exact default_slugs_nodup _ _ _ _ _

end GlobalHolidayContext

/-! ## Easter -/

/-- The month and day of `calculateEaster` lie between 22 March and 25 April. -/
theorem easterMonthDay_range (y : Nat) :
    ((easterMonthDay y).1 = 3 ∧ 22 ≤ (easterMonthDay y).2 ∧ (easterMonthDay y).2 ≤ 31) ∨
    ((easterMonthDay y).1 = 4 ∧ 1 ≤ (easterMonthDay y).2 ∧ (easterMonthDay y).2 ≤ 25) := by
  unfold easterMonthDay
  simp only
  omega

theorem easterMonthDay_valid (y : Nat) (Y : Int) :
    (0 ≤ (easterMonthDay y).1 - 1 ∧ (easterMonthDay y).1 - 1 ≤ 5) ∧
    (1 ≤ (easterMonthDay y).2 ∧
      (easterMonthDay y).2 ≤ daysInMonth ((easterMonthDay y).1 - 1) (InLeapYear Y)) := by
  have h := easterMonthDay_range y
  have h2 := daysInMonth_cases 2 (InLeapYear Y) (by omega)
  have h3 := daysInMonth_cases 3 (InLeapYear Y) (by omega)
  rcases h with ⟨h1, h4, h5⟩ | ⟨h1, h4, h5⟩ <;> rw [h1] <;> norm_num <;> omega

/-- The day that the anonymous Gregorian algorithm computes is a Sunday. -/
theorem easter_is_sunday (y : Nat) :
    WeekDay (MakeDay y ((easterMonthDay y).1 - 1) (easterMonthDay y).2) = 0 := by
  unfold easterMonthDay
  simp only
  generalize hyy : (y : Int) = yy
  obtain ⟨a, ha⟩ : ∃ a, a = yy % 19 := ⟨_, rfl⟩
  obtain ⟨b, hb⟩ : ∃ b, b = yy / 100 := ⟨_, rfl⟩
  obtain ⟨c, hc⟩ : ∃ c, c = yy % 100 := ⟨_, rfl⟩
  obtain ⟨d, hd⟩ : ∃ d, d = b / 4 := ⟨_, rfl⟩
  obtain ⟨e, he⟩ : ∃ e, e = b % 4 := ⟨_, rfl⟩
  obtain ⟨f, hf⟩ : ∃ f, f = (b + 8) / 25 := ⟨_, rfl⟩
  obtain ⟨g, hg⟩ : ∃ g, g = (b - f + 1) / 3 := ⟨_, rfl⟩
  obtain ⟨h, hh⟩ : ∃ h, h = (19 * a + b - d - g + 15) % 30 := ⟨_, rfl⟩
  obtain ⟨i, hi⟩ : ∃ i, i = c / 4 := ⟨_, rfl⟩
  obtain ⟨k, hk⟩ : ∃ k, k = c % 4 := ⟨_, rfl⟩
  obtain ⟨l, hl⟩ : ∃ l, l = (32 + 2 * e + 2 * i - h - k) % 7 := ⟨_, rfl⟩
  obtain ⟨m, hm⟩ : ∃ m, m = (a + 11 * h + 22 * l) / 451 := ⟨_, rfl⟩
  obtain ⟨q, hq⟩ : ∃ q, q = (32 + 2 * e + 2 * i - h - k) / 7 := ⟨_, rfl⟩
  simp only [← ha, ← hb, ← hc, ← hd, ← he, ← hf, ← hg, ← hh, ← hi, ← hk, ← hl, ← hm]
  have hM := DayFromYear_march yy
  have h4 : yy / 4 = 25 * b + i := by omega
  have h400 : yy / 400 = d := by omega
  have hh' : 0 ≤ h ∧ h ≤ 29 := by omega
  have hl' : 0 ≤ l ∧ l ≤ 6 := by omega
  have hm' : 0 ≤ m ∧ m ≤ 1 := by omega
  have hq' : 32 + 2 * e + 2 * i - h - k = 7 * q + l := by omega
  have hyy' : yy = 400 * d + 100 * e + 4 * i + k := by omega
  have hmd : ((h + l - 7 * m + 114) / 31 = 3 ∧
        (h + l - 7 * m + 114) % 31 + 1 = h + l - 7 * m + 22) ∨
      ((h + l - 7 * m + 114) / 31 = 4 ∧
        (h + l - 7 * m + 114) % 31 + 1 = h + l - 7 * m - 9) := by
    omega
  have hms2 : monthStart 2 (InLeapYear yy) = 59 + InLeapYear yy := rfl
  have hms3 : monthStart 3 (InLeapYear yy) = 90 + InLeapYear yy := rfl
  rcases hmd with ⟨h1, h2⟩ | ⟨h1, h2⟩ <;> rw [h1, h2]
  · rw [MakeDay_eq yy (3 - 1) _ (by omega)]
    norm_num only
    rw [hms2]
    unfold WeekDay
    omega
  · rw [MakeDay_eq yy (4 - 1) _ (by omega)]
    norm_num only
    rw [hms3]
    unfold WeekDay
    omega

/-- `calculateEaster(year)` for a year up to 275760: local midnight of the
computed day of the computed month, in the year `MakeFullYear year`. -/
theorem calculateEaster_eq (tz : Int) (y : Nat) (htz : -1440 < tz ∧ tz < 1440)
    (hy : y ≤ 275760) :
    calculateEaster tz y =
      some (MakeDay (MakeFullYear y) ((easterMonthDay y).1 - 1) (easterMonthDay y).2 * msPerDay
        - tz * msPerMinute) := by
  have hv := easterMonthDay_valid y (MakeFullYear y)
  have hd : (easterMonthDay y).2 ≤ 31 := by
    have := easterMonthDay_range y
    omega
  unfold calculateEaster
  exact ofYMD_eq tz y _ _ htz hy hv.1 ⟨by omega, by omega⟩

/-- C5. For every year from 1583 to 9999 the date that `calculateEaster`
computes, day `day` of month `month` of year `y`, is a Sunday of the proleptic
Gregorian calendar, and it is the local date of the Date object returned. -/
theorem calculateEaster_sunday (tz : Int) (y : Nat) (htz : -1440 < tz ∧ tz < 1440)
    (h1 : 1583 ≤ y) (h2 : y ≤ 9999) :
    WeekDay (MakeDay y ((easterMonthDay y).1 - 1) (easterMonthDay y).2) = 0 ∧
    Date.getFullYear tz (calculateEaster tz y) = some (y : Int) ∧
    Date.getMonth tz (calculateEaster tz y) = some ((easterMonthDay y).1 - 1) ∧
    Date.getDate tz (calculateEaster tz y) = some (easterMonthDay y).2 ∧
    Date.getDay tz (calculateEaster tz y) = some 0 := by
  have hs := easter_is_sunday y
  have hv := easterMonthDay_valid y y
  have hm : 0 ≤ (easterMonthDay y).1 - 1 ∧ (easterMonthDay y).1 - 1 ≤ 11 :=
    ⟨hv.1.1, by omega⟩
  have hF : MakeFullYear y = y := MakeFullYear_of_ge y (by omega)
  rw [calculateEaster_eq tz y htz (by omega), hF]
  refine ⟨hs, getFullYear_localMidnight tz y _ _ hm hv.2, getMonth_localMidnight tz y _ _ hm hv.2,
    getDate_localMidnight tz y _ _ hm hv.2, ?_⟩
  unfold Date.getDay LocalTime
  simp only [Option.map_some', sub_add_cancel, Day_mul_msPerDay, hs]

/-- C5, at the year 2024 on a host two hours east of UTC: 31 March 2024 is a
Sunday. -/
theorem calculateEaster_sunday_witness :
    WeekDay (MakeDay 2024 2 31) = 0 ∧
    Date.getFullYear 120 (calculateEaster 120 2024) = some 2024 ∧
    Date.getMonth 120 (calculateEaster 120 2024) = some 2 ∧
    Date.getDate 120 (calculateEaster 120 2024) = some 31 ∧
    Date.getDay 120 (calculateEaster 120 2024) = some 0 :=
  calculateEaster_sunday 120 2024 (by decide) (by decide) (by decide)

/-- C4. `calculateEaster` (the same function in both context modules)
reproduces the reference dates: its result for 2024 is 31 March 2024, for 2025
it is 20 April 2025 and for 2026 it is 5 April 2026, as the local date of the
Date object on every host. -/
theorem calculateEaster_reference (tz : Int) (htz : -1440 < tz ∧ tz < 1440) :
    (Date.getFullYear tz (calculateEaster tz 2024) = some 2024 ∧
      Date.getMonth tz (calculateEaster tz 2024) = some (3 - 1) ∧
      Date.getDate tz (calculateEaster tz 2024) = some 31) ∧
    (Date.getFullYear tz (calculateEaster tz 2025) = some 2025 ∧
      Date.getMonth tz (calculateEaster tz 2025) = some (4 - 1) ∧
      Date.getDate tz (calculateEaster tz 2025) = some 20) ∧
    (Date.getFullYear tz (calculateEaster tz 2026) = some 2026 ∧
      Date.getMonth tz (calculateEaster tz 2026) = some (4 - 1) ∧
      Date.getDate tz (calculateEaster tz 2026) = some 5) := by
  have e24 : easterMonthDay 2024 = (3, 31) := by decide
  have e25 : easterMonthDay 2025 = (4, 20) := by decide
  have e26 : easterMonthDay 2026 = (4, 5) := by decide
  have f24 : MakeFullYear (2024 : Nat) = 2024 := by decide
  have f25 : MakeFullYear (2025 : Nat) = 2025 := by decide
  have f26 : MakeFullYear (2026 : Nat) = 2026 := by decide
  rw [calculateEaster_eq tz 2024 htz (by decide), calculateEaster_eq tz 2025 htz (by decide),
    calculateEaster_eq tz 2026 htz (by decide), e24, e25, e26, f24, f25, f26]
  exact ⟨⟨getFullYear_localMidnight tz 2024 _ _ (by decide) (by decide),
      getMonth_localMidnight tz 2024 _ _ (by decide) (by decide),
      getDate_localMidnight tz 2024 _ _ (by decide) (by decide)⟩,
    ⟨getFullYear_localMidnight tz 2025 _ _ (by decide) (by decide),
      getMonth_localMidnight tz 2025 _ _ (by decide) (by decide),
      getDate_localMidnight tz 2025 _ _ (by decide) (by decide)⟩,
    ⟨getFullYear_localMidnight tz 2026 _ _ (by decide) (by decide),
      getMonth_localMidnight tz 2026 _ _ (by decide) (by decide),
      getDate_localMidnight tz 2026 _ _ (by decide) (by decide)⟩⟩

/-- C4, on a host two hours east of UTC. -/
theorem calculateEaster_reference_witness :
    Date.getFullYear 120 (calculateEaster 120 2024) = some 2024 ∧
      Date.getMonth 120 (calculateEaster 120 2024) = some 2 ∧
      Date.getDate 120 (calculateEaster 120 2024) = some 31 :=
  (calculateEaster_reference 120 (by decide)).1

/-! ## The dates of the moveable holidays -/

namespace JS

theorem ofYMD_isSpringMidnight (tz : Int) (y : Nat) (m d : Int)
    (htz : -1440 < tz ∧ tz < 1440) (hy : y ≤ 275760) (hm : 0 ≤ m ∧ m ≤ 5)
    (hd : 2 ≤ d ∧ d ≤ 31 ∧ monthStart m 1 + d ≤ 180) :
    IsSpringMidnight tz (MakeFullYear y) (Date.ofYMD tz y m d) := by
  have h1 := monthStart_cases m 1
  have h2 := monthStart_cases m (InLeapYear (MakeFullYear y))
  have hl := InLeapYear_cases (MakeFullYear y)
  refine ⟨monthStart m (InLeapYear (MakeFullYear y)) + d - 1, by omega, by omega, ?_⟩
  rw [ofYMD_eq tz y m d htz hy hm ⟨by omega, by omega⟩, MakeDay_eq _ m d ⟨hm.1, by omega⟩]
  ring_nf

/-- The UTC date of a Date object of the first half of the year: the local date,
or the day before on a host east of Greenwich. -/
theorem isoDate_isSpringMidnight (tz Y : Int) (d : Date) (htz : -1440 < tz ∧ tz < 1440)
    (h : IsSpringMidnight tz Y d) :
    ∃ w : Int, 0 ≤ w ∧ w ≤ 179 ∧ isoDate d = some (isoDay (DayFromYear Y + w)) := by
  obtain ⟨w, h1, h2, rfl⟩ := h
  rw [isoDate_some, Day_localMidnight tz _ htz]
  by_cases hs : 0 < tz
  · rw [if_pos hs]
    exact ⟨w - 1, by omega, by omega, by ring_nf⟩
  · rw [if_neg hs]
    exact ⟨w, by omega, by omega, rfl⟩

end JS

/-- Good Friday and Easter Monday as Date objects: local midnight of the day two
before, and of the day after, the day of `calculateEaster`. -/
theorem easter_offsets (tz : Int) (y : Nat) (htz : -1440 < tz ∧ tz < 1440) (hy : y ≤ 275760)
    (k : Int) (hk : -2 ≤ k ∧ k ≤ 1) :
    (Date.copy (calculateEaster tz y)).setDate tz
        ((Date.getDate tz (calculateEaster tz y)).map (· + k)) =
      some ((MakeDay (MakeFullYear y) ((easterMonthDay y).1 - 1) (easterMonthDay y).2 + k)
        * msPerDay - tz * msPerMinute) := by
  have hv := easterMonthDay_valid y (MakeFullYear y)
  have hr := easterMonthDay_range y
  rw [calculateEaster_eq tz y htz hy,
    getDate_localMidnight tz _ _ _ ⟨hv.1.1, by omega⟩ hv.2, Option.map_some',
    setDate_localMidnight tz _ _ _ _ htz (MakeFullYear_bounds y hy) hv.1 hv.2
      ⟨by omega, by omega⟩, MakeDay_add]

theorem easter_offsets_isSpringMidnight (tz : Int) (y : Nat) (htz : -1440 < tz ∧ tz < 1440)
    (hy : y ≤ 275760) (k : Int) (hk : -2 ≤ k ∧ k ≤ 1) :
    IsSpringMidnight tz (MakeFullYear y)
      ((Date.copy (calculateEaster tz y)).setDate tz
        ((Date.getDate tz (calculateEaster tz y)).map (· + k))) := by
  have hv := easterMonthDay_valid y (MakeFullYear y)
  have hr := easterMonthDay_range y
  have h2 := monthStart_cases ((easterMonthDay y).1 - 1) (InLeapYear (MakeFullYear y))
  have hl := InLeapYear_cases (MakeFullYear y)
  rw [easter_offsets tz y htz hy k hk, MakeDay_eq _ _ _ ⟨hv.1.1, by omega⟩]
  refine ⟨monthStart ((easterMonthDay y).1 - 1) (InLeapYear (MakeFullYear y)) +
    (easterMonthDay y).2 - 1 + k, by omega, by omega, ?_⟩
  ring_nf

namespace GlobalHolidayContext

theorem calculateEidAlFitr_isSpringMidnight (tz : Int) (y : Nat)
    (htz : -1440 < tz ∧ tz < 1440) (hy : y ≤ 275760) :
    IsSpringMidnight tz (MakeFullYear y) (calculateEidAlFitr tz y) := by
  unfold calculateEidAlFitr
  split_ifs with h1 h2 h3 h4 h5 h6 h7
  all_goals first
    | subst h1 | subst h2 | subst h3 | subst h4 | subst h5 | subst h6 | subst h7 | skip
  all_goals exact ofYMD_isSpringMidnight tz _ _ _ htz (by omega) (by decide) (by decide)

theorem calculateEidAlAdha_isSpringMidnight (tz : Int) (y : Nat)
    (htz : -1440 < tz ∧ tz < 1440) (hy : y ≤ 275760) :
    IsSpringMidnight tz (MakeFullYear y) (calculateEidAlAdha tz y) := by
  unfold calculateEidAlAdha
  split_ifs with h1 h2 h3 h4 h5 h6 h7
  all_goals first
    | subst h1 | subst h2 | subst h3 | subst h4 | subst h5 | subst h6 | subst h7 | skip
  all_goals exact ofYMD_isSpringMidnight tz _ _ _ htz (by omega) (by decide) (by decide)

theorem calculateChineseNewYear_isSpringMidnight (tz : Int) (y : Nat)
    (htz : -1440 < tz ∧ tz < 1440) (hy : y ≤ 275760) :
    IsSpringMidnight tz (MakeFullYear y) (calculateChineseNewYear tz y) := by
  unfold calculateChineseNewYear
  split_ifs with h1 h2 h3 h4 h5 h6 h7
  all_goals first
    | subst h1 | subst h2 | subst h3 | subst h4 | subst h5 | subst h6 | subst h7 | skip
  all_goals exact ofYMD_isSpringMidnight tz _ _ _ htz (by omega) (by decide) (by decide)

/-- Every moveable holiday of a year up to 275760 has a valid Date object. -/
theorem variableHolidays_dates (tz : Int) (cc : String) (y : Nat)
    (htz : -1440 < tz ∧ tz < 1440) (hy : y ≤ 275760) :
    ∀ v ∈ variableHolidays tz cc y, IsSpringMidnight tz (MakeFullYear y) v.date := by
  intro v hv
  have hgf := easter_offsets_isSpringMidnight tz y htz hy (-2) (by omega)
  have hem := easter_offsets_isSpringMidnight tz y htz hy 1 (by omega)
  unfold variableHolidays at hv
  simp only [List.mem_append] at hv
  rcases hv with ((hv | hv) | hv) | hv
  · split_ifs at hv
    · rw [List.mem_singleton] at hv; subst hv; exact hgf
    · cases hv
  · split_ifs at hv
    · rw [List.mem_singleton] at hv; subst hv; exact hem
    · cases hv
  · split_ifs at hv
    · simp only [List.mem_cons, List.mem_singleton, List.not_mem_nil, or_false] at hv
      rcases hv with hv | hv <;> subst hv
      · exact calculateEidAlFitr_isSpringMidnight tz y htz hy
      · exact calculateEidAlAdha_isSpringMidnight tz y htz hy
    · cases hv
  · split_ifs at hv
    · rw [List.mem_singleton] at hv; subst hv
      exact calculateChineseNewYear_isSpringMidnight tz y htz hy
    · cases hv

end GlobalHolidayContext

/-! ## Date strings: rendering, parsing and order -/

namespace JS

/-- Every day of the first half of a year is a day of a month. -/
theorem dayOfYear_exists (Y w : Int) (hw : 0 ≤ w ∧ w ≤ 179) :
    ∃ m d : Nat, 1 ≤ m ∧ m ≤ 6 ∧ 1 ≤ d ∧
      (d : Int) ≤ daysInMonth ((m : Int) - 1) (InLeapYear Y) ∧
      DayFromYear Y + w = MakeDay Y ((m : Int) - 1) d := by
  have hl := InLeapYear_cases Y
  have key : ∀ (m : Nat) (d : Int), 1 ≤ m → m ≤ 6 → 1 ≤ d →
      d ≤ daysInMonth ((m : Int) - 1) (InLeapYear Y) →
      w = monthStart ((m : Int) - 1) (InLeapYear Y) + d - 1 →
      ∃ m d : Nat, 1 ≤ m ∧ m ≤ 6 ∧ 1 ≤ d ∧
        (d : Int) ≤ daysInMonth ((m : Int) - 1) (InLeapYear Y) ∧
        DayFromYear Y + w = MakeDay Y ((m : Int) - 1) d := by
    intro m d h1 h6 hd1 hd2 hw'
    obtain ⟨n, rfl⟩ := Int.eq_ofNat_of_zero_le (show 0 ≤ d by omega)
    refine ⟨m, n, h1, h6, by omega, hd2, ?_⟩
    rw [MakeDay_eq Y _ _ ⟨by omega, by omega⟩, hw']
    ring
  have c0 := daysInMonth_cases 0 (InLeapYear Y) (by omega)
  have c1 := daysInMonth_cases 1 (InLeapYear Y) (by omega)
  have c2 := daysInMonth_cases 2 (InLeapYear Y) (by omega)
  have c3 := daysInMonth_cases 3 (InLeapYear Y) (by omega)
  have c4 := daysInMonth_cases 4 (InLeapYear Y) (by omega)
  have c5 := daysInMonth_cases 5 (InLeapYear Y) (by omega)
  have s0 : monthStart 0 (InLeapYear Y) = 0 := rfl
  have s1 : monthStart 1 (InLeapYear Y) = 31 := rfl
  have s2 : monthStart 2 (InLeapYear Y) = 59 + InLeapYear Y := rfl
  have s3 : monthStart 3 (InLeapYear Y) = 90 + InLeapYear Y := rfl
  have s4 : monthStart 4 (InLeapYear Y) = 120 + InLeapYear Y := rfl
  have s5 : monthStart 5 (InLeapYear Y) = 151 + InLeapYear Y := rfl
  by_cases h1 : w < 31
  · exact key 1 (w + 1) (by omega) (by omega) (by omega) (by norm_num; omega)
      (by norm_num; omega)
  by_cases h2 : w < 59 + InLeapYear Y
  · exact key 2 (w - 30) (by omega) (by omega) (by omega) (by norm_num; omega)
      (by norm_num; omega)
  by_cases h3 : w < 90 + InLeapYear Y
  · exact key 3 (w - 58 - InLeapYear Y) (by omega) (by omega) (by omega) (by norm_num; omega)
      (by norm_num; omega)
  by_cases h4 : w < 120 + InLeapYear Y
  · exact key 4 (w - 89 - InLeapYear Y) (by omega) (by omega) (by omega) (by norm_num; omega)
      (by norm_num; omega)
  by_cases h5 : w < 151 + InLeapYear Y
  · exact key 5 (w - 119 - InLeapYear Y) (by omega) (by omega) (by omega) (by norm_num; omega)
      (by norm_num; omega)
  · exact key 6 (w - 150 - InLeapYear Y) (by omega) (by omega) (by omega) (by norm_num; omega)
      (by norm_num; omega)

theorem validDate_int (y m d : Nat) (h : validDate y m d) :
    (0 ≤ (m : Int) - 1 ∧ (m : Int) - 1 ≤ 11) ∧
    (1 ≤ (d : Int) ∧ (d : Int) ≤ daysInMonth ((m : Int) - 1) (InLeapYear y)) := by
  unfold validDate at h
  omega

theorem validDate_day_le (y m d : Nat) (h : validDate y m d) : d ≤ 31 := by
  have h' := validDate_int y m d h
  have hc := daysInMonth_cases ((m : Int) - 1) (InLeapYear y) h'.1
  have hl := InLeapYear_cases y
  omega

/-- A four-digit year is rendered alike by `String(year)` and by `toISOString`. -/
theorem isoYear_four (y : Nat) (h1 : 1000 ≤ y) (h2 : y ≤ 9999) :
    isoYear y = numberToString y := by
  unfold isoYear
  rw [if_pos (by omega)]
  unfold padStart
  rw [Int.toNat_ofNat, numberToString_data, toDigits_four y h1 (by omega)]
  show String.mk _ = _
  apply String.ext
  rw [numberToString_data, toDigits_four y h1 (by omega)]
  rfl

/-- The ISO rendering of a day of a four-digit year is the string of the
template for fixed holidays. -/
theorem isoDay_eq_fixedDate (y m d : Nat) (h1 : 1000 ≤ y) (h2 : y ≤ 9999)
    (hv : validDate y m d) : isoDay (MakeDay y ((m : Int) - 1) d) = fixedDate y m d := by
  have hi := validDate_int y m d hv
  unfold isoDay fixedDate
  rw [YearFromDay_MakeDay _ _ _ hi.1 hi.2, MonthFromDay_MakeDay _ _ _ hi.1 hi.2,
    DateFromDay_MakeDay _ _ _ hi.1 hi.2, isoYear_four y h1 h2]
  have e1 : ((m : Int) - 1 + 1).toNat = m := by omega
  have e2 : (d : Int).toNat = d := by omega
  rw [e1, e2]

theorem monthStart_mono (a b leap : Int) (ha : 0 ≤ a) (hab : a < b) (hb : b ≤ 11)
    (hl : leap = 0 ∨ leap = 1) :
    monthStart a leap + daysInMonth a leap ≤ monthStart b leap := by
  have h1 := monthStart_cases a leap
  have h2 := monthStart_cases b leap
  have h3 := daysInMonth_cases a leap ⟨ha, by omega⟩
  rcases h3 with ⟨e, h3⟩ | ⟨e, h3⟩ | ⟨e, h3⟩ | ⟨e, h3⟩ | ⟨e, h3⟩ | ⟨e, h3⟩ | ⟨e, h3⟩ | ⟨e, h3⟩ |
    ⟨e, h3⟩ | ⟨e, h3⟩ | ⟨e, h3⟩ | ⟨e, h3⟩ <;> subst e <;> omega

/-- On days that exist, the order of day numbers is the order of (month, day). -/
theorem lex_of_MakeDay_le (y m1 d1 m2 d2 : Nat) (h1 : validDate y m1 d1)
    (h2 : validDate y m2 d2)
    (h : MakeDay y ((m1 : Int) - 1) d1 ≤ MakeDay y ((m2 : Int) - 1) d2) :
    m1 < m2 ∨ (m1 = m2 ∧ d1 ≤ d2) := by
  have i1 := validDate_int y m1 d1 h1
  have i2 := validDate_int y m2 d2 h2
  rw [MakeDay_eq _ _ _ i1.1, MakeDay_eq _ _ _ i2.1] at h
  rcases Nat.lt_trichotomy m1 m2 with hlt | heq | hgt
  · exact Or.inl hlt
  · subst heq
    exact Or.inr ⟨rfl, by omega⟩
  · exfalso
    have := monthStart_mono ((m2 : Int) - 1) ((m1 : Int) - 1) _ i2.1.1 (by omega) i1.1.2
      (InLeapYear_cases y)
    omega

end JS

namespace JS

theorem fixedDate_data (y m d : Nat) (hy1 : 1000 ≤ y) (hy2 : y ≤ 9999) (hm : m < 100)
    (hd : d < 100) :
    (fixedDate y m d).data =
      [Nat.digitChar (y / 1000), Nat.digitChar (y / 100 % 10), Nat.digitChar (y / 10 % 10),
        Nat.digitChar (y % 10), '-', Nat.digitChar (m / 10), Nat.digitChar (m % 10), '-',
        Nat.digitChar (d / 10), Nat.digitChar (d % 10)] := by
  unfold fixedDate
  rw [padStart_two m hm, padStart_two d hd]
  simp only [String.data_append, numberToString_data, toDigits_four y hy1 (by omega)]
  rfl

theorem decimalValue_two (a b : Nat) (ha : a < 10) (hb : b < 10) :
    decimalValue [Nat.digitChar a, Nat.digitChar b] = some (a * 10 + b) := by
  unfold decimalValue
  simp [isRadixDigit_digitChar, ha, hb, radixValue, digitValue_digitChar]

theorem decimalValue_four (a b c e : Nat) (ha : a < 10) (hb : b < 10) (hc : c < 10)
    (he : e < 10) :
    decimalValue [Nat.digitChar a, Nat.digitChar b, Nat.digitChar c, Nat.digitChar e] =
      some (((a * 10 + b) * 10 + c) * 10 + e) := by
  unfold decimalValue
  simp [isRadixDigit_digitChar, ha, hb, hc, he, radixValue, digitValue_digitChar]

theorem MakeDay_bounds_year (y m d : Int) (hy : 0 ≤ y ∧ y ≤ 9999) (hm : 0 ≤ m ∧ m ≤ 11)
    (hd : 1 ≤ d ∧ d ≤ 31) :
    -99999999 ≤ MakeDay y m d ∧ MakeDay y m d ≤ 99999998 := by
  rw [MakeDay_eq y m d hm]
  have h1 : -719528 ≤ DayFromYear y ∧ DayFromYear y ≤ 3000000 := by
    unfold DayFromYear
    omega
  have h2 := monthStart_le m (InLeapYear y) (InLeapYear_cases y)
  omega

/-- `new Date(s)` reads the date string of a four-digit year as UTC midnight of
that day. -/
theorem parse_fixedDate (y m d : Nat) (hy1 : 1000 ≤ y) (hy2 : y ≤ 9999) (hm : 1 ≤ m ∧ m ≤ 12)
    (hd : 1 ≤ d ∧ d ≤ 31) :
    Date.parse (fixedDate y m d) = some (MakeDay y ((m : Int) - 1) d * msPerDay) := by
  have hdig : isRadixDigit 10 (Nat.digitChar (y / 1000)) = true :=
    isRadixDigit_digitChar _ (by omega)
  have hp : Nat.digitChar (y / 1000) ≠ '+' := isRadixDigit_ne _ _ hdig (by decide)
  have hn : Nat.digitChar (y / 1000) ≠ '-' := isRadixDigit_ne _ _ hdig (by decide)
  have hyv : ((y / 1000 * 10 + y / 100 % 10) * 10 + y / 10 % 10) * 10 + y % 10 = y := by omega
  have hmv : m / 10 * 10 + m % 10 = m := by omega
  have hdv : d / 10 * 10 + d % 10 = d := by omega
  have hr := localMidnight_range 0 _ (by omega)
    (MakeDay_bounds_year y ((m : Int) - 1) d ⟨by omega, by omega⟩ ⟨by omega, by omega⟩
      ⟨by omega, by omega⟩)
  simp only [zero_mul, sub_zero] at hr
  unfold Date.parse
  rw [fixedDate_data y m d hy1 hy2 (by omega) (by omega)]
  simp only [List.head?_cons, Option.some.injEq, hp, hn, or_self, if_false, List.drop_succ_cons,
    List.drop_zero, List.take_succ_cons, List.take_zero, List.length_cons, List.length_nil,
    List.tail_cons, reduceCtorEq, and_self, if_true, List.drop_nil,
    decimalValue_four _ _ _ _ (show y / 1000 < 10 by omega) (show y / 100 % 10 < 10 by omega)
      (show y / 10 % 10 < 10 by omega) (show y % 10 < 10 by omega),
    decimalValue_two _ _ (show m / 10 < 10 by omega) (show m % 10 < 10 by omega),
    decimalValue_two _ _ (show d / 10 < 10 by omega) (show d % 10 < 10 by omega), hyv, hmv, hdv]
  have hc : ¬ ((False ∧ y = 0) ∨ m < 1 ∨ 12 < m ∨ d < 1 ∨ 31 < d) := by omega
  simp only [false_and, false_or] at hc ⊢
  rw [if_neg hc]
  exact TimeClip_of_range _ hr

end JS

namespace JS

theorem char_lt_iff (a b : Char) : a < b ↔ a.toNat < b.toNat := Iff.rfl

theorem lex_five (p : List Char) (a1 a2 a3 a4 b1 b2 b3 b4 x : Char)
    (h : (p ++ [a1, a2, x, a3, a4] : List Char) < p ++ [b1, b2, x, b3, b4]) :
    a1 < b1 ∨ (a1 = b1 ∧ (a2 < b2 ∨ (a2 = b2 ∧ (a3 < b3 ∨ (a3 = b3 ∧ a4 < b4))))) := by
  change List.Lex (· < ·) _ _ at h
  induction p with
  | cons c p ih =>
    apply ih
    simp only [List.cons_append] at h
    exact List.Lex.cons_iff.mp h
  | nil =>
    simp only [List.nil_append] at h
    rcases h with _ | h | h
    · rcases h with _ | h | h
      · rcases h with _ | h | h
        · rcases h with _ | h | h
          · rcases h with _ | h | h
            · cases h
            · exact Or.inr ⟨rfl, Or.inr ⟨rfl, Or.inr ⟨rfl, h⟩⟩⟩
          · exact Or.inr ⟨rfl, Or.inr ⟨rfl, Or.inl h⟩⟩
        · exact absurd h (lt_irrefl _)
      · exact Or.inr ⟨rfl, Or.inl h⟩
    · exact Or.inl h

/-- In one four-digit year the date strings are ordered as (month, day). -/
theorem fixedDate_le (y m1 d1 m2 d2 : Nat) (hy1 : 1000 ≤ y) (hy2 : y ≤ 9999)
    (hm1 : m1 < 100) (hd1 : d1 < 100) (hm2 : m2 < 100) (hd2 : d2 < 100)
    (h : m1 < m2 ∨ (m1 = m2 ∧ d1 ≤ d2)) : fixedDate y m1 d1 ≤ fixedDate y m2 d2 := by
  rw [← not_lt]
  intro hlt
  have hl := String.lt_iff_toList_lt.mp hlt
  change (fixedDate y m2 d2).data < (fixedDate y m1 d1).data at hl
  rw [fixedDate_data y m2 d2 hy1 hy2 hm2 hd2, fixedDate_data y m1 d1 hy1 hy2 hm1 hd1] at hl
  have h5 := lex_five [Nat.digitChar (y / 1000), Nat.digitChar (y / 100 % 10),
    Nat.digitChar (y / 10 % 10), Nat.digitChar (y % 10), '-'] _ _ _ _ _ _ _ _ _ hl
  have t1 := digitChar_toNat (m1 / 10) (by omega)
  have t2 := digitChar_toNat (m1 % 10) (by omega)
  have t3 := digitChar_toNat (d1 / 10) (by omega)
  have t4 := digitChar_toNat (d1 % 10) (by omega)
  have u1 := digitChar_toNat (m2 / 10) (by omega)
  have u2 := digitChar_toNat (m2 % 10) (by omega)
  have u3 := digitChar_toNat (d2 / 10) (by omega)
  have u4 := digitChar_toNat (d2 % 10) (by omega)
  have e1 : Nat.digitChar (m2 / 10) = Nat.digitChar (m1 / 10) → m2 / 10 = m1 / 10 := by
    intro e; have := congrArg Char.toNat e; omega
  have e2 : Nat.digitChar (m2 % 10) = Nat.digitChar (m1 % 10) → m2 % 10 = m1 % 10 := by
    intro e; have := congrArg Char.toNat e; omega
  have e3 : Nat.digitChar (d2 / 10) = Nat.digitChar (d1 / 10) → d2 / 10 = d1 / 10 := by
    intro e; have := congrArg Char.toNat e; omega
  simp only [char_lt_iff, t1, t2, t3, t4, u1, u2, u3, u4] at h5
  rcases h5 with h5 | ⟨a1, h5 | ⟨a2, h5 | ⟨a3, h5⟩⟩⟩
  · omega
  · have := e1 a1; omega
  · have := e1 a1; have := e2 a2; omega
  · have := e1 a1; have := e2 a2; have := e3 a3; omega

/-- Sorting by the difference of the parsed dates puts the date strings of one
four-digit year in non-decreasing order. -/
theorem sort_by_date_sorted {α : Type} (date : α → String) (y : Nat) (hy1 : 1000 ≤ y)
    (hy2 : y ≤ 9999) (l : List α) (hl : ∀ a ∈ l, IsDateOf y (date a)) :
    (sort (fun a b => dateDifference (date a) (date b)) l).Pairwise
      (fun a b => date a ≤ date b) := by
  have hkey : ∀ a ∈ l, ∀ b ∈ l, dateDifference (date a) (date b) =
      some ((Date.parse (date a)).getD 0 - (Date.parse (date b)).getD 0) := by
    intro a ha b hb
    obtain ⟨m1, d1, v1, e1⟩ := hl a ha
    obtain ⟨m2, d2, v2, e2⟩ := hl b hb
    unfold dateDifference
    rw [e1, e2, parse_fixedDate y m1 d1 hy1 hy2 ⟨v1.1, v1.2.1⟩ ⟨v1.2.2.1, validDate_day_le y m1 d1 v1⟩,
      parse_fixedDate y m2 d2 hy1 hy2 ⟨v2.1, v2.2.1⟩ ⟨v2.2.2.1, validDate_day_le y m2 d2 v2⟩]
    rfl
  have hs := sort_sorted_of_key _ (fun a => (Date.parse (date a)).getD 0) l hkey
  have hp := sort_perm (fun a b => dateDifference (date a) (date b)) l
  refine hs.imp_of_mem ?_
  intro a b ha hb hab
  obtain ⟨m1, d1, v1, e1⟩ := hl a (hp.subset ha)
  obtain ⟨m2, d2, v2, e2⟩ := hl b (hp.subset hb)
  have p1 := parse_fixedDate y m1 d1 hy1 hy2 ⟨v1.1, v1.2.1⟩
    ⟨v1.2.2.1, validDate_day_le y m1 d1 v1⟩
  have p2 := parse_fixedDate y m2 d2 hy1 hy2 ⟨v2.1, v2.2.1⟩
    ⟨v2.2.2.1, validDate_day_le y m2 d2 v2⟩
  simp only [e1, e2, p1, p2, Option.getD_some] at hab
  have hle : MakeDay y ((m1 : Int) - 1) d1 ≤ MakeDay y ((m2 : Int) - 1) d2 := by
    unfold msPerDay at hab
    omega
  rw [e1, e2]
  exact fixedDate_le y m1 d1 m2 d2 hy1 hy2 (by have := v1.2.1; omega)
    (by have := validDate_day_le y m1 d1 v1; omega) (by have := v2.2.1; omega)
    (by have := validDate_day_le y m2 d2 v2; omega) (lex_of_MakeDay_le y m1 d1 m2 d2 v1 v2 hle)

/-- The rendered date of a moveable holiday of a four-digit year is a date
string of that year. -/
theorem isoDate_isDateOf (tz : Int) (y : Nat) (d : Date) (htz : -1440 < tz ∧ tz < 1440)
    (hy1 : 1000 ≤ y) (hy2 : y ≤ 9999) (h : IsSpringMidnight tz (MakeFullYear y) d) :
    ∃ s, isoDate d = some s ∧ IsDateOf y s := by
  rw [MakeFullYear_of_ge y (by omega)] at h
  obtain ⟨w, h0, h1, hw⟩ := isoDate_isSpringMidnight tz y d htz h
  obtain ⟨m, dd, hm1, hm6, hd1, hd2, e⟩ := dayOfYear_exists y w ⟨h0, h1⟩
  have hv : validDate y m dd := ⟨hm1, by omega, hd1, hd2⟩
  exact ⟨_, hw, m, dd, hv, by rw [e, isoDay_eq_fixedDate y m dd hy1 hy2 hv]⟩

end JS

/-! ## Identifiers: uniqueness, shape and reverse lookup -/

namespace GlobalHolidayContext

theorem find_of_nodup {α β : Type} [DecidableEq β] (f : α → β) : ∀ (l : List α),
    (l.map f).Nodup → ∀ o ∈ l, l.find? (fun x => decide (f x = f o)) = some o := by
  intro l
  induction l with
  | nil => intro _ o ho; cases ho
  | cons a l ih =>
    intro hn o ho
    rw [List.map_cons, List.nodup_cons] at hn
    rcases List.mem_cons.mp ho with rfl | ho'
    · simp [List.find?]
    · have hne : f a ≠ f o := fun e => hn.1 (e ▸ List.mem_map_of_mem f ho')
      rw [List.find?_cons]
      simp only [hne, decide_False]
      exact ih hn.2 o ho'

theorem ids_nodup (tz : Int) (dir : String → Option Country)
    (cc : String) (y : Nat) (l : List Holiday)
    (h : getHolidaysForCountry tz dir cc y = some l) : (l.map (·.id)).Nodup := by
  obtain ⟨base, hb, hp⟩ := getHolidaysForCountry_names tz dir cc y l h
  have hs := names_slugs_nodup dir cc base hb
  have hid : l.map (·.id) = (l.map (·.name)).map (fun n => generateHolidayId n y cc) := by
    rw [List.map_map]
    exact List.map_congr_left (fun o ho => getHolidaysForCountry_id tz dir cc y l h o ho)
  rw [hid, (hp.map _).nodup_iff]
  refine List.Nodup.map_on ?_ hs.of_map
  intro a ha b hb' hab
  exact List.inj_on_of_nodup_map hs ha hb' (generateHolidayId_inj y cc a b hab)

/-- C2. For every country code and year, no two occurrences that
`getHolidaysForCountry` returns have the same id: in every table of
`holidayData`, and in the default set, the slugs of the names of the fixed
holidays and of the moveable holidays added for the country are pairwise
different. -/
theorem getHolidaysForCountry_ids_nodup (tz : Int) (dir : String → Option Country)
    (cc : String) (y : Nat) (l : List Holiday)
    (h : getHolidaysForCountry tz dir cc y = some l) :
    l.Pairwise (fun a b => a.id ≠ b.id) := by
  have hn : (l.map (·.id)).Pairwise (· ≠ ·) := ids_nodup tz dir cc y l h
  rw [List.pairwise_map] at hn
  exact hn

/-- C2, at Malaysia in 2025, a country of the default set with the Islamic
holidays and Chinese New Year added. -/
theorem getHolidaysForCountry_ids_nodup_witness :
    ∃ l, getHolidaysForCountry 120 (fun _ => none) "MY" 2025 = some l ∧
      l.length = 7 ∧ l.Pairwise (fun a b => a.id ≠ b.id) :=
  ⟨_, rfl, rfl, getHolidaysForCountry_ids_nodup 120 (fun _ => none) "MY" 2025 _ rfl⟩

theorem holidayData_names_ordinary : ∀ p ∈ holidayData, ∀ d ∈ p.2,
    slug d.name = slugCharByChar d.name := by
  decide

theorem variableNames_ordinary : ∀ e i l : Bool, ∀ n ∈ variableNames e i l,
    slug n = slugCharByChar n := by
  decide

theorem defaultNames_ordinary : ∀ a b : Bool, ∀ n ∈ defaultNames a b,
    slug n = slugCharByChar n := by
  decide

/-- C9, as amended. The id of every occurrence is the country code, a hyphen,
the name in lower case with each character other than `a` to `z` and `0` to `9`
replaced by a hyphen (one hyphen for each such character), a hyphen, and the
year. -/
theorem getHolidaysForCountry_id_shape (tz : Int) (dir : String → Option Country)
    (cc : String) (y : Nat) (l : List Holiday)
    (h : getHolidaysForCountry tz dir cc y = some l) :
    ∀ o ∈ l, o.id = cc ++ "-" ++ slugCharByChar o.name ++ "-" ++ numberToString y := by
  intro o ho
  obtain ⟨base, hb, hp⟩ := getHolidaysForCountry_names tz dir cc y l h
  have hn : o.name ∈ base.map (·.name) ++
      variableNames (decide (cc ∈ easterCountries)) (decide (cc ∈ islamicCountries))
        (decide (cc ∈ lunarCountries)) := hp.subset (List.mem_map_of_mem _ ho)
  have hslug : slug o.name = slugCharByChar o.name := by
    rcases List.mem_append.mp hn with h1 | h1
    · rcases baseHolidays_cases dir cc base hb with h2 | ⟨_, h2⟩
      · obtain ⟨d, hd, hdn⟩ := List.mem_map.mp h1
        rw [← hdn]
        exact holidayData_names_ordinary (cc, base) h2 d hd
      · subst h2
        rw [getDefaultHolidays_names] at h1
        exact defaultNames_ordinary _ _ _ h1
    · exact variableNames_ordinary _ _ _ _ h1
  rw [getHolidaysForCountry_id tz dir cc y l h o ho, ← hslug]
  rfl

/-- C9, as amended, at the United States in 2024. -/
theorem getHolidaysForCountry_id_shape_witness :
    ∃ l, getHolidaysForCountry 0 (fun _ => none) "US" 2024 = some l ∧
      ∀ o ∈ l, o.id = "US" ++ "-" ++ slugCharByChar o.name ++ "-" ++ numberToString 2024 :=
  ⟨_, rfl, getHolidaysForCountry_id_shape 0 (fun _ => none) "US" 2024 _ rfl⟩

/-- C9, as stated, fails: the occurrence "Martin Luther King Jr. Day" of the
United States in 2024 has the id `US-martin-luther-king-jr--day-2024`, with two
hyphens for the run ". ", where the slug that collapses runs gives one. -/
theorem getHolidaysForCountry_id_not_collapsed :
    ∃ l, getHolidaysForCountry 0 (fun _ => none) "US" 2024 = some l ∧
      ∃ o ∈ l, o.name = "Martin Luther King Jr. Day" ∧
        o.id = "US-martin-luther-king-jr--day-2024" ∧
        "US" ++ "-" ++ slugCollapsingRuns o.name ++ "-" ++ numberToString 2024 =
          "US-martin-luther-king-jr-day-2024" ∧
        o.id ≠ "US" ++ "-" ++ slugCollapsingRuns o.name ++ "-" ++ numberToString 2024 :=
  ⟨_, rfl,
    { id := "US-martin-luther-king-jr--day-2024"
      name := "Martin Luther King Jr. Day"
      date := "2024-01-15"
      description := "Honors the civil rights leader"
      type := "National"
      countryCode := "US"
      observed := true }, by decide, rfl, rfl, by decide, by decide⟩

end GlobalHolidayContext

namespace GlobalHolidayContext

/-- C10. `getHolidayById` returns "not found" for every id with fewer than three
hyphen-separated segments, for every id whose first segment is empty, and for
every id whose last segment `parseInt` reads as NaN or as 0. -/
theorem getHolidayById_malformed (tz : Int) (dir : String → Option Country) (holidayId : String)
    (h : (split holidayId '-').length < 3 ∨ (split holidayId '-').headD "" = "" ∨
      parseInt ((split holidayId '-').getLastD "") = none ∨
      parseInt ((split holidayId '-').getLastD "") = some 0) :
    getHolidayById tz dir holidayId = Lookup.notFound := by
  unfold getHolidayById
  by_cases h3 : (split holidayId '-').length < 3
  · simp only [h3, if_true]
  · simp only [h3, if_false]
    have h' : (split holidayId '-').headD "" = "" ∨
        parseInt ((split holidayId '-').getLastD "") = none ∨
        parseInt ((split holidayId '-').getLastD "") = some 0 := by
      rcases h with h | h
      · exact absurd h h3
      · exact h
    rw [if_pos h']

/-- C10, at an id of two segments, at one with an empty first segment, at one
whose last segment is not a number and at one whose last segment is zero. -/
theorem getHolidayById_malformed_witness :
    getHolidayById 0 (fun _ => none) "ZA-2024" = Lookup.notFound ∧
    getHolidayById 0 (fun _ => none) "-freedom-day-2024" = Lookup.notFound ∧
    getHolidayById 0 (fun _ => none) "ZA-freedom-day-soon" = Lookup.notFound ∧
    getHolidayById 0 (fun _ => none) "ZA-freedom-day-000" = Lookup.notFound :=
  ⟨getHolidayById_malformed 0 _ "ZA-2024" (Or.inl (by decide)),
   getHolidayById_malformed 0 _ "-freedom-day-2024" (Or.inr (Or.inl (by decide))),
   getHolidayById_malformed 0 _ "ZA-freedom-day-soon" (Or.inr (Or.inr (Or.inl (by decide)))),
   getHolidayById_malformed 0 _ "ZA-freedom-day-000" (Or.inr (Or.inr (Or.inr (by decide))))⟩

theorem generateHolidayId_data (name : String) (y : Nat) (cc : String) :
    (generateHolidayId name y cc).data =
      cc.data ++ '-' :: ((slug name).data ++ '-' :: Nat.toDigits 10 y) := by
  unfold generateHolidayId
  simp only [String.data_append, List.append_assoc, numberToString_data]
  rfl

theorem hyphen_not_mem_toDigits (y : Nat) : '-' ∉ Nat.toDigits 10 y := by
  intro h
  exact isRadixDigit_ne _ '-' (toDigits_isDigit y _ h) (by decide) rfl

/-- The segments of a generated id: the country code first, the year last, and
at least one segment between them. -/
theorem split_generateHolidayId (name : String) (y : Nat) (cc : String)
    (hcc : '-' ∉ cc.data) :
    ∃ mid, mid ≠ [] ∧
      split (generateHolidayId name y cc) '-' = cc :: (mid ++ [numberToString y]) := by
  refine ⟨(splitChars '-' (slug name).data).map String.mk, ?_, ?_⟩
  · simpa using splitChars_ne_nil '-' (slug name).data
  · unfold split
    rw [generateHolidayId_data, splitChars_append_sep, splitChars_append_sep,
      splitChars_of_not_mem '-' cc.data hcc,
      splitChars_of_not_mem '-' _ (hyphen_not_mem_toDigits y)]
    simp only [List.map_append, List.map_cons, List.map_nil, List.singleton_append]
    rfl

theorem getLastD_append_singleton {α : Type} : ∀ (l : List α) (x d : α),
    (l ++ [x]).getLastD d = x := by
  intro l
  induction l with
  | nil => intro x d; rfl
  | cons a l ih =>
    intro x d
    rw [List.cons_append, List.getLastD_cons]
    exact ih x a

/-- C3, as amended. For every non-empty country code without a hyphen, every
year `y ≥ 1` (below `10^21`, from where on `String(y)` is not the row of the
digits of `y`) and every occurrence `o` that `getHolidaysForCountry` returns,
`getHolidayById o.id` returns `o` itself. -/
theorem getHolidayById_roundtrip (tz : Int) (dir : String → Option Country) (cc : String)
    (y : Nat) (l : List Holiday) (hne : cc ≠ "") (hcc : '-' ∉ cc.data) (hy : 1 ≤ y)
    (_hmax : y < 10 ^ 21) (h : getHolidaysForCountry tz dir cc y = some l) :
    ∀ o ∈ l, getHolidayById tz dir o.id = Lookup.found o := by
  intro o ho
  have hid := getHolidaysForCountry_id tz dir cc y l h o ho
  obtain ⟨mid, hmid, hs⟩ := split_generateHolidayId o.name y cc hcc
  have hlen : ¬ (cc :: (mid ++ [numberToString y])).length < 3 := by
    cases mid with
    | nil => exact absurd rfl hmid
    | cons m ms => simp
  have hlast : (cc :: (mid ++ [numberToString y])).getLastD "" = numberToString y := by
    rw [List.getLastD_cons]
    exact getLastD_append_singleton mid _ _
  have hfind := find_of_nodup (·.id) l (ids_nodup tz dir cc y l h) o ho
  unfold getHolidayById
  rw [hid, hs]
  simp only [hlen, if_false, List.headD_cons, hlast, parseInt_numberToString]
  have hy0 : ¬ (cc = "" ∨ (some (y : Int) = none) ∨ some (y : Int) = some 0) := by
    simp only [hne, false_or, Option.some.injEq, reduceCtorEq]
    omega
  rw [if_neg hy0]
  simp only [Option.getD_some, Int.toNat_ofNat, h]
  rw [← hid, hfind]

/-- C3, as amended, at South Africa in 2024 and the occurrence Freedom Day. -/
theorem getHolidayById_roundtrip_witness :
    ∃ l, getHolidaysForCountry 120 (fun _ => none) "ZA" 2024 = some l ∧
      ∃ o ∈ l, o.name = "Freedom Day" ∧ o.id = "ZA-freedom-day-2024" ∧
        getHolidayById 120 (fun _ => none) o.id = Lookup.found o :=
  ⟨_, rfl,
    { id := "ZA-freedom-day-2024"
      name := "Freedom Day"
      date := "2024-04-27"
      description := "Commemorates the first democratic elections in 1994"
      type := "National"
      countryCode := "ZA"
      observed := true }, by decide, rfl, rfl,
    getHolidayById_roundtrip 120 (fun _ => none) "ZA" 2024 _ (by decide) (by decide)
      (by decide) (by decide) rfl
      { id := "ZA-freedom-day-2024"
        name := "Freedom Day"
        date := "2024-04-27"
        description := "Commemorates the first democratic elections in 1994"
        type := "National"
        countryCode := "ZA"
        observed := true } (by decide)⟩

/-- C3, as stated, fails at South Africa and the year 0: the occurrence New
Year's Day is returned with the id `ZA-new-year-s-day-0`, and `getHolidayById`
answers "not found" for that id, because the parsed year 0 is falsy. -/
theorem getHolidayById_roundtrip_fails_at_year_zero :
    ∃ l, getHolidaysForCountry 0 (fun _ => none) "ZA" 0 = some l ∧
      ∃ o ∈ l, o.name = "New Year's Day" ∧ o.id = "ZA-new-year-s-day-0" ∧
        getHolidayById 0 (fun _ => none) o.id = Lookup.notFound :=
  ⟨_, rfl,
    { id := "ZA-new-year-s-day-0"
      name := "New Year's Day"
      date := "0-01-01"
      description := "The first day of the Gregorian calendar year"
      type := "National"
      countryCode := "ZA"
      observed := true }, by decide, rfl, rfl, by decide⟩

end GlobalHolidayContext

/-! ## Fixed holidays -/

namespace JS

theorem mapThrowing_isSome {α β : Type} (f : α → Option β) : ∀ (l : List α),
    (∀ a ∈ l, ∃ b, f a = some b) → ∃ l', mapThrowing f l = some l' := by
  intro l
  induction l with
  | nil => intro _; exact ⟨[], rfl⟩
  | cons a l ih =>
    intro h
    obtain ⟨b, hb⟩ := h a (by simp)
    obtain ⟨t, ht⟩ := ih (fun x hx => h x (by simp [hx]))
    exact ⟨b :: t, by simp [mapThrowing, hb, ht]⟩

end JS

namespace GlobalHolidayContext

/-- Every date of the tables is a day that exists in every year. -/
theorem holidayData_valid : ∀ p ∈ holidayData, ∀ d ∈ p.2,
    1 ≤ d.month ∧ d.month ≤ 12 ∧ 1 ≤ d.day ∧ (d.day : Int) ≤ daysInMonth ((d.month : Int) - 1) 0 := by
  decide

/-- `getHolidaysForCountry` returns a list for every year up to 275760, unless
the country code is a property name inherited from `Object.prototype`. -/
theorem getHolidaysForCountry_returns (tz : Int) (dir : String → Option Country) (cc : String)
    (y : Nat) (htz : -1440 < tz ∧ tz < 1440) (hy : y ≤ 275760) (base : List HolidayDef)
    (hb : baseHolidays dir cc = some base) :
    ∃ l, getHolidaysForCountry tz dir cc y = some l := by
  have hd := variableHolidays_dates tz cc y htz hy
  obtain ⟨varf, hv⟩ := mapThrowing_isSome (formatVariable cc y) (variableHolidays tz cc y)
    (fun v hv => by
      obtain ⟨w, _, _, hw⟩ := isoDate_isSpringMidnight tz _ v.date htz (hd v hv)
      unfold formatVariable
      rw [hw]
      exact ⟨_, rfl⟩)
  unfold getHolidaysForCountry
  rw [hb, hv]
  exact ⟨_, rfl⟩

/-- C8. For every country that has a table in `holidayData`, every year and
every definition of the table, the list that `getHolidaysForCountry` returns
has an entry with the name, the description and the type of the definition and
with the date `y-MM-DD`, month and day written with two digits; and the call
does return a list for every year up to 275760. -/
theorem fixed_holiday_fidelity (tz : Int) (dir : String → Option Country) (cc : String)
    (y : Nat) (table : List HolidayDef) (ht : holidayData.lookup cc = some table) :
    (∀ l, getHolidaysForCountry tz dir cc y = some l → ∀ d ∈ table, ∃ o ∈ l,
      o.name = d.name ∧ o.description = d.description ∧ o.type = d.type ∧
      o.date = numberToString y ++ "-" ++ twoDigits d.month ++ "-" ++ twoDigits d.day) ∧
    ((-1440 < tz ∧ tz < 1440) → y ≤ 275760 →
      ∃ l, getHolidaysForCountry tz dir cc y = some l) := by
  have hb : baseHolidays dir cc = some table := by
    unfold baseHolidays
    rw [ht]
  constructor
  · intro l hl d hd
    obtain ⟨base, varf, hb', _, rfl⟩ := getHolidaysForCountry_eq tz dir cc y l hl
    rw [hb] at hb'
    cases hb'
    have hval := holidayData_valid (cc, table) (lookup_mem cc table holidayData ht) d hd
    have hm : d.month < 100 := by omega
    have hday : d.day < 100 := by
      have := daysInMonth_cases ((d.month : Int) - 1) 0 (by omega)
      omega
    refine ⟨formatFixed cc y d, ?_, rfl, rfl, rfl, ?_⟩
    · exact (sort_perm compareDates _).symm.subset
        (List.mem_append_left _ (List.mem_map_of_mem _ hd))
    · show fixedDate y d.month d.day = _
      unfold fixedDate
      rw [padStart_two d.month hm, padStart_two d.day hday]
  · intro htz hy
    exact getHolidaysForCountry_returns tz dir cc y htz hy table hb

/-- C8, at South Africa in 2024 on a host two hours east of UTC: the list has
"Freedom Day" dated 2024-04-27 with type National. -/
theorem fixed_holiday_fidelity_witness :
    ∃ l, getHolidaysForCountry 120 (fun _ => none) "ZA" 2024 = some l ∧
      ∃ o ∈ l, o.name = "Freedom Day" ∧
        o.description = "Commemorates the first democratic elections in 1994" ∧
        o.type = "National" ∧ o.date = "2024-04-27" :=
  ⟨_, rfl, (fixed_holiday_fidelity 120 (fun _ => none) "ZA" 2024 _ rfl).1 _ rfl
    ⟨"Freedom Day", 4, 27, "Commemorates the first democratic elections in 1994", "National"⟩
    (by decide)⟩

end GlobalHolidayContext

/-! ## Sort order -/

namespace GlobalHolidayContext

theorem validDate_of_common (y m d : Nat)
    (h : 1 ≤ m ∧ m ≤ 12 ∧ 1 ≤ d ∧ (d : Int) ≤ daysInMonth ((m : Int) - 1) 0) :
    validDate y m d := by
  have c0 := daysInMonth_cases ((m : Int) - 1) 0 (by omega)
  have c1 := daysInMonth_cases ((m : Int) - 1) (InLeapYear y) (by omega)
  have hl := InLeapYear_cases y
  exact ⟨h.1, h.2.1, h.2.2.1, by omega⟩

theorem default_days_aux (p q : Prop) [Decidable p] [Decidable q] (a b c e f d : HolidayDef)
    (hd : d ∈ [a] ++ (if p then [b] else []) ++ (if q then [c] else []) ++ [e, f]) :
    d = a ∨ d = b ∨ d = c ∨ d = e ∨ d = f := by
  by_cases hp : p <;> by_cases hq : q <;>
    simp only [hp, hq, if_true, if_false, List.mem_append, List.mem_cons, List.mem_singleton,
      List.not_mem_nil, or_false, false_or] at hd <;>
    casesm* _ ∨ _ <;> simp [*]

theorem getDefaultHolidays_days (dir : String → Option Country) (cc : String) :
    ∀ d ∈ getDefaultHolidays dir cc,
      (d.month = 1 ∧ d.day = 1) ∨ (d.month = 5 ∧ d.day = 1) ∨ (d.month = 12 ∧ d.day = 25) ∨
      (d.month = 7 ∧ d.day = 1) ∨ (d.month = 12 ∧ d.day = 1) := by
  intro d hd
  rcases default_days_aux _ _ _ _ _ _ _ d hd with h | h | h | h | h <;> subst h <;> simp

/-- Every base holiday, of a table or of the default set, is a day that exists
in every year. -/
theorem baseHolidays_valid (dir : String → Option Country) (cc : String)
    (base : List HolidayDef) (hb : baseHolidays dir cc = some base) (y : Nat) :
    ∀ d ∈ base, validDate y d.month d.day := by
  intro d hd
  rcases baseHolidays_cases dir cc base hb with h | ⟨_, h⟩
  · exact validDate_of_common y _ _ (holidayData_valid (cc, base) h d hd)
  · subst h
    apply validDate_of_common
    rcases getDefaultHolidays_days dir cc d hd with ⟨e1, e2⟩ | ⟨e1, e2⟩ | ⟨e1, e2⟩ | ⟨e1, e2⟩ |
      ⟨e1, e2⟩ <;> rw [e1, e2] <;> decide

theorem formatVariable_date (cc : String) (y : Nat) (v : VariableHoliday) (o : Holiday)
    (h : formatVariable cc y v = some o) : isoDate v.date = some o.date := by
  unfold formatVariable at h
  cases hd : isoDate v.date with
  | none => rw [hd] at h; cases h
  | some d =>
    rw [hd] at h
    simp only [Option.map_some', Option.some.injEq] at h
    rw [← h]

/-- In a four-digit year every occurrence carries a date string of that year. -/
theorem getHolidaysForCountry_dates (tz : Int) (dir : String → Option Country) (cc : String)
    (y : Nat) (htz : -1440 < tz ∧ tz < 1440) (hy1 : 1000 ≤ y) (hy2 : y ≤ 9999)
    (base : List HolidayDef) (varf : List Holiday) (hb : baseHolidays dir cc = some base)
    (hv : mapThrowing (formatVariable cc y) (variableHolidays tz cc y) = some varf) :
    ∀ o ∈ base.map (formatFixed cc y) ++ varf, IsDateOf y o.date := by
  intro o ho
  rcases List.mem_append.mp ho with h1 | h1
  · obtain ⟨d, hd, rfl⟩ := List.mem_map.mp h1
    exact ⟨d.month, d.day, baseHolidays_valid dir cc base hb y d hd, rfl⟩
  · obtain ⟨v, hvm, hfv⟩ := mapThrowing_mem _ _ _ hv o h1
    obtain ⟨s, hs, hds⟩ := isoDate_isDateOf tz y v.date htz hy1 hy2
      (variableHolidays_dates tz cc y htz (by omega) v hvm)
    rw [formatVariable_date cc y v o hfv, Option.some.injEq] at hs
    rw [hs]
    exact hds

theorem getHolidaysForCountry_sorted (tz : Int) (dir : String → Option Country) (cc : String)
    (y : Nat) (htz : -1440 < tz ∧ tz < 1440) (hy1 : 1000 ≤ y) (hy2 : y ≤ 9999)
    (l : List Holiday) (h : getHolidaysForCountry tz dir cc y = some l) :
    l.Pairwise (fun a b => a.date ≤ b.date) := by
  obtain ⟨base, varf, hb, hv, rfl⟩ := getHolidaysForCountry_eq tz dir cc y l h
  exact sort_by_date_sorted (fun o : Holiday => o.date) y hy1 hy2 _
    (getHolidaysForCountry_dates tz dir cc y htz hy1 hy2 base varf hb hv)

end GlobalHolidayContext

namespace HolidayContext

theorem southAfrica_baseHolidays_valid : ∀ d ∈ baseHolidays,
    1 ≤ d.month ∧ d.month ≤ 12 ∧ 1 ≤ d.day ∧ (d.day : Int) ≤ daysInMonth ((d.month : Int) - 1) 0 := by
  decide

theorem southAfrica_variableHolidays_dates (tz : Int) (y : Nat) (htz : -1440 < tz ∧ tz < 1440)
    (hy : y ≤ 275760) :
    ∀ v ∈ variableHolidays tz y, IsSpringMidnight tz (MakeFullYear y) v.date := by
  intro v hv
  unfold variableHolidays at hv
  simp only [List.mem_cons, List.mem_singleton, List.not_mem_nil, or_false] at hv
  rcases hv with hv | hv <;> subst hv
  · exact easter_offsets_isSpringMidnight tz y htz hy (-2) (by omega)
  · exact easter_offsets_isSpringMidnight tz y htz hy 1 (by omega)

theorem southAfrica_formatVariable_date (y : Nat) (v : VariableHoliday) (o : Holiday)
    (h : formatVariable y v = some o) : isoDate v.date = some o.date := by
  unfold formatVariable at h
  cases hd : isoDate v.date with
  | none => rw [hd] at h; cases h
  | some d =>
    rw [hd] at h
    simp only [Option.map_some', Option.some.injEq] at h
    rw [← h]

/-- `generateHolidaysForYear` returns a list for every year up to 275760. -/
theorem generateHolidaysForYear_returns (tz : Int) (y : Nat) (htz : -1440 < tz ∧ tz < 1440)
    (hy : y ≤ 275760) :
    ∃ varf, mapThrowing (formatVariable y) (variableHolidays tz y) = some varf ∧
      generateHolidaysForYear tz y =
        some (sort compareDates (baseHolidays.map (formatFixed y) ++ varf)) := by
  have hd := southAfrica_variableHolidays_dates tz y htz hy
  obtain ⟨varf, hv⟩ := mapThrowing_isSome (formatVariable y) (variableHolidays tz y)
    (fun v hv => by
      obtain ⟨w, _, _, hw⟩ := isoDate_isSpringMidnight tz _ v.date htz (hd v hv)
      unfold formatVariable
      rw [hw]
      exact ⟨_, rfl⟩)
  refine ⟨varf, hv, ?_⟩
  unfold generateHolidaysForYear
  rw [hv]

theorem generateHolidaysForYear_sorted (tz : Int) (y : Nat) (htz : -1440 < tz ∧ tz < 1440)
    (hy1 : 1000 ≤ y) (hy2 : y ≤ 9999) :
    ∃ l, generateHolidaysForYear tz y = some l ∧ l.Pairwise (fun a b => a.date ≤ b.date) := by
  obtain ⟨varf, hv, he⟩ := generateHolidaysForYear_returns tz y htz (by omega)
  refine ⟨_, he, ?_⟩
  apply sort_by_date_sorted (fun o : Holiday => o.date) y hy1 hy2
  intro o ho
  rcases List.mem_append.mp ho with h1 | h1
  · obtain ⟨d, hd, rfl⟩ := List.mem_map.mp h1
    exact ⟨d.month, d.day,
      GlobalHolidayContext.validDate_of_common y _ _ (southAfrica_baseHolidays_valid d hd), rfl⟩
  · obtain ⟨v, hvm, hfv⟩ := mapThrowing_mem _ _ _ hv o h1
    obtain ⟨s, hs, hds⟩ := isoDate_isDateOf tz y v.date htz hy1 hy2
      (southAfrica_variableHolidays_dates tz y htz (by omega) v hvm)
    rw [southAfrica_formatVariable_date y v o hfv, Option.some.injEq] at hs
    rw [hs]
    exact hds

end HolidayContext

/-- C1, as amended. For every country code and every four-digit year (1000 to
9999), the list that `getHolidaysForCountry` returns is non-decreasing by date
string, and so is the list of `generateHolidaysForYear`, which is returned for
every such year. -/
theorem holidays_sorted_by_date (tz : Int) (dir : String → Option Country) (cc : String)
    (y : Nat) (htz : -1440 < tz ∧ tz < 1440) (hy1 : 1000 ≤ y) (hy2 : y ≤ 9999) :
    (∀ l, GlobalHolidayContext.getHolidaysForCountry tz dir cc y = some l →
      l.Pairwise (fun a b => a.date ≤ b.date)) ∧
    (∃ l, HolidayContext.generateHolidaysForYear tz y = some l ∧
      l.Pairwise (fun a b => a.date ≤ b.date)) :=
  ⟨fun l h => GlobalHolidayContext.getHolidaysForCountry_sorted tz dir cc y htz hy1 hy2 l h,
    HolidayContext.generateHolidaysForYear_sorted tz y htz hy1 hy2⟩

set_option maxRecDepth 100000 in
/-- C1, as amended, at Brazil in 2025 on a host two hours east of UTC. -/
theorem holidays_sorted_by_date_witness :
    (∃ l, GlobalHolidayContext.getHolidaysForCountry 120 (fun _ => none) "BR" 2025 = some l ∧
      l.length = 10 ∧ l.Pairwise (fun a b => a.date ≤ b.date)) ∧
    (∃ l, HolidayContext.generateHolidaysForYear 120 2025 = some l ∧
      l.Pairwise (fun a b => a.date ≤ b.date)) :=
  ⟨⟨_, rfl, rfl,
    (holidays_sorted_by_date 120 (fun _ => none) "BR" 2025 (by decide) (by decide)
      (by decide)).1 _ rfl⟩,
    (holidays_sorted_by_date 120 (fun _ => none) "BR" 2025 (by decide) (by decide)
      (by decide)).2⟩

/-- A date string that begins with `1` is greater than `+010000-04-14`: `+`
precedes `1`. -/
theorem plus_lt_of_one (s : String) (h : s.data.head? = some '1') :
    ("+010000-04-14" : String) < s := by
  rw [String.lt_iff_toList_lt]
  cases hs : s.data with
  | nil => rw [hs] at h; cases h
  | cons c cs =>
    rw [hs, List.head?_cons, Option.some.injEq] at h
    subst h
    show List.Lex (· < ·) ("+010000-04-14" : String).data s.data
    rw [hs]
    exact List.Lex.rel (by decide)

theorem good_friday_lt_easter_monday : ("+010000-04-14" : String) < "+010000-04-17" := by
  rw [String.lt_iff_toList_lt]
  change List.Lex (· < ·) _ _
  repeat apply List.Lex.cons
  exact List.Lex.rel (by decide)

/-- A list that holds an element with the least key `g`, all other keys being
greater, is non-decreasing by the key, in whatever order it stands, only when its
first element has the key `g`. -/
theorem head_of_sorted {α : Type} (key : α → String) (g : String) (l : List α)
    (hg : ∃ o ∈ l, key o = g) (hmin : ∀ o ∈ l, key o = g ∨ g < key o) :
    ∀ p : List α, p.Perm l → p.Pairwise (fun a b => key a ≤ key b) →
      p.head?.map key = some g := by
  intro p hp hs
  obtain ⟨o, ho, hk⟩ := hg
  have hop : o ∈ p := hp.symm.subset ho
  cases p with
  | nil => exact absurd hop (List.not_mem_nil o)
  | cons a t =>
    rw [List.head?_cons, Option.map_some', Option.some.injEq]
    rcases hmin a (hp.subset (List.mem_cons_self a t)) with h | h
    · exact h
    · rcases List.mem_cons.mp hop with e | ht
      · rw [← e, hk] at h
        exact absurd h (lt_irrefl _)
      · have hle := (List.pairwise_cons.mp hs).1 o ht
        rw [hk] at hle
        exact absurd h (not_lt.mpr hle)

/-- The date strings of South Africa in the year 10000: that of Good Friday is
the least. -/
theorem year_10000_least : ∀ s ∈ (["10000-01-01", "10000-03-21", "10000-04-27", "10000-05-01",
      "10000-06-16", "10000-08-09", "10000-09-24", "10000-12-16", "10000-12-25",
      "10000-12-26", "+010000-04-14", "+010000-04-17"] : List String),
    s = "+010000-04-14" ∨ ("+010000-04-14" : String) < s := by
  intro s hs
  simp only [List.mem_cons, List.mem_singleton, List.not_mem_nil, or_false] at hs
  rcases hs with rfl | rfl | rfl | rfl | rfl | rfl | rfl | rfl | rfl | rfl | rfl | rfl
  all_goals first
    | exact Or.inl rfl
    | exact Or.inr good_friday_lt_easter_monday
    | exact Or.inr (plus_lt_of_one _ rfl)

/-- A list whose date strings are, in some order, those of South Africa in the
year 10000 is not non-decreasing when it has New Year's Day first, and is
non-decreasing only when it has Good Friday first. -/
theorem year_10000_unsorted {α : Type} (date : α → String) (l : List α)
    (hd : (l.map date).Perm ["10000-01-01", "10000-03-21", "10000-04-27", "10000-05-01",
      "10000-06-16", "10000-08-09", "10000-09-24", "10000-12-16", "10000-12-25",
      "10000-12-26", "+010000-04-14", "+010000-04-17"]) :
    ∀ p : List α, p.Perm l → p.Pairwise (fun a b => date a ≤ date b) →
      p.head?.map date = some "+010000-04-14" := by
  refine head_of_sorted date _ l ?_ ?_
  · have hm : ("+010000-04-14" : String) ∈ l.map date := hd.symm.subset (by decide)
    obtain ⟨o, ho, e⟩ := List.mem_map.mp hm
    exact ⟨o, ho, e⟩
  · intro o ho
    exact year_10000_least _ (hd.subset (List.mem_map_of_mem date ho))

set_option maxRecDepth 100000 in
/-- C1, as stated, fails in the year 10000: the fixed holidays are dated
`10000-MM-DD` by the template and the moveable ones `+010000-MM-DD` by
`toISOString`, and `+` precedes `1`. The list of South Africa has "New Year's
Day" dated `10000-01-01` and "Good Friday" dated `+010000-04-14`, a smaller
string; it is not non-decreasing, and no arrangement of its entries is
non-decreasing unless Good Friday stands first. The same holds for the list of
`generateHolidaysForYear`. -/
theorem holidays_not_sorted_in_year_10000 :
    (∃ l, GlobalHolidayContext.getHolidaysForCountry 0 (fun _ => none) "ZA" 10000 = some l ∧
      (∃ a ∈ l, a.name = "New Year's Day" ∧ a.date = "10000-01-01") ∧
      (∃ b ∈ l, b.name = "Good Friday" ∧ b.date = "+010000-04-14") ∧
      ¬ l.Pairwise (fun a b => a.date ≤ b.date) ∧
      (∀ p : List GlobalHolidayContext.Holiday, p.Perm l →
        p.Pairwise (fun a b => a.date ≤ b.date) →
        p.head?.map (·.date) = some "+010000-04-14")) ∧
    (∃ l, HolidayContext.generateHolidaysForYear 0 10000 = some l ∧
      (∃ a ∈ l, a.name = "New Year's Day" ∧ a.date = "10000-01-01") ∧
      (∃ b ∈ l, b.name = "Good Friday" ∧ b.date = "+010000-04-14") ∧
      ¬ l.Pairwise (fun a b => a.date ≤ b.date) ∧
      (∀ p : List HolidayContext.Holiday, p.Perm l →
        p.Pairwise (fun a b => a.date ≤ b.date) →
        p.head?.map (·.date) = some "+010000-04-14")) := by
  refine ⟨⟨_, rfl, by decide, by decide, ?_, ?_⟩, ⟨_, rfl, by decide, by decide, ?_, ?_⟩⟩
  · intro h
    exact absurd (year_10000_unsorted (fun o : GlobalHolidayContext.Holiday => o.date) _
      (List.Perm.of_eq (by decide)) _ (List.Perm.refl _) h) (by decide)
  · exact year_10000_unsorted (fun o : GlobalHolidayContext.Holiday => o.date) _
      (List.Perm.of_eq (by decide))
  · intro h
    exact absurd (year_10000_unsorted (fun o : HolidayContext.Holiday => o.date) _
      (List.Perm.of_eq (by decide)) _ (List.Perm.refl _) h) (by decide)
  · exact year_10000_unsorted (fun o : HolidayContext.Holiday => o.date) _
      (List.Perm.of_eq (by decide))

/-! ## Moveable holidays and the time zone of the host -/

set_option maxRecDepth 100000 in
/-- C6, on a host two hours east of UTC (South African time): for 2024
`calculateEaster` gives 31 March, and the list for South Africa dates "Good
Friday" 2024-03-28, three days before, and "Easter Monday" 2024-03-31, Easter
Sunday itself. On a host at UTC the entries are 2024-03-29 and 2024-04-01. -/
theorem easter_entries_east_of_utc :
    easterMonthDay 2024 = (3, 31) ∧
    Date.getDate 120 (calculateEaster 120 2024) = some 31 ∧
    (∃ l, GlobalHolidayContext.getHolidaysForCountry 120 (fun _ => none) "ZA" 2024 = some l ∧
      (l.filter (fun o => o.name = "Good Friday" ∨ o.name = "Easter Monday")).map
        (fun o => (o.name, o.date)) =
        [("Good Friday", "2024-03-28"), ("Easter Monday", "2024-03-31")]) ∧
    (∃ l, GlobalHolidayContext.getHolidaysForCountry 0 (fun _ => none) "ZA" 2024 = some l ∧
      (l.filter (fun o => o.name = "Good Friday" ∨ o.name = "Easter Monday")).map
        (fun o => (o.name, o.date)) =
        [("Good Friday", "2024-03-29"), ("Easter Monday", "2024-04-01")]) :=
  ⟨by decide, by decide, ⟨_, rfl, by decide⟩, ⟨_, rfl, by decide⟩⟩

set_option maxRecDepth 100000 in
/-- C7, on a host two hours east of UTC: the same call gives other date strings
than on a host at UTC. "Good Friday" for South Africa in 2024 is emitted as
2024-03-28 instead of 2024-03-29, and "Chinese New Year" for China in 2024,
whose table entry is commented "Feb 10", as 2024-02-09. -/
theorem moveable_dates_depend_on_host :
    (∃ l, GlobalHolidayContext.getHolidaysForCountry 120 (fun _ => none) "ZA" 2024 = some l ∧
      ∃ o ∈ l, o.name = "Good Friday" ∧ o.date = "2024-03-28") ∧
    (∃ l, GlobalHolidayContext.getHolidaysForCountry 0 (fun _ => none) "ZA" 2024 = some l ∧
      ∃ o ∈ l, o.name = "Good Friday" ∧ o.date = "2024-03-29") ∧
    (∃ l, GlobalHolidayContext.getHolidaysForCountry 120 (fun _ => none) "CN" 2024 = some l ∧
      ∃ o ∈ l, o.name = "Chinese New Year" ∧ o.date = "2024-02-09") ∧
    (∃ l, HolidayContext.generateHolidaysForYear 120 2024 = some l ∧
      ∃ o ∈ l, o.name = "Good Friday" ∧ o.date = "2024-03-28") := by
  refine ⟨⟨_, rfl, ?_⟩, ⟨_, rfl, ?_⟩, ⟨_, rfl, ?_⟩, ⟨_, rfl, ?_⟩⟩ <;> decide

/-! ## The default set and the moveable holidays of a country -/

namespace JS

theorem mapThrowing_mem_of {α β : Type} (f : α → Option β) : ∀ (l : List α) (l' : List β),
    mapThrowing f l = some l' → ∀ a ∈ l, ∀ b, f a = some b → b ∈ l' := by
  intro l
  induction l with
  | nil => intro l' _ a ha; cases ha
  | cons x l ih =>
    intro l' hl a ha b hab
    unfold mapThrowing at hl
    cases hfx : f x with
    | none => rw [hfx] at hl; cases hl
    | some b0 =>
      rw [hfx] at hl
      cases hm : mapThrowing f l with
      | none => rw [hm] at hl; cases hl
      | some t =>
        rw [hm] at hl
        simp only [Option.map_some', Option.some.injEq] at hl
        subst hl
        rcases List.mem_cons.mp ha with rfl | ha'
        · rw [hfx, Option.some.injEq] at hab
          subst hab
          exact List.mem_cons_self _ _
        · exact List.mem_cons_of_mem _ (ih t hm a ha' b hab)

theorem mapThrowing_length {α β : Type} (f : α → Option β) : ∀ (l : List α) (l' : List β),
    mapThrowing f l = some l' → l'.length = l.length := by
  intro l l' h
  have := mapThrowing_map f (fun _ => ()) (fun _ => ()) (fun _ _ _ => rfl) l l' h
  simpa using congrArg List.length this

theorem append_hyphen (s a b : String) : s ++ "-" ++ a ++ "-" ++ b = s ++ ("-" ++ a ++ "-" ++ b) := by
  apply String.ext
  simp only [String.data_append, List.append_assoc]

end JS

namespace GlobalHolidayContext

/-- `baseHolidays` is a list unless the country code is an inherited property
name. -/
theorem baseHolidays_of_not_inherited (dir : String → Option Country) (cc : String)
    (hk : cc ∉ inheritedKeys) : ∃ base, baseHolidays dir cc = some base := by
  unfold baseHolidays
  cases holidayData.lookup cc with
  | some table => exact ⟨table, rfl⟩
  | none => exact ⟨getDefaultHolidays dir cc, by simp only [hk, if_false]⟩

theorem baseHolidays_of_no_table (dir : String → Option Country) (cc : String)
    (hno : holidayData.lookup cc = none) (hk : cc ∉ inheritedKeys) :
    baseHolidays dir cc = some (getDefaultHolidays dir cc) := by
  unfold baseHolidays
  rw [hno]
  simp only [hk, if_false]

/-- The occurrences of the returned list are the formatted base holidays and the
formatted moveable holidays. -/
theorem getHolidaysForCountry_mem (tz : Int) (dir : String → Option Country) (cc : String)
    (y : Nat) (l : List Holiday) (h : getHolidaysForCountry tz dir cc y = some l)
    (base : List HolidayDef) (hb : baseHolidays dir cc = some base) (o : Holiday) :
    o ∈ l ↔ (∃ d ∈ base, o = formatFixed cc y d) ∨
      (∃ v ∈ variableHolidays tz cc y, formatVariable cc y v = some o) := by
  obtain ⟨base', varf, hb', hv, rfl⟩ := getHolidaysForCountry_eq tz dir cc y l h
  rw [hb] at hb'
  cases hb'
  rw [(sort_perm compareDates _).mem_iff, List.mem_append, List.mem_map]
  constructor
  · rintro (⟨d, hd, rfl⟩ | ho)
    · exact Or.inl ⟨d, hd, rfl⟩
    · exact Or.inr (mapThrowing_mem _ _ _ hv o ho)
  · rintro (⟨d, hd, rfl⟩ | ⟨v, hvm, hfv⟩)
    · exact Or.inl ⟨d, hd, rfl⟩
    · exact Or.inr (mapThrowing_mem_of _ _ _ hv v hvm o hfv)

theorem getHolidaysForCountry_length (tz : Int) (dir : String → Option Country) (cc : String)
    (y : Nat) (l : List Holiday) (h : getHolidaysForCountry tz dir cc y = some l)
    (base : List HolidayDef) (hb : baseHolidays dir cc = some base) :
    l.length = base.length + (variableHolidays tz cc y).length := by
  obtain ⟨base', varf, hb', hv, rfl⟩ := getHolidaysForCountry_eq tz dir cc y l h
  rw [hb] at hb'
  cases hb'
  rw [(sort_perm compareDates _).length_eq, List.length_append, List.length_map,
    mapThrowing_length _ _ _ hv]

/-- A country of none of the three lists has no moveable holidays. -/
theorem variableHolidays_nil (tz : Int) (cc : String) (y : Nat)
    (h : cc ∉ easterCountries ∧ cc ∉ islamicCountries ∧ cc ∉ lunarCountries) :
    variableHolidays tz cc y = [] := by
  unfold variableHolidays
  simp only [h.1, h.2.1, h.2.2, if_false, List.append_nil]

theorem fixedDate_jan1 (y : Nat) : fixedDate y 1 1 = numberToString y ++ "-01-01" :=
  append_hyphen _ _ _

theorem fixedDate_jul1 (y : Nat) : fixedDate y 7 1 = numberToString y ++ "-07-01" :=
  append_hyphen _ _ _

theorem fixedDate_dec1 (y : Nat) : fixedDate y 12 1 = numberToString y ++ "-12-01" :=
  append_hyphen _ _ _

theorem fixedDate_dec25 (y : Nat) : fixedDate y 12 25 = numberToString y ++ "-12-25" :=
  append_hyphen _ _ _

theorem fixedDate_may1 (y : Nat) : fixedDate y 5 1 = numberToString y ++ "-05-01" :=
  append_hyphen _ _ _

/-- When the call returns at all, it returns for a country without a table a
list with the three entries that every default set has. -/
theorem default_entries (tz : Int) (dir : String → Option Country) (cc : String) (y : Nat)
    (l : List Holiday) (hno : holidayData.lookup cc = none)
    (h : getHolidaysForCountry tz dir cc y = some l) :
    l ≠ [] ∧
    (∃ o ∈ l, o.name = "New Year's Day" ∧ o.date = numberToString y ++ "-01-01") ∧
    (∃ o ∈ l, o.name = "Independence Day" ∧ o.date = numberToString y ++ "-07-01") ∧
    (∃ o ∈ l, o.name = "National Day" ∧ o.date = numberToString y ++ "-12-01") := by
  obtain ⟨base, varf, hb, _, _⟩ := getHolidaysForCountry_eq tz dir cc y l h
  have hbd : base = getDefaultHolidays dir cc := by
    rcases baseHolidays_cases dir cc base hb with h1 | ⟨_, h1⟩
    · have := List.lookup_eq_none_iff.mp hno (cc, base) h1
      simp at this
    · exact h1
  subst hbd
  have hm := fun o => (getHolidaysForCountry_mem tz dir cc y l h _ hb o).mpr
  have m1 : formatFixed cc y ⟨"New Year's Day", 1, 1,
      "The first day of the Gregorian calendar year", "National"⟩ ∈ l :=
    hm _ (Or.inl ⟨_, by unfold getDefaultHolidays; simp, rfl⟩)
  have m2 : formatFixed cc y ⟨"Independence Day", 7, 1,
      (match dir cc with | some c => c.name | none => "National") ++ " Independence Day",
      "National"⟩ ∈ l :=
    hm _ (Or.inl ⟨_, List.mem_append_right _ (List.mem_cons_self _ _), rfl⟩)
  have m3 : formatFixed cc y ⟨"National Day", 12, 1,
      (match dir cc with | some c => c.name | none => "National") ++ " National Day",
      "National"⟩ ∈ l :=
    hm _ (Or.inl ⟨_, List.mem_append_right _
      (List.mem_cons_of_mem _ (List.mem_cons_self _ _)), rfl⟩)
  exact ⟨List.ne_nil_of_mem m1, ⟨_, m1, rfl, fixedDate_jan1 y⟩, ⟨_, m2, rfl, fixedDate_jul1 y⟩,
    ⟨_, m3, rfl, fixedDate_dec1 y⟩⟩

end GlobalHolidayContext

/-! ## Default set: claims -/

namespace GlobalHolidayContext

/-- C11, as amended. For every country code without a table that is not a
property name inherited from `Object.prototype`, and every year up to 275760
(every year at all when the country is in none of the three lists of moveable
holidays), `getHolidaysForCountry` returns a non-empty list with "New Year's
Day" dated y-01-01, "Independence Day" dated y-07-01 and "National Day" dated
y-12-01. -/
theorem default_set_returned (tz : Int) (dir : String → Option Country) (cc : String)
    (y : Nat) (hno : holidayData.lookup cc = none) (hk : cc ∉ inheritedKeys)
    (hy : (y ≤ 275760 ∧ -1440 < tz ∧ tz < 1440) ∨
      (cc ∉ easterCountries ∧ cc ∉ islamicCountries ∧ cc ∉ lunarCountries)) :
    ∃ l, getHolidaysForCountry tz dir cc y = some l ∧ l ≠ [] ∧
      (∃ o ∈ l, o.name = "New Year's Day" ∧ o.date = numberToString y ++ "-01-01") ∧
      (∃ o ∈ l, o.name = "Independence Day" ∧ o.date = numberToString y ++ "-07-01") ∧
      (∃ o ∈ l, o.name = "National Day" ∧ o.date = numberToString y ++ "-12-01") := by
  have hb := baseHolidays_of_no_table dir cc hno hk
  have hex : ∃ l, getHolidaysForCountry tz dir cc y = some l := by
    rcases hy with ⟨h1, h2, h3⟩ | h4
    · exact getHolidaysForCountry_returns tz dir cc y ⟨h2, h3⟩ h1 _ hb
    · unfold getHolidaysForCountry
      rw [hb, variableHolidays_nil tz cc y h4]
      exact ⟨_, rfl⟩
  obtain ⟨l, hl⟩ := hex
  exact ⟨l, hl, default_entries tz dir cc y l hno hl⟩

set_option maxRecDepth 100000 in
/-- C11, as amended, at the unknown code ZZ in 2024. -/
theorem default_set_returned_witness :
    ∃ l, getHolidaysForCountry 120 (fun _ => none) "ZZ" 2024 = some l ∧ l ≠ [] ∧
      (∃ o ∈ l, o.name = "New Year's Day" ∧ o.date = numberToString 2024 ++ "-01-01") ∧
      (∃ o ∈ l, o.name = "Independence Day" ∧ o.date = numberToString 2024 ++ "-07-01") ∧
      (∃ o ∈ l, o.name = "National Day" ∧ o.date = numberToString 2024 ++ "-12-01") :=
  default_set_returned 120 (fun _ => none) "ZZ" 2024 (by decide) (by decide)
    (Or.inr (by decide))

set_option maxRecDepth 100000 in
/-- C11, as stated, fails: Italy has no table and has the Easter holidays, and
in the year 275761 its Easter dates are beyond the range of a Date, so that
`toISOString` throws; and for the code `constructor` the lookup in `holidayData`
finds the inherited property, on which `.map` is not a function. -/
theorem default_set_throws :
    holidayData.lookup "IT" = none ∧
    calculateEaster 0 275761 = none ∧
    getHolidaysForCountry 0 (fun _ => none) "IT" 275761 = none ∧
    holidayData.lookup "constructor" = none ∧
    getHolidaysForCountry 0 (fun _ => none) "constructor" 2024 = none := by
  refine ⟨by decide, by decide, by decide, by decide, by decide⟩

theorem christmas_not_in (a e i l : Bool) :
    "Christmas Day" ∉ defaultNames a false ++ variableNames e i l := by
  revert a e i l
  decide

/-- C12, as amended. For every country code without a table: when the code is
in the country directory and not in the exclusion list, the returned list has
"Christmas Day" dated y-12-25; when it is absent from the directory or in the
exclusion list, the list has no "Christmas Day". -/
theorem christmas_in_default_set (tz : Int) (dir : String → Option Country) (cc : String)
    (y : Nat) (l : List Holiday) (hno : holidayData.lookup cc = none)
    (h : getHolidaysForCountry tz dir cc y = some l) :
    (((dir cc).isSome ∧ cc ∉ ["SA", "AE", "IR", "AF", "PK", "BD", "ID", "MY"]) →
      ∃ o ∈ l, o.name = "Christmas Day" ∧ o.date = numberToString y ++ "-12-25") ∧
    (¬ ((dir cc).isSome ∧ cc ∉ ["SA", "AE", "IR", "AF", "PK", "BD", "ID", "MY"]) →
      ∀ o ∈ l, o.name ≠ "Christmas Day") := by
  obtain ⟨base, varf, hb, _, _⟩ := getHolidaysForCountry_eq tz dir cc y l h
  have hbd : base = getDefaultHolidays dir cc := by
    rcases baseHolidays_cases dir cc base hb with h1 | ⟨_, h1⟩
    · have := List.lookup_eq_none_iff.mp hno (cc, base) h1
      simp at this
    · exact h1
  subst hbd
  constructor
  · intro hc
    refine ⟨formatFixed cc y ⟨"Christmas Day", 12, 25,
      "Christian holiday celebrating the birth of Jesus Christ", "Religious"⟩, ?_, rfl,
      fixedDate_dec25 y⟩
    refine (getHolidaysForCountry_mem tz dir cc y l h _ hb _).mpr (Or.inl ⟨_, ?_, rfl⟩)
    refine List.mem_append_left _ (List.mem_append_right _ ?_)
    rw [if_pos hc]
    exact List.mem_singleton_self _
  · intro hc o ho hname
    obtain ⟨base', hb', hp⟩ := getHolidaysForCountry_names tz dir cc y l h
    rw [hb] at hb'
    cases hb'
    have hn : o.name ∈ l.map (·.name) := List.mem_map_of_mem _ ho
    have hn' := hp.subset hn
    rw [getDefaultHolidays_names, hname] at hn'
    simp only [hc, decide_False] at hn'
    exact christmas_not_in _ _ _ _ hn'

set_option maxRecDepth 100000 in
/-- C12, as amended, at Italy in 2024 with a directory that has Italy. -/
theorem christmas_in_default_set_witness :
    ∃ l, getHolidaysForCountry 0 (fun c => some ⟨c, "Italy", "Europe"⟩) "IT" 2024 = some l ∧
      ∃ o ∈ l, o.name = "Christmas Day" ∧ o.date = numberToString 2024 ++ "-12-25" :=
  ⟨_, rfl, (christmas_in_default_set 0 (fun c => some ⟨c, "Italy", "Europe"⟩) "IT" 2024 _
    (by decide) rfl).1 (by decide)⟩

set_option maxRecDepth 100000 in
/-- C12, as stated, fails for a code that is absent from the country directory:
ZZ has no table and is not in the exclusion list, and with a directory without
ZZ the list for 2024 has no "Christmas Day". -/
theorem christmas_absent_without_directory :
    holidayData.lookup "ZZ" = none ∧
    "ZZ" ∉ ["SA", "AE", "IR", "AF", "PK", "BD", "ID", "MY"] ∧
    ∃ l, getHolidaysForCountry 0 (fun _ => none) "ZZ" 2024 = some l ∧
      l.map (·.name) = ["New Year's Day", "Labour Day", "Independence Day", "National Day"] ∧
      ∀ o ∈ l, o.name ≠ "Christmas Day" :=
  ⟨by decide, by decide, _, rfl, rfl, by decide⟩

end GlobalHolidayContext

/-! ## Which moveable holidays a country has -/

namespace GlobalHolidayContext

/-- The names of the moveable holidays. -/
theorem holidayData_no_moveable_names : ∀ p ∈ holidayData,
    ∀ n ∈ ["Good Friday", "Easter Monday", "Eid al-Fitr", "Eid al-Adha", "Chinese New Year"],
      n ∉ p.2.map (·.name) := by
  decide

theorem defaultNames_no_moveable_names : ∀ a b : Bool,
    ∀ n ∈ ["Good Friday", "Easter Monday", "Eid al-Fitr", "Eid al-Adha", "Chinese New Year"],
      n ∉ defaultNames a b := by
  decide

/-- No base holiday, of a table or of the default set, has the name of a
moveable holiday. -/
theorem base_no_moveable_names (dir : String → Option Country) (cc : String)
    (base : List HolidayDef) (hb : baseHolidays dir cc = some base) :
    ∀ n ∈ ["Good Friday", "Easter Monday", "Eid al-Fitr", "Eid al-Adha", "Chinese New Year"],
      n ∉ base.map (·.name) := by
  rcases baseHolidays_cases dir cc base hb with h | ⟨_, h⟩
  · exact holidayData_no_moveable_names (cc, base) h
  · subst h
    rw [getDefaultHolidays_names]
    exact defaultNames_no_moveable_names _ _

theorem variableNames_count : ∀ e i l : Bool,
    (variableNames e i l).count "Good Friday" = (if e then 1 else 0) ∧
    (variableNames e i l).count "Easter Monday" = (if e then 1 else 0) ∧
    (variableNames e i l).count "Eid al-Fitr" = (if i then 1 else 0) ∧
    (variableNames e i l).count "Eid al-Adha" = (if i then 1 else 0) ∧
    (variableNames e i l).count "Chinese New Year" = (if l then 1 else 0) := by
  decide

/-- How often the name of a moveable holiday occurs in the returned list: as
often as among the moveable holidays of the country. -/
theorem moveable_count (tz : Int) (dir : String → Option Country) (cc : String) (y : Nat)
    (l : List Holiday) (h : getHolidaysForCountry tz dir cc y = some l) (n : String)
    (hn : n ∈ ["Good Friday", "Easter Monday", "Eid al-Fitr", "Eid al-Adha",
      "Chinese New Year"]) :
    (l.map (·.name)).count n =
      (variableNames (decide (cc ∈ easterCountries)) (decide (cc ∈ islamicCountries))
        (decide (cc ∈ lunarCountries))).count n := by
  obtain ⟨base, hb, hp⟩ := getHolidaysForCountry_names tz dir cc y l h
  rw [hp.count_eq, List.count_append,
    List.count_eq_zero_of_not_mem (base_no_moveable_names dir cc base hb n hn), Nat.zero_add]

theorem exists_name_iff_count (l : List Holiday) (n : String) :
    (∃ o ∈ l, o.name = n) ↔ 0 < (l.map (·.name)).count n := by
  rw [List.count_pos_iff, List.mem_map]

/-- C13. For every country code and year, the list that `getHolidaysForCountry`
returns has entries named "Good Friday" and "Easter Monday" if and only if the
code is one of ZA, GB, AU, DE, FR, IT, ES, CA, BR, AR, CL, CO, RO, PL, NL, and
then each exactly once; the call returns a list for every year up to 275760. -/
theorem easter_entries_iff (tz : Int) (dir : String → Option Country) (cc : String) (y : Nat) :
    (∀ l, getHolidaysForCountry tz dir cc y = some l →
      (((∃ o ∈ l, o.name = "Good Friday") ∧ (∃ o ∈ l, o.name = "Easter Monday")) ↔
        cc ∈ ["ZA", "GB", "AU", "DE", "FR", "IT", "ES", "CA", "BR", "AR", "CL", "CO", "RO",
          "PL", "NL"]) ∧
      ((∃ o ∈ l, o.name = "Good Friday") ↔ cc ∈ easterCountries) ∧
      ((∃ o ∈ l, o.name = "Easter Monday") ↔ cc ∈ easterCountries) ∧
      (cc ∈ easterCountries → (l.map (·.name)).count "Good Friday" = 1 ∧
        (l.map (·.name)).count "Easter Monday" = 1)) ∧
    ((-1440 < tz ∧ tz < 1440) → y ≤ 275760 → cc ∉ inheritedKeys →
      ∃ l, getHolidaysForCountry tz dir cc y = some l) := by
  constructor
  · intro l h
    have c1 := moveable_count tz dir cc y l h "Good Friday" (by decide)
    have c2 := moveable_count tz dir cc y l h "Easter Monday" (by decide)
    have hv := variableNames_count (decide (cc ∈ easterCountries))
      (decide (cc ∈ islamicCountries)) (decide (cc ∈ lunarCountries))
    rw [hv.1] at c1
    rw [hv.2.1] at c2
    rw [exists_name_iff_count, exists_name_iff_count, c1, c2]
    change _ ∧ _ ∧ _ ∧ (cc ∈ easterCountries → _)
    change ((_ ∧ _) ↔ cc ∈ easterCountries) ∧ _
    by_cases hc : cc ∈ easterCountries
    · simp only [hc, decide_True, if_true, Nat.lt_one_iff, and_self, true_iff,
        forall_const, c1, c2]
    · simp only [hc, decide_False, if_false, Nat.lt_irrefl, and_self, false_iff,
        not_false_eq_true, false_implies, Bool.false_eq_true]
  · intro htz hy hk
    obtain ⟨base, hb⟩ := baseHolidays_of_not_inherited dir cc hk
    exact getHolidaysForCountry_returns tz dir cc y htz hy base hb

set_option maxRecDepth 100000 in
/-- C13, at Brazil (Easter holidays) and at the United States (none) in 2025. -/
theorem easter_entries_iff_witness :
    (∃ l, getHolidaysForCountry 0 (fun _ => none) "BR" 2025 = some l ∧
      (l.map (·.name)).count "Good Friday" = 1 ∧
      (l.map (·.name)).count "Easter Monday" = 1) ∧
    (∃ l, getHolidaysForCountry 0 (fun _ => none) "US" 2025 = some l ∧
      ¬ (∃ o ∈ l, o.name = "Good Friday")) :=
  ⟨⟨_, rfl, ((easter_entries_iff 0 (fun _ => none) "BR" 2025).1 _ rfl).2.2.2 (by decide)⟩,
   ⟨_, rfl, fun hex =>
    absurd ((((easter_entries_iff 0 (fun _ => none) "US" 2025).1 _ rfl).2.1).mp hex)
      (by decide)⟩⟩

end GlobalHolidayContext

namespace GlobalHolidayContext

/-- The Date object of a moveable holiday, by its name. -/
theorem variableHolidays_date_of_name (tz : Int) (cc : String) (y : Nat) :
    ∀ v ∈ variableHolidays tz cc y,
      (v.name = "Eid al-Fitr" → v.date = calculateEidAlFitr tz y) ∧
      (v.name = "Eid al-Adha" → v.date = calculateEidAlAdha tz y) ∧
      (v.name = "Chinese New Year" → v.date = calculateChineseNewYear tz y) := by
  intro v hv
  unfold variableHolidays at hv
  simp only [List.mem_append] at hv
  rcases hv with ((hv | hv) | hv) | hv
  · split_ifs at hv
    · rw [List.mem_singleton] at hv; subst hv
      exact ⟨by simp, by simp, by simp⟩
    · cases hv
  · split_ifs at hv
    · rw [List.mem_singleton] at hv; subst hv
      exact ⟨by simp, by simp, by simp⟩
    · cases hv
  · split_ifs at hv
    · simp only [List.mem_cons, List.mem_singleton, List.not_mem_nil, or_false] at hv
      rcases hv with hv | hv <;> subst hv
      · exact ⟨fun _ => rfl, by simp, by simp⟩
      · exact ⟨by simp, fun _ => rfl, by simp⟩
    · cases hv
  · split_ifs at hv
    · rw [List.mem_singleton] at hv; subst hv
      exact ⟨by simp, by simp, fun _ => rfl⟩
    · cases hv

/-- An occurrence with the name of a moveable holiday is a formatted moveable
holiday. -/
theorem moveable_of_name (tz : Int) (dir : String → Option Country) (cc : String) (y : Nat)
    (l : List Holiday) (h : getHolidaysForCountry tz dir cc y = some l) (o : Holiday)
    (ho : o ∈ l)
    (hn : o.name ∈ ["Good Friday", "Easter Monday", "Eid al-Fitr", "Eid al-Adha",
      "Chinese New Year"]) :
    ∃ v ∈ variableHolidays tz cc y, v.name = o.name ∧ isoDate v.date = some o.date := by
  obtain ⟨base, varf, hb, _, _⟩ := getHolidaysForCountry_eq tz dir cc y l h
  rcases (getHolidaysForCountry_mem tz dir cc y l h base hb o).mp ho with
    ⟨d, hd, rfl⟩ | ⟨v, hv, hfv⟩
  · exact absurd (List.mem_map_of_mem (·.name) hd)
      (base_no_moveable_names dir cc base hb _ hn)
  · exact ⟨v, hv, (formatVariable_name cc y v o hfv).symm, formatVariable_date cc y v o hfv⟩

/-- C14. For every country code and year, the list that `getHolidaysForCountry`
returns has "Eid al-Fitr" and "Eid al-Adha" if and only if the code is one of
EG, ID, PK, BD, IR, TR, SA, AE, MY, AF, DZ, MA, SD, and "Chinese New Year" if
and only if it is one of CN, SG, MY, TH, VN, ID; the date of each is the
rendering `toISOString().split('T')[0]` of the Date that `calculateEidAlFitr`,
`calculateEidAlAdha` or `calculateChineseNewYear` returns for the year, and the
call returns a list for every year up to 275760. -/
theorem lunar_entries_iff (tz : Int) (dir : String → Option Country) (cc : String) (y : Nat) :
    (∀ l, getHolidaysForCountry tz dir cc y = some l →
      (((∃ o ∈ l, o.name = "Eid al-Fitr") ∧ (∃ o ∈ l, o.name = "Eid al-Adha")) ↔
        cc ∈ ["EG", "ID", "PK", "BD", "IR", "TR", "SA", "AE", "MY", "AF", "DZ", "MA", "SD"]) ∧
      ((∃ o ∈ l, o.name = "Eid al-Fitr") ↔ cc ∈ islamicCountries) ∧
      ((∃ o ∈ l, o.name = "Eid al-Adha") ↔ cc ∈ islamicCountries) ∧
      ((∃ o ∈ l, o.name = "Chinese New Year") ↔ cc ∈ ["CN", "SG", "MY", "TH", "VN", "ID"]) ∧
      (∀ o ∈ l, o.name = "Eid al-Fitr" → isoDate (calculateEidAlFitr tz y) = some o.date) ∧
      (∀ o ∈ l, o.name = "Eid al-Adha" → isoDate (calculateEidAlAdha tz y) = some o.date) ∧
      (∀ o ∈ l, o.name = "Chinese New Year" →
        isoDate (calculateChineseNewYear tz y) = some o.date)) ∧
    ((-1440 < tz ∧ tz < 1440) → y ≤ 275760 → cc ∉ inheritedKeys →
      ∃ l, getHolidaysForCountry tz dir cc y = some l) := by
  constructor
  · intro l h
    have c1 := moveable_count tz dir cc y l h "Eid al-Fitr" (by decide)
    have c2 := moveable_count tz dir cc y l h "Eid al-Adha" (by decide)
    have c3 := moveable_count tz dir cc y l h "Chinese New Year" (by decide)
    have hv := variableNames_count (decide (cc ∈ easterCountries))
      (decide (cc ∈ islamicCountries)) (decide (cc ∈ lunarCountries))
    rw [hv.2.2.1] at c1
    rw [hv.2.2.2.1] at c2
    rw [hv.2.2.2.2] at c3
    have d1 : ∀ o ∈ l, o.name = "Eid al-Fitr" →
        isoDate (calculateEidAlFitr tz y) = some o.date := by
      intro o ho hn
      obtain ⟨v, hvm, hvn, hvd⟩ := moveable_of_name tz dir cc y l h o ho (by rw [hn]; decide)
      rw [← ((variableHolidays_date_of_name tz cc y v hvm).1 (hvn.trans hn))]
      exact hvd
    have d2 : ∀ o ∈ l, o.name = "Eid al-Adha" →
        isoDate (calculateEidAlAdha tz y) = some o.date := by
      intro o ho hn
      obtain ⟨v, hvm, hvn, hvd⟩ := moveable_of_name tz dir cc y l h o ho (by rw [hn]; decide)
      rw [← ((variableHolidays_date_of_name tz cc y v hvm).2.1 (hvn.trans hn))]
      exact hvd
    have d3 : ∀ o ∈ l, o.name = "Chinese New Year" →
        isoDate (calculateChineseNewYear tz y) = some o.date := by
      intro o ho hn
      obtain ⟨v, hvm, hvn, hvd⟩ := moveable_of_name tz dir cc y l h o ho (by rw [hn]; decide)
      rw [← ((variableHolidays_date_of_name tz cc y v hvm).2.2 (hvn.trans hn))]
      exact hvd
    refine ⟨?_, ?_, ?_, ?_, d1, d2, d3⟩
    · rw [exists_name_iff_count, exists_name_iff_count, c1, c2]
      change _ ↔ cc ∈ islamicCountries
      by_cases hc : cc ∈ islamicCountries
      · simp only [hc, decide_True, if_true, Nat.lt_one_iff, and_self]
      · simp only [hc, decide_False, if_false, Nat.lt_irrefl, and_self, Bool.false_eq_true]
    · rw [exists_name_iff_count, c1]
      by_cases hc : cc ∈ islamicCountries
      · simp only [hc, decide_True, if_true, Nat.lt_one_iff]
      · simp only [hc, decide_False, if_false, Nat.lt_irrefl, Bool.false_eq_true]
    · rw [exists_name_iff_count, c2]
      by_cases hc : cc ∈ islamicCountries
      · simp only [hc, decide_True, if_true, Nat.lt_one_iff]
      · simp only [hc, decide_False, if_false, Nat.lt_irrefl, Bool.false_eq_true]
    · rw [exists_name_iff_count, c3]
      change _ ↔ cc ∈ lunarCountries
      by_cases hc : cc ∈ lunarCountries
      · simp only [hc, decide_True, if_true, Nat.lt_one_iff]
      · simp only [hc, decide_False, if_false, Nat.lt_irrefl, Bool.false_eq_true]
  · intro htz hy hk
    obtain ⟨base, hb⟩ := baseHolidays_of_not_inherited dir cc hk
    exact getHolidaysForCountry_returns tz dir cc y htz hy base hb

set_option maxRecDepth 100000 in
/-- C14, at Malaysia in 2025, a country of both lists, on a host at UTC. -/
theorem lunar_entries_iff_witness :
    ∃ l, getHolidaysForCountry 0 (fun _ => none) "MY" 2025 = some l ∧
      (∃ o ∈ l, o.name = "Eid al-Fitr") ∧ (∃ o ∈ l, o.name = "Eid al-Adha") ∧
      (∃ o ∈ l, o.name = "Chinese New Year") :=
  ⟨_, rfl,
    (((lunar_entries_iff 0 (fun _ => none) "MY" 2025).1 _ rfl).2.1).mpr (by decide),
    (((lunar_entries_iff 0 (fun _ => none) "MY" 2025).1 _ rfl).2.2.1).mpr (by decide),
    (((lunar_entries_iff 0 (fun _ => none) "MY" 2025).1 _ rfl).2.2.2.1).mpr (by decide)⟩

end GlobalHolidayContext

/-! ## Lunar fallback dates, the number of South African holidays, determinism -/

namespace JS

/-- The getters of `new Date(year, month, date)` for a day that exists, of the
first half of a year from 100 to 275760. -/
theorem ofYMD_getters (tz : Int) (y : Nat) (m d : Int) (htz : -1440 < tz ∧ tz < 1440)
    (h100 : 100 ≤ y) (hy : y ≤ 275760) (hm : 0 ≤ m ∧ m ≤ 5)
    (hd : 1 ≤ d ∧ d ≤ daysInMonth m (InLeapYear y)) :
    Date.getFullYear tz (Date.ofYMD tz y m d) = some (y : Int) ∧
    Date.getMonth tz (Date.ofYMD tz y m d) = some m ∧
    Date.getDate tz (Date.ofYMD tz y m d) = some d := by
  have hc := daysInMonth_cases m (InLeapYear y) ⟨hm.1, by omega⟩
  have hl := InLeapYear_cases y
  have hm' : 0 ≤ m ∧ m ≤ 11 := ⟨hm.1, by omega⟩
  rw [ofYMD_eq tz y m d htz hy hm ⟨by omega, by omega⟩, MakeFullYear_of_ge y h100]
  exact ⟨getFullYear_localMidnight tz y m d hm' hd, getMonth_localMidnight tz y m d hm' hd,
    getDate_localMidnight tz y m d hm' hd⟩

end JS

namespace GlobalHolidayContext

/-- C15, as amended. For every year from 100 to 275760 outside 2024..2030 the
three lunar lookups return a valid Date in year `y`: `calculateEidAlFitr(y)` is
10 April `y`, `calculateEidAlAdha(y)` is 16 June `y` and
`calculateChineseNewYear(y)` is 10 February `y`, as local dates on every host. -/
theorem lunar_fallback (tz : Int) (y : Nat) (htz : -1440 < tz ∧ tz < 1440) (h100 : 100 ≤ y)
    (hmax : y ≤ 275760) (hout : y < 2024 ∨ 2030 < y) :
    (Date.getFullYear tz (calculateEidAlFitr tz y) = some (y : Int) ∧
      Date.getMonth tz (calculateEidAlFitr tz y) = some (4 - 1) ∧
      Date.getDate tz (calculateEidAlFitr tz y) = some 10) ∧
    (Date.getFullYear tz (calculateEidAlAdha tz y) = some (y : Int) ∧
      Date.getMonth tz (calculateEidAlAdha tz y) = some (6 - 1) ∧
      Date.getDate tz (calculateEidAlAdha tz y) = some 16) ∧
    (Date.getFullYear tz (calculateChineseNewYear tz y) = some (y : Int) ∧
      Date.getMonth tz (calculateChineseNewYear tz y) = some (2 - 1) ∧
      Date.getDate tz (calculateChineseNewYear tz y) = some 10) := by
  have hl := InLeapYear_cases y
  have c1 := daysInMonth_cases 1 (InLeapYear y) (by omega)
  have c3 := daysInMonth_cases 3 (InLeapYear y) (by omega)
  have c5 := daysInMonth_cases 5 (InLeapYear y) (by omega)
  have e1 : calculateEidAlFitr tz y = Date.ofYMD tz y 3 10 := by
    unfold calculateEidAlFitr
    rw [if_neg (by omega), if_neg (by omega), if_neg (by omega), if_neg (by omega),
      if_neg (by omega), if_neg (by omega), if_neg (by omega)]
  have e2 : calculateEidAlAdha tz y = Date.ofYMD tz y 5 16 := by
    unfold calculateEidAlAdha
    rw [if_neg (by omega), if_neg (by omega), if_neg (by omega), if_neg (by omega),
      if_neg (by omega), if_neg (by omega), if_neg (by omega)]
  have e3 : calculateChineseNewYear tz y = Date.ofYMD tz y 1 10 := by
    unfold calculateChineseNewYear
    rw [if_neg (by omega), if_neg (by omega), if_neg (by omega), if_neg (by omega),
      if_neg (by omega), if_neg (by omega), if_neg (by omega)]
  rw [e1, e2, e3]
  exact ⟨ofYMD_getters tz y 3 10 htz h100 hmax (by omega) ⟨by omega, by omega⟩,
    ofYMD_getters tz y 5 16 htz h100 hmax (by omega) ⟨by omega, by omega⟩,
    ofYMD_getters tz y 1 10 htz h100 hmax (by omega) ⟨by omega, by omega⟩⟩

/-- C15, as amended, at the year 2050: `calculateEidAlFitr(2050)` is 10 April
2050. -/
theorem lunar_fallback_witness :
    Date.getFullYear 120 (calculateEidAlFitr 120 2050) = some 2050 ∧
    Date.getMonth 120 (calculateEidAlFitr 120 2050) = some 3 ∧
    Date.getDate 120 (calculateEidAlFitr 120 2050) = some 10 :=
  (lunar_fallback 120 2050 (by decide) (by decide) (by decide) (by decide)).1

/-- C15, as stated, fails for the year 50, which `new Date(year, 3, 10)` takes
for 1950, and for the year 275761, beyond the range of a Date: the lookups
return 10 April 1950 and the Invalid Date. -/
theorem lunar_fallback_wrong_year :
    Date.getFullYear 0 (calculateEidAlFitr 0 50) = some 1950 ∧
    Date.getFullYear 0 (calculateEidAlAdha 0 50) = some 1950 ∧
    Date.getFullYear 0 (calculateChineseNewYear 0 50) = some 1950 ∧
    isoDate (calculateEidAlFitr 0 50) = some "1950-04-10" ∧
    calculateEidAlFitr 0 275761 = none := by
  refine ⟨by decide, by decide, by decide, by decide, by decide⟩

theorem variableHolidays_length_ZA (tz : Int) (y : Nat) :
    (variableHolidays tz "ZA" y).length = 2 := by
  unfold variableHolidays
  have h1 : "ZA" ∈ easterCountries := by decide
  have h2 : "ZA" ∉ islamicCountries := by decide
  have h3 : "ZA" ∉ lunarCountries := by decide
  simp only [h1, h2, h3, if_true, if_false, List.append_nil, List.length_append,
    List.length_singleton]

end GlobalHolidayContext

namespace HolidayContext

theorem generateHolidaysForYear_length (tz : Int) (y : Nat) (l : List Holiday)
    (h : generateHolidaysForYear tz y = some l) : l.length = 12 := by
  unfold generateHolidaysForYear at h
  cases hv : mapThrowing (formatVariable y) (variableHolidays tz y) with
  | none => rw [hv] at h; cases h
  | some varf =>
    rw [hv] at h
    simp only [Option.some.injEq] at h
    rw [← h, (sort_perm compareDates _).length_eq, List.length_append, List.length_map,
      mapThrowing_length _ _ _ hv]
    rfl

end HolidayContext

/-- C19. South Africa has exactly 12 public holidays in every year: the list of
`getHolidaysForCountry('ZA', y)` has 12 entries, the 10 fixed ones with Good
Friday and Easter Monday, and so has the list of `generateHolidaysForYear(y)`;
both calls return a list for every year up to 275760. -/
theorem south_africa_twelve (tz : Int) (dir : String → Option Country) (y : Nat) :
    (∀ l, GlobalHolidayContext.getHolidaysForCountry tz dir "ZA" y = some l →
      l.length = 12 ∧ (∃ o ∈ l, o.name = "Good Friday") ∧
      (∃ o ∈ l, o.name = "Easter Monday")) ∧
    (∀ l, HolidayContext.generateHolidaysForYear tz y = some l → l.length = 12) ∧
    ((-1440 < tz ∧ tz < 1440) → y ≤ 275760 →
      (∃ l, GlobalHolidayContext.getHolidaysForCountry tz dir "ZA" y = some l) ∧
      (∃ l, HolidayContext.generateHolidaysForYear tz y = some l)) := by
  have hb : GlobalHolidayContext.baseHolidays dir "ZA" =
      some ((GlobalHolidayContext.holidayData.lookup "ZA").getD []) := rfl
  refine ⟨?_, fun l h => HolidayContext.generateHolidaysForYear_length tz y l h, ?_⟩
  · intro l h
    have c1 := GlobalHolidayContext.moveable_count tz dir "ZA" y l h "Good Friday" (by decide)
    have c2 := GlobalHolidayContext.moveable_count tz dir "ZA" y l h "Easter Monday"
      (by decide)
    refine ⟨?_, ?_, ?_⟩
    · rw [GlobalHolidayContext.getHolidaysForCountry_length tz dir "ZA" y l h _ hb,
        GlobalHolidayContext.variableHolidays_length_ZA]
      rfl
    · rw [GlobalHolidayContext.exists_name_iff_count, c1]
      decide
    · rw [GlobalHolidayContext.exists_name_iff_count, c2]
      decide
  · intro htz hy
    obtain ⟨varf, _, he⟩ := HolidayContext.generateHolidaysForYear_returns tz y htz hy
    exact ⟨GlobalHolidayContext.getHolidaysForCountry_returns tz dir "ZA" y htz hy _ hb,
      ⟨_, he⟩⟩

set_option maxRecDepth 100000 in
/-- C19, in 2024 on a host two hours east of UTC. -/
theorem south_africa_twelve_witness :
    (∃ l, GlobalHolidayContext.getHolidaysForCountry 120 (fun _ => none) "ZA" 2024 = some l ∧
      l.length = 12) ∧
    (∃ l, HolidayContext.generateHolidaysForYear 120 2024 = some l ∧ l.length = 12) :=
  ⟨⟨_, rfl, ((south_africa_twelve 120 (fun _ => none) 2024).1 _ rfl).1⟩,
   ⟨_, rfl, (south_africa_twelve 120 (fun _ => none) 2024).2.1 _ rfl⟩⟩

namespace GlobalHolidayContext

theorem getDefaultHolidays_congr (dir dir' : String → Option Country) (cc : String)
    (h : dir cc = dir' cc) : getDefaultHolidays dir cc = getDefaultHolidays dir' cc := by
  unfold getDefaultHolidays
  rw [h]

theorem getHolidaysForCountry_congr (tz : Int) (dir dir' : String → Option Country)
    (cc : String) (y : Nat) (h : dir cc = dir' cc) :
    getHolidaysForCountry tz dir cc y = getHolidaysForCountry tz dir' cc y := by
  unfold getHolidaysForCountry baseHolidays
  rw [getDefaultHolidays_congr dir dir' cc h]

/-- C20. Determinism: `getHolidaysForCountry` is a function of the country code,
the year, the host's time zone and the directory record of the country code
alone; two calls with the same arguments, on one host and with country
directories that agree on the code, return identical results, and in particular
identical lists. -/
theorem getHolidaysForCountry_deterministic (tz : Int) (dir dir' : String → Option Country)
    (cc : String) (y : Nat) (h : dir cc = dir' cc) :
    getHolidaysForCountry tz dir cc y = getHolidaysForCountry tz dir' cc y ∧
    (∀ l l', getHolidaysForCountry tz dir cc y = some l →
      getHolidaysForCountry tz dir' cc y = some l' → l = l') := by
  have e := getHolidaysForCountry_congr tz dir dir' cc y h
  refine ⟨e, fun l l' h1 h2 => ?_⟩
  rw [e, h2] at h1
  exact (Option.some.inj h1).symm

set_option maxRecDepth 100000 in
/-- C20, at Italy in 2025 with two directories that agree on Italy. -/
theorem getHolidaysForCountry_deterministic_witness :
    getHolidaysForCountry 120 (fun c => if c = "IT" then some ⟨"IT", "Italy", "Europe"⟩ else none)
        "IT" 2025 =
      getHolidaysForCountry 120 (fun _ => some ⟨"IT", "Italy", "Europe"⟩) "IT" 2025 :=
  (getHolidaysForCountry_deterministic 120 _ _ "IT" 2025 (by decide)).1

end GlobalHolidayContext

/-! ## The shape of the date strings -/

theorem fixedDate_length (y m d : Nat) (hy1 : 1000 ≤ y) (hy2 : y ≤ 9999) (hv : validDate y m d) :
    (fixedDate y m d).length = 10 := by
  have hd := validDate_day_le y m d hv
  have hm := hv.2.1
  show (fixedDate y m d).data.length = 10
  rw [fixedDate_data y m d hy1 hy2 (by omega) (by omega)]
  rfl

theorem MakeDay_lt_of_ms_lt (a b : Int) (h : a * msPerDay < b * msPerDay) : a < b := by
  unfold msPerDay at h
  omega

/-- Two dates of a four-digit year compare as strings the way they compare as
days. -/
theorem fixedDate_lt_iff (y m1 d1 m2 d2 : Nat) (hy1 : 1000 ≤ y) (hy2 : y ≤ 9999)
    (h1 : validDate y m1 d1) (h2 : validDate y m2 d2) :
    fixedDate y m1 d1 < fixedDate y m2 d2 ↔
      MakeDay y ((m1 : Int) - 1) d1 < MakeDay y ((m2 : Int) - 1) d2 := by
  have b1 := validDate_day_le y m1 d1 h1
  have b2 := validDate_day_le y m2 d2 h2
  have c1 := h1.2.1
  have c2 := h2.2.1
  constructor
  · intro hlt
    by_contra hn
    have hle := fixedDate_le y m2 d2 m1 d1 hy1 hy2 (by omega) (by omega) (by omega) (by omega)
      (lex_of_MakeDay_le y m2 d2 m1 d1 h2 h1 (not_lt.mp hn))
    exact absurd hlt (not_lt.mpr hle)
  · intro hlt
    have hle := fixedDate_le y m1 d1 m2 d2 hy1 hy2 (by omega) (by omega) (by omega) (by omega)
      (lex_of_MakeDay_le y m1 d1 m2 d2 h1 h2 (le_of_lt hlt))
    refine lt_of_le_of_ne hle (fun he => ?_)
    have p1 := parse_fixedDate y m1 d1 hy1 hy2 ⟨h1.1, h1.2.1⟩ ⟨h1.2.2.1, b1⟩
    have p2 := parse_fixedDate y m2 d2 hy1 hy2 ⟨h2.1, h2.2.1⟩ ⟨h2.2.2.1, b2⟩
    rw [he, p2, Option.some.injEq] at p1
    unfold msPerDay at p1
    omega

namespace GlobalHolidayContext

/-- C16, as amended. For every country code and every four-digit year `y` (1000
to 9999), every occurrence's date is a 10-character string `YYYY-MM-DD` with
zero-padded month and day of a day that exists in year `y`, `Date.parse` reads it
as that day, and for two occurrences of the list the date strings compare
lexicographically as the dates they denote compare in time. The list is returned
unless the country code is a property name inherited from `Object.prototype`. -/
theorem dates_are_iso_days (tz : Int) (dir : String → Option Country) (cc : String) (y : Nat)
    (htz : -1440 < tz ∧ tz < 1440) (hy1 : 1000 ≤ y) (hy2 : y ≤ 9999) :
    (∀ l, getHolidaysForCountry tz dir cc y = some l →
      (∀ o ∈ l, o.date.length = 10 ∧ ∃ m d : Nat, validDate y m d ∧
        o.date = fixedDate y m d ∧
        Date.parse o.date = some (MakeDay y ((m : Int) - 1) d * msPerDay)) ∧
      (∀ a ∈ l, ∀ b ∈ l, ∃ ta tb : Int, Date.parse a.date = some ta ∧
        Date.parse b.date = some tb ∧ (a.date < b.date ↔ ta < tb))) ∧
    (cc ∉ inheritedKeys → ∃ l, getHolidaysForCountry tz dir cc y = some l) := by
  refine ⟨fun l h => ?_, fun hk => ?_⟩
  · obtain ⟨base, varf, hb, hv, rfl⟩ := getHolidaysForCountry_eq tz dir cc y l h
    have hd := getHolidaysForCountry_dates tz dir cc y htz hy1 hy2 base varf hb hv
    have key : ∀ o ∈ sort compareDates (base.map (formatFixed cc y) ++ varf),
        ∃ m d : Nat, validDate y m d ∧ o.date = fixedDate y m d ∧
          Date.parse o.date = some (MakeDay y ((m : Int) - 1) d * msPerDay) := by
      intro o ho
      obtain ⟨m, d, hvd, e⟩ := hd o ((sort_perm compareDates _).mem_iff.mp ho)
      refine ⟨m, d, hvd, e, ?_⟩
      rw [e]
      exact parse_fixedDate y m d hy1 hy2 ⟨hvd.1, hvd.2.1⟩ ⟨hvd.2.2.1, validDate_day_le y m d hvd⟩
    refine ⟨fun o ho => ?_, fun a ha b hb' => ?_⟩
    · obtain ⟨m, d, hvd, e, hp⟩ := key o ho
      exact ⟨by rw [e]; exact fixedDate_length y m d hy1 hy2 hvd, m, d, hvd, e, hp⟩
    · obtain ⟨m1, d1, v1, e1, p1⟩ := key a ha
      obtain ⟨m2, d2, v2, e2, p2⟩ := key b hb'
      refine ⟨_, _, p1, p2, ?_⟩
      rw [e1, e2, fixedDate_lt_iff y m1 d1 m2 d2 hy1 hy2 v1 v2]
      unfold msPerDay
      constructor <;> intro hh <;> omega
  · obtain ⟨base, hb⟩ := baseHolidays_of_not_inherited dir cc hk
    exact getHolidaysForCountry_returns tz dir cc y htz (by omega) base hb

set_option maxRecDepth 100000 in
/-- C16, as amended, at Egypt in 2026 on a host two hours east of UTC. -/
theorem dates_are_iso_days_witness :
    ∃ l, getHolidaysForCountry 120 (fun _ => none) "EG" 2026 = some l ∧
      ∀ o ∈ l, o.date.length = 10 ∧ ∃ m d : Nat, validDate 2026 m d ∧
        o.date = fixedDate 2026 m d ∧
        Date.parse o.date = some (MakeDay 2026 ((m : Int) - 1) d * msPerDay) :=
  ⟨_, rfl, ((dates_are_iso_days 120 (fun _ => none) "EG" 2026 (by decide) (by decide)
    (by decide)).1 _ rfl).1⟩

set_option maxRecDepth 100000 in
/-- C16, as stated, fails in the year 999: the template of the fixed holidays
writes the year without padding, so the list of South Africa has New Year's Day
dated `999-01-01`, a string of 9 characters, beside Good Friday, which
`toISOString` dates `0999-04-12`. In the year 10000 it has New Year's Day dated
`10000-01-01`, of 11 characters, and Good Friday dated `+010000-04-14`, of 13. -/
theorem dates_not_ten_characters :
    (∃ l, getHolidaysForCountry 0 (fun _ => none) "ZA" 999 = some l ∧
      (∃ o ∈ l, o.name = "New Year's Day" ∧ o.date = "999-01-01" ∧ o.date.length = 9) ∧
      (∃ o ∈ l, o.name = "Good Friday" ∧ o.date = "0999-04-12" ∧ o.date.length = 10)) ∧
    (∃ l, getHolidaysForCountry 0 (fun _ => none) "ZA" 10000 = some l ∧
      (∃ o ∈ l, o.name = "New Year's Day" ∧ o.date = "10000-01-01" ∧ o.date.length = 11) ∧
      (∃ o ∈ l, o.name = "Good Friday" ∧ o.date = "+010000-04-14" ∧ o.date.length = 13)) :=
  ⟨⟨_, rfl, by decide, by decide⟩, ⟨_, rfl, by decide, by decide⟩⟩

end GlobalHolidayContext

/-! ## The ids of the South-Africa generator and the holiday page -/

/-- Two lists that end in a hyphen and a piece without hyphen are equal only
piece by piece. -/
theorem last_hyphen_cancel : ∀ (a b d1 d2 : List Char), a ++ '-' :: d1 = b ++ '-' :: d2 →
    '-' ∉ d1 → '-' ∉ d2 → a = b
  | [], [], _, _, _, _, _ => rfl
  | [], c :: b, d1, d2, h, h1, _ => by
    simp only [List.nil_append, List.cons_append, List.cons.injEq] at h
    exact absurd (h.2 ▸ List.mem_append_right b (List.mem_cons_self _ _)) h1
  | c :: a, [], d1, d2, h, _, h2 => by
    simp only [List.nil_append, List.cons_append, List.cons.injEq] at h
    exact absurd (h.2 ▸ List.mem_append_right a (List.mem_cons_self _ _)) h2
  | c :: a, e :: b, d1, d2, h, h1, h2 => by
    simp only [List.cons_append, List.cons.injEq] at h
    rw [h.1, last_hyphen_cancel a b d1 d2 h.2 h1 h2]

namespace GlobalHolidayContext

/-- An occurrence that `getHolidayById` returns is one of a list of
`getHolidaysForCountry` and has the id asked for. -/
theorem getHolidayById_found (tz : Int) (dir : String → Option Country) (holidayId : String)
    (h : Holiday) (hf : getHolidayById tz dir holidayId = Lookup.found h) :
    ∃ cc yy l, getHolidaysForCountry tz dir cc yy = some l ∧ h ∈ l ∧ h.id = holidayId := by
  unfold getHolidayById at hf
  simp only [] at hf
  split_ifs at hf
  split at hf
  · cases hf
  · rename_i l hl
    split at hf
    · rename_i o ho
      cases hf
      exact ⟨_, _, l, hl, List.mem_of_find?_eq_some ho, by simpa using List.find?_some ho⟩
    · cases hf

theorem defaultNames_subset : ∀ a b : Bool, ∀ n ∈ defaultNames a b, n ∈ defaultNames true true := by
  decide

theorem variableNames_subset : ∀ e i l : Bool, ∀ n ∈ variableNames e i l,
    n ∈ variableNames true true true := by
  decide

/-- The name of every occurrence is one of `everyName`. -/
theorem name_mem_everyName (tz : Int) (dir : String → Option Country) (cc : String) (y : Nat)
    (l : List Holiday) (h : getHolidaysForCountry tz dir cc y = some l) :
    ∀ o ∈ l, o.name ∈ everyName := by
  obtain ⟨base, hb, hp⟩ := getHolidaysForCountry_names tz dir cc y l h
  intro o ho
  have hn := hp.subset (List.mem_map_of_mem (·.name) ho)
  unfold everyName
  rcases List.mem_append.mp hn with h1 | h1
  · refine List.mem_append_left _ ?_
    rcases baseHolidays_cases dir cc base hb with hc | ⟨_, hc⟩
    · exact List.mem_append_left _ (List.mem_flatMap.mpr ⟨(cc, base), hc, h1⟩)
    · rw [hc, getDefaultHolidays_names] at h1
      exact List.mem_append_right _ (defaultNames_subset _ _ _ h1)
  · exact List.mem_append_right _ (variableNames_subset _ _ _ _ h1)

end GlobalHolidayContext

namespace HolidayContext

theorem southAfrica_formatVariable_id (y : Nat) (v : VariableHoliday) (o : Holiday)
    (h : formatVariable y v = some o) : o.id = generateHolidayId v.name y := by
  unfold formatVariable at h
  cases hd : isoDate v.date with
  | none => rw [hd] at h; cases h
  | some d =>
    rw [hd] at h
    simp only [Option.map_some', Option.some.injEq] at h
    rw [← h]

/-- The id of every occurrence of `generateHolidaysForYear` is the slug of one
of the twelve names, a hyphen and the year. -/
theorem generateHolidaysForYear_ids (tz : Int) (y : Nat) (l : List Holiday)
    (h : generateHolidaysForYear tz y = some l) :
    ∀ o ∈ l, ∃ n ∈ southAfricaNames, o.id = generateHolidayId n y := by
  unfold generateHolidaysForYear at h
  cases hv : mapThrowing (formatVariable y) (variableHolidays tz y) with
  | none => rw [hv] at h; cases h
  | some varf =>
    rw [hv] at h
    simp only [Option.some.injEq] at h
    intro o ho
    rw [← h, (sort_perm compareDates _).mem_iff] at ho
    rcases List.mem_append.mp ho with h1 | h1
    · obtain ⟨d, hd, rfl⟩ := List.mem_map.mp h1
      exact ⟨d.name, List.mem_append_left _ (List.mem_map_of_mem _ hd), rfl⟩
    · obtain ⟨v, hvm, hfv⟩ := mapThrowing_mem _ _ _ hv o h1
      refine ⟨v.name, List.mem_append_right _ ?_, southAfrica_formatVariable_id y v o hfv⟩
      unfold variableHolidays at hvm
      simp only [List.mem_cons, List.mem_singleton, List.not_mem_nil, or_false] at hvm
      rcases hvm with rfl | rfl <;> simp

end HolidayContext

set_option maxRecDepth 1000000 in
/-- No slug of a South-Africa name ends in a hyphen followed by the slug of a
name of the global generator. -/
theorem southAfrica_slug_no_suffix : ∀ n ∈ southAfricaNames, ∀ m ∈ everyName,
    ¬ ('-' :: (slug m).data) <:+ (slug n).data := by
  decide

/-- The lookup of the holiday page finds no occurrence for an id of the
South-Africa generator. -/
theorem southAfrica_id_not_found (tz : Int) (dir : String → Option Country) (y : Nat)
    (n : String) (hn : n ∈ southAfricaNames) (h : GlobalHolidayContext.Holiday) :
    GlobalHolidayContext.getHolidayById tz dir (HolidayContext.generateHolidayId n y) ≠
      GlobalHolidayContext.Lookup.found h := by
  intro hf
  obtain ⟨cc, yy, l, hl, hmem, hid⟩ :=
    GlobalHolidayContext.getHolidayById_found tz dir _ h hf
  have hname := GlobalHolidayContext.name_mem_everyName tz dir cc yy l hl h hmem
  rw [GlobalHolidayContext.getHolidaysForCountry_id tz dir cc yy l hl h hmem] at hid
  have hd := congrArg String.data hid
  rw [GlobalHolidayContext.generateHolidayId_data] at hd
  unfold HolidayContext.generateHolidayId at hd
  simp only [String.data_append, numberToString_data] at hd
  have hd' : (cc.data ++ '-' :: (slug h.name).data) ++ '-' :: Nat.toDigits 10 yy =
      (slug n).data ++ '-' :: Nat.toDigits 10 y := by
    simpa only [List.append_assoc, List.cons_append, List.singleton_append, List.nil_append]
      using hd
  have hc := last_hyphen_cancel _ _ _ _ hd' (GlobalHolidayContext.hyphen_not_mem_toDigits yy)
    (GlobalHolidayContext.hyphen_not_mem_toDigits y)
  exact southAfrica_slug_no_suffix n hn h.name hname ⟨cc.data, hc⟩

set_option maxRecDepth 100000 in
/-- C17 fails. The ids of `HolidayContext.generateHolidaysForYear` carry no
country code (`freedom-day-2024`), and `getHolidayById`, which the page of the
route `/holiday/:holidayId` calls, takes the first word of such an id for the
country code. For each of the twelve ids of 2024 it returns no occurrence: for
`freedom-day-2024` it searches the default holidays of a country `freedom`. And
so in every year, on every host and with every country directory: no id of the
South-Africa generator is ever found. -/
theorem south_africa_ids_not_found :
    ((HolidayContext.generateHolidaysForYear 120 2024).map (fun l => l.map (·.id)) =
      some ["new-year-s-day-2024", "human-rights-day-2024", "good-friday-2024",
        "family-day-2024", "freedom-day-2024", "workers--day-2024", "youth-day-2024",
        "national-women-s-day-2024", "heritage-day-2024", "day-of-reconciliation-2024",
        "christmas-day-2024", "day-of-goodwill-2024"] ∧
    (∀ id ∈ ["new-year-s-day-2024", "human-rights-day-2024", "good-friday-2024",
        "family-day-2024", "freedom-day-2024", "workers--day-2024", "youth-day-2024",
        "national-women-s-day-2024", "heritage-day-2024", "day-of-reconciliation-2024",
        "christmas-day-2024", "day-of-goodwill-2024"],
      GlobalHolidayContext.getHolidayById 120 (fun _ => none) id =
        GlobalHolidayContext.Lookup.notFound) ∧
    (GlobalHolidayContext.getHolidaysForCountry 120 (fun _ => none) "freedom" 2024).map
        (fun l => l.map (·.id)) =
      some ["freedom-new-year-s-day-2024", "freedom-labour-day-2024",
        "freedom-independence-day-2024", "freedom-national-day-2024"]) ∧
    (∀ (tz : Int) (dir : String → Option Country) (y : Nat) (l : List HolidayContext.Holiday),
      HolidayContext.generateHolidaysForYear tz y = some l →
      ∀ o ∈ l, ∀ h, GlobalHolidayContext.getHolidayById tz dir o.id ≠
        GlobalHolidayContext.Lookup.found h) := by
  refine ⟨⟨by decide, by decide, by decide⟩, fun tz dir y l hl o ho h => ?_⟩
  obtain ⟨n, hn, hid⟩ := HolidayContext.generateHolidaysForYear_ids tz y l hl o ho
  rw [hid]
  exact southAfrica_id_not_found tz dir y n hn h

/-! ## The list of the selected year in the provider -/

namespace GlobalHolidayContext

set_option maxRecDepth 1000000 in
/-- C18 fails on a host west of UTC. With the United States in the directory, on
a host five hours behind UTC (offset -300 minutes), in 2024 with 2024 selected
and no search term, `filteredHolidays` is not the list of
`getHolidaysForCountry('US', 2024)`: `new Date('2024-01-01')` is midnight UTC,
whose local year is 2023, so New Year's Day 2024 is dropped and New Year's Day
2025 is appended. On a host at UTC the same selection gives the list of
`getHolidaysForCountry('US', 2024)`. -/
theorem filteredHolidays_west_of_utc :
    (getHolidaysForCountry (-300) (fun _ => some ⟨"US", "United States", "North America"⟩)
        "US" 2024).map (fun l => l.map (·.id)) =
      some ["US-new-year-s-day-2024", "US-martin-luther-king-jr--day-2024",
        "US-presidents--day-2024", "US-memorial-day-2024", "US-independence-day-2024",
        "US-labor-day-2024", "US-columbus-day-2024", "US-veterans-day-2024",
        "US-thanksgiving-2024", "US-christmas-day-2024"] ∧
    (loadHolidays (-300) (fun _ => some ⟨"US", "United States", "North America"⟩)
        [⟨"US", "United States", "North America"⟩] 2024).map
      (fun holidays => (filteredHolidays (-300) holidays "" "US" 2024).map (·.id)) =
      some ["US-martin-luther-king-jr--day-2024", "US-presidents--day-2024",
        "US-memorial-day-2024", "US-independence-day-2024", "US-labor-day-2024",
        "US-columbus-day-2024", "US-veterans-day-2024", "US-thanksgiving-2024",
        "US-christmas-day-2024", "US-new-year-s-day-2025"] ∧
    Date.getFullYear (-300) (Date.parse "2024-01-01") = some 2023 ∧
    (loadHolidays 0 (fun _ => some ⟨"US", "United States", "North America"⟩)
        [⟨"US", "United States", "North America"⟩] 2024).map
      (fun holidays => filteredHolidays 0 holidays "" "US" 2024) =
      getHolidaysForCountry 0 (fun _ => some ⟨"US", "United States", "North America"⟩)
        "US" 2024 := by
  refine ⟨by decide, by decide, by decide, by decide⟩

end GlobalHolidayContext

/-! ## The id scheme and its reverse mapping -/

namespace JS

theorem splitChars_no_sep (sep : Char) : ∀ (cs : List Char), ∀ p ∈ splitChars sep cs, sep ∉ p := by
  intro cs
  induction cs with
  | nil =>
    intro p hp
    simp only [splitChars, List.mem_singleton] at hp
    subst hp
    exact List.not_mem_nil _
  | cons c cs ih =>
    intro p hp
    rw [splitChars_cons] at hp
    by_cases hc : c = sep
    · rw [if_pos hc, List.mem_cons] at hp
      rcases hp with rfl | hp
      · exact List.not_mem_nil _
      · exact ih p hp
    · rw [if_neg hc] at hp
      cases hs : splitChars sep cs with
      | nil => exact absurd hs (splitChars_ne_nil sep cs)
      | cons t ts =>
        rw [hs] at hp ih
        simp only [List.mem_cons] at hp
        rcases hp with rfl | hp
        · intro hm
          rcases List.mem_cons.mp hm with e | hm
          · exact hc e.symm
          · exact ih t (List.mem_cons_self _ _) hm
        · exact ih p (List.mem_cons_of_mem _ hp)

theorem getLastD_mem {α : Type} : ∀ (l : List α) (d : α), l ≠ [] → l.getLastD d ∈ l := by
  intro l
  induction l with
  | nil => intro d h; exact absurd rfl h
  | cons a l ih =>
    intro d _
    rw [List.getLastD_cons]
    cases l with
    | nil => exact List.mem_cons_self _ _
    | cons b l => exact List.mem_cons_of_mem _ (ih a (List.cons_ne_nil _ _))

/-- The last piece of `s.split('-')` has no hyphen. -/
theorem split_last_no_hyphen (s : String) : '-' ∉ ((split s '-').getLastD "").data := by
  have hne : split s '-' ≠ [] := by
    unfold split
    simpa using splitChars_ne_nil '-' s.data
  have hm := getLastD_mem (split s '-') "" hne
  unfold split at hm
  obtain ⟨p, hp, he⟩ := List.mem_map.mp hm
  unfold split
  rw [← he]
  exact splitChars_no_sep '-' s.data p hp

/-- `parseInt` of a string without a minus sign is not negative. -/
theorem parseInt_nonneg (s : String) (h : '-' ∉ s.data) (v : Int) (hv : parseInt s = some v) :
    0 ≤ v := by
  have hh : (s.data.dropWhile isStrWhiteSpace).head? ≠ some '-' := by
    intro e
    have hm : '-' ∈ s.data.dropWhile isStrWhiteSpace := List.mem_of_mem_head? e
    exact h ((List.dropWhile_sublist _).subset hm)
  unfold parseInt at hv
  simp only [hh, false_or] at hv
  split_ifs at hv with a1 a2 a3 a4 <;>
    first
    | contradiction
    | (cases hv; exact Int.ofNat_nonneg _)

end JS

namespace GlobalHolidayContext

/-- C21. The id scheme is lossy: two different names give the same id for every
country code and year, when they differ only in letter case ("Labour Day" and
"labour day") or in the character between two words ("Labour Day" and
"Labour-Day"). -/
theorem generateHolidayId_lossy :
    ("Labour Day" ≠ "labour day" ∧ ∀ (y : Nat) (cc : String),
      generateHolidayId "Labour Day" y cc = generateHolidayId "labour day" y cc) ∧
    ("Labour Day" ≠ "Labour-Day" ∧ ∀ (y : Nat) (cc : String),
      generateHolidayId "Labour Day" y cc = generateHolidayId "Labour-Day" y cc) ∧
    (∃ n1 n2 : String, n1 ≠ n2 ∧ ∀ (y : Nat) (cc : String),
      generateHolidayId n1 y cc = generateHolidayId n2 y cc) := by
  have e1 : slug "Labour Day" = slug "labour day" := by decide
  have e2 : slug "Labour Day" = slug "Labour-Day" := by decide
  have k1 : ∀ (y : Nat) (cc : String),
      generateHolidayId "Labour Day" y cc = generateHolidayId "labour day" y cc := by
    intro y cc
    unfold generateHolidayId
    rw [e1]
  have k2 : ∀ (y : Nat) (cc : String),
      generateHolidayId "Labour Day" y cc = generateHolidayId "Labour-Day" y cc := by
    intro y cc
    unfold generateHolidayId
    rw [e2]
  exact ⟨⟨by decide, k1⟩, ⟨by decide, k2⟩, "Labour Day", "labour day", by decide, k1⟩

/-- The parse of `getHolidayById` on a generated id with a country code without
hyphen: the first piece is the country code and `parseInt` of the last is the
year. -/
theorem parse_generateHolidayId (name : String) (y : Nat) (cc : String) (hcc : '-' ∉ cc.data) :
    (split (generateHolidayId name y cc) '-').headD "" = cc ∧
    parseInt ((split (generateHolidayId name y cc) '-').getLastD "") = some (y : Int) := by
  obtain ⟨mid, _, hs⟩ := split_generateHolidayId name y cc hcc
  rw [hs, List.headD_cons, List.getLastD_cons, getLastD_append_singleton,
    parseInt_numberToString]
  exact ⟨rfl, rfl⟩

/-- C22, as amended. The parse of `getHolidayById` recovers the country code
and the year from every generated id whose country code has no hyphen, whatever
the name, also one with digits or hyphens: the first piece of the id is the
country code and `parseInt` of the last piece is the year. -/
theorem getHolidayById_parse_recovers (name : String) (y : Nat) (cc : String)
    (hne : cc ≠ "") (hcc : '-' ∉ cc.data) (hy : 1000 ≤ y ∧ y ≤ 9999) :
    (split (generateHolidayId name y cc) '-').headD "" = cc ∧
    parseInt ((split (generateHolidayId name y cc) '-').getLastD "") = some (y : Int) ∧
    (split (generateHolidayId name y cc) '-').headD "" ≠ "" ∧
    parseInt ((split (generateHolidayId name y cc) '-').getLastD "") ≠ some 0 := by
  obtain ⟨h1, h2⟩ := parse_generateHolidayId name y cc hcc
  refine ⟨h1, h2, by rw [h1]; exact hne, ?_⟩
  rw [h2]
  intro e
  have := Option.some.inj e
  omega

/-- C22, as amended, at a name with digits and hyphens. -/
theorem getHolidayById_parse_recovers_witness :
    (split (generateHolidayId "Day 2-3 of the 1st Week" 2024 "ZA") '-').headD "" = "ZA" ∧
    parseInt ((split (generateHolidayId "Day 2-3 of the 1st Week" 2024 "ZA") '-').getLastD "") =
      some 2024 :=
  ⟨(getHolidayById_parse_recovers "Day 2-3 of the 1st Week" 2024 "ZA" (by decide) (by decide)
      (by decide)).1,
    (getHolidayById_parse_recovers "Day 2-3 of the 1st Week" 2024 "ZA" (by decide) (by decide)
      (by decide)).2.1⟩

/-- C22, as stated, fails: there is no name, with digits or hyphens or without,
no non-empty country code without hyphen and no four-digit year for which the
first piece of the generated id and `parseInt` of its last piece are not the
country code and the year. -/
theorem getHolidayById_parse_not_lossy :
    ¬ ∃ (name cc : String) (y : Nat),
      (∃ c ∈ name.data, c.isDigit = true ∨ c = '-') ∧ cc ≠ "" ∧ '-' ∉ cc.data ∧
      1000 ≤ y ∧ y ≤ 9999 ∧
      ((split (generateHolidayId name y cc) '-').headD "",
        parseInt ((split (generateHolidayId name y cc) '-').getLastD "")) ≠
        (cc, some (y : Int)) := by
  rintro ⟨name, cc, y, _, _, hcc, _, _, hne⟩
  obtain ⟨h1, h2⟩ := parse_generateHolidayId name y cc hcc
  rw [h1, h2] at hne
  exact hne rfl

/-- Every occurrence carries the country code of the call. -/
theorem getHolidaysForCountry_countryCode (tz : Int) (dir : String → Option Country)
    (cc : String) (y : Nat) (l : List Holiday) (h : getHolidaysForCountry tz dir cc y = some l) :
    ∀ o ∈ l, o.countryCode = cc := by
  obtain ⟨base, varf, _, hv, rfl⟩ := getHolidaysForCountry_eq tz dir cc y l h
  intro o ho
  have ho' := (sort_perm compareDates _).subset ho
  rcases List.mem_append.mp ho' with h1 | h1
  · obtain ⟨d, _, rfl⟩ := List.mem_map.mp h1
    rfl
  · obtain ⟨v, _, hfv⟩ := mapThrowing_mem _ _ _ hv o h1
    unfold formatVariable at hfv
    cases hd : isoDate v.date with
    | none => rw [hd] at hfv; cases hfv
    | some d =>
      rw [hd] at hfv
      simp only [Option.map_some', Option.some.injEq] at hfv
      rw [← hfv]

/-- An occurrence that `getHolidayById` returns comes from the list of the first
piece of the id and of the number that `parseInt` reads in the last piece. -/
theorem getHolidayById_found_in (tz : Int) (dir : String → Option Country) (holidayId : String)
    (h : Holiday) (hf : getHolidayById tz dir holidayId = Lookup.found h) :
    ∃ v : Int, parseInt ((split holidayId '-').getLastD "") = some v ∧ v ≠ 0 ∧
      (split holidayId '-').headD "" ≠ "" ∧ 3 ≤ (split holidayId '-').length ∧
      ∃ l, getHolidaysForCountry tz dir ((split holidayId '-').headD "") v.toNat = some l ∧
        h ∈ l ∧ h.id = holidayId := by
  unfold getHolidayById at hf
  simp only [] at hf
  split_ifs at hf with h3 hg
  simp only [not_or] at hg
  cases hp : parseInt ((split holidayId '-').getLastD "") with
  | none => exact absurd hp hg.2.1
  | some v =>
    rw [hp] at hf hg
    simp only [Option.getD_some] at hf
    refine ⟨v, rfl, fun e => hg.2.2 (by rw [e]), hg.1, by omega, ?_⟩
    split at hf
    · cases hf
    · rename_i l hl
      split at hf
      · rename_i o ho
        cases hf
        exact ⟨l, hl, List.mem_of_find?_eq_some ho, by simpa using List.find?_some ho⟩
      · cases hf

/-- C27. `getHolidayById` is sound: an occurrence `h` that it returns for the
string `holidayId` has the id `holidayId`, its country code is the first piece of
`holidayId.split('-')`, `parseInt` reads a positive integer in the last piece,
and `h` is an element of the list of `getHolidaysForCountry` for that country
code and that year. -/
theorem getHolidayById_sound (tz : Int) (dir : String → Option Country) (holidayId : String)
    (h : Holiday) (hf : getHolidayById tz dir holidayId = Lookup.found h) :
    h.id = holidayId ∧ h.countryCode = (split holidayId '-').headD "" ∧
    ∃ year : Nat, parseInt ((split holidayId '-').getLastD "") = some (year : Int) ∧
      1 ≤ year ∧
      ∃ l, getHolidaysForCountry tz dir h.countryCode year = some l ∧ h ∈ l := by
  obtain ⟨v, hp, hv0, _, _, l, hl, hm, hid⟩ := getHolidayById_found_in tz dir holidayId h hf
  have hcc := getHolidaysForCountry_countryCode tz dir _ _ l hl h hm
  have hnn := parseInt_nonneg _ (split_last_no_hyphen holidayId) v hp
  refine ⟨hid, hcc, v.toNat, ?_, by omega, l, ?_, hm⟩
  · rw [hp, Int.toNat_of_nonneg hnn]
  · rw [hcc]
    exact hl

set_option maxRecDepth 100000 in
/-- C27, at the id of Freedom Day of South Africa in 2024. -/
theorem getHolidayById_sound_witness :
    ∃ h, getHolidayById 120 (fun _ => none) "ZA-freedom-day-2024" = Lookup.found h ∧
      h.id = "ZA-freedom-day-2024" ∧ h.countryCode = "ZA" ∧ h.date = "2024-04-27" :=
  ⟨{ id := "ZA-freedom-day-2024"
     name := "Freedom Day"
     date := "2024-04-27"
     description := "Commemorates the first democratic elections in 1994"
     type := "National"
     countryCode := "ZA"
     observed := true }, by decide,
    (getHolidayById_sound 120 (fun _ => none) "ZA-freedom-day-2024" _ (by decide)).1, rfl, rfl⟩

end GlobalHolidayContext

/-! ## The lookup tables, the range of Easter, Labour Day -/

namespace JS

/-- The getters of local midnight of day `n` counted from 1 March of year `Y`
(`n = 1` is 1 March, `n = 32` is 1 April). -/
theorem springDay_getters (tz Y n : Int) (hn : 1 ≤ n ∧ n ≤ 61) :
    Date.getFullYear tz (some ((MakeDay Y 2 1 + (n - 1)) * msPerDay - tz * msPerMinute)) =
      some Y ∧
    ((n ≤ 31 ∧
      Date.getMonth tz (some ((MakeDay Y 2 1 + (n - 1)) * msPerDay - tz * msPerMinute)) =
        some 2 ∧
      Date.getDate tz (some ((MakeDay Y 2 1 + (n - 1)) * msPerDay - tz * msPerMinute)) =
        some n) ∨
     (31 < n ∧
      Date.getMonth tz (some ((MakeDay Y 2 1 + (n - 1)) * msPerDay - tz * msPerMinute)) =
        some 3 ∧
      Date.getDate tz (some ((MakeDay Y 2 1 + (n - 1)) * msPerDay - tz * msPerMinute)) =
        some (n - 31))) := by
  have hl := InLeapYear_cases Y
  have c2 := daysInMonth_cases 2 (InLeapYear Y) (by omega)
  have c3 := daysInMonth_cases 3 (InLeapYear Y) (by omega)
  have hms2 : monthStart 2 (InLeapYear Y) = 59 + InLeapYear Y := rfl
  have hms3 : monthStart 3 (InLeapYear Y) = 90 + InLeapYear Y := rfl
  by_cases h : n ≤ 31
  · have e : MakeDay Y 2 1 + (n - 1) = MakeDay Y 2 n := by
      rw [MakeDay_eq Y 2 1 (by omega), MakeDay_eq Y 2 n (by omega)]
      omega
    rw [e]
    exact ⟨getFullYear_localMidnight tz Y 2 n (by omega) ⟨by omega, by omega⟩,
      Or.inl ⟨h, getMonth_localMidnight tz Y 2 n (by omega) ⟨by omega, by omega⟩,
        getDate_localMidnight tz Y 2 n (by omega) ⟨by omega, by omega⟩⟩⟩
  · have e : MakeDay Y 2 1 + (n - 1) = MakeDay Y 3 (n - 31) := by
      rw [MakeDay_eq Y 2 1 (by omega), MakeDay_eq Y 3 (n - 31) (by omega), hms2, hms3]
      omega
    rw [e]
    exact ⟨getFullYear_localMidnight tz Y 3 (n - 31) (by omega) ⟨by omega, by omega⟩,
      Or.inr ⟨by omega, getMonth_localMidnight tz Y 3 (n - 31) (by omega) ⟨by omega, by omega⟩,
        getDate_localMidnight tz Y 3 (n - 31) (by omega) ⟨by omega, by omega⟩⟩⟩

end JS

/-- The day of Easter counted from 1 March: 22 to 56. -/
theorem easter_springDay (y : Nat) (Y : Int) :
    ∃ n : Int, 22 ≤ n ∧ n ≤ 56 ∧
      MakeDay Y ((easterMonthDay y).1 - 1) (easterMonthDay y).2 = MakeDay Y 2 1 + (n - 1) ∧
      (((easterMonthDay y).1 = 3 ∧ (easterMonthDay y).2 = n) ∨
        ((easterMonthDay y).1 = 4 ∧ (easterMonthDay y).2 = n - 31)) := by
  have hr := easterMonthDay_range y
  have hms2 : monthStart 2 (InLeapYear Y) = 59 + InLeapYear Y := rfl
  have hms3 : monthStart 3 (InLeapYear Y) = 90 + InLeapYear Y := rfl
  rcases hr with ⟨h1, h2, h3⟩ | ⟨h1, h2, h3⟩
  · refine ⟨(easterMonthDay y).2, h2, by omega, ?_, Or.inl ⟨h1, rfl⟩⟩
    rw [h1, MakeDay_eq Y (3 - 1) _ (by omega), MakeDay_eq Y 2 1 (by omega)]
    norm_num only
    omega
  · refine ⟨(easterMonthDay y).2 + 31, by omega, by omega, ?_, Or.inr ⟨h1, by omega⟩⟩
    rw [h1, MakeDay_eq Y (4 - 1) _ (by omega), MakeDay_eq Y 2 1 (by omega)]
    norm_num only
    rw [hms2, hms3]
    omega

/-- The local date of Easter plus `k` days, for a year from 100 to 275760. -/
theorem easter_offset_getters (tz : Int) (y : Nat) (htz : -1440 < tz ∧ tz < 1440)
    (h100 : 100 ≤ y) (hy : y ≤ 275760) (k : Int) (hk : -2 ≤ k ∧ k ≤ 1) (D : Date)
    (hD : D = (Date.copy (calculateEaster tz y)).setDate tz
      ((Date.getDate tz (calculateEaster tz y)).map (· + k))) :
    Date.getFullYear tz D = some (y : Int) ∧
    ((Date.getMonth tz D = some 2 ∧ ∃ d, Date.getDate tz D = some d ∧ 22 + k ≤ d ∧ d ≤ 31) ∨
     (Date.getMonth tz D = some 3 ∧ ∃ d, Date.getDate tz D = some d ∧ 1 ≤ d ∧ d ≤ 25 + k)) := by
  obtain ⟨n, hn1, hn2, he, _⟩ := easter_springDay y y
  have ho := easter_offsets tz y htz hy k hk
  rw [MakeFullYear_of_ge y h100, he] at ho
  have e2 : MakeDay (y : Int) 2 1 + (n - 1) + k = MakeDay (y : Int) 2 1 + ((n + k) - 1) := by
    ring
  rw [e2] at ho
  rw [hD, ho]
  obtain ⟨g1, g2⟩ := springDay_getters tz y (n + k) ⟨by omega, by omega⟩
  refine ⟨g1, ?_⟩
  rcases g2 with ⟨h31, gm, gd⟩ | ⟨h31, gm, gd⟩
  · exact Or.inl ⟨gm, _, gd, by omega, h31⟩
  · exact Or.inr ⟨gm, _, gd, by omega, by omega⟩

/-- C24, as amended. For every year `y ≥ 0` the month that `calculateEaster`
computes is 3 or 4 and the day forms a date that exists, between 22 March and
25 April. For every year from 100 to 275760 the Date returned is that day of
year `y`, Good Friday (`setDate(getDate() - 2)`) lies in 20 March to 23 April
and Easter Monday (`setDate(getDate() + 1)`) in 23 March to 26 April, all in
year `y`, as local dates on every host. -/
theorem calculateEaster_range (tz : Int) (y : Nat) :
    ((((easterMonthDay y).1 = 3 ∧ 22 ≤ (easterMonthDay y).2 ∧ (easterMonthDay y).2 ≤ 31) ∨
      ((easterMonthDay y).1 = 4 ∧ 1 ≤ (easterMonthDay y).2 ∧ (easterMonthDay y).2 ≤ 25)) ∧
      (easterMonthDay y).2 ≤ daysInMonth ((easterMonthDay y).1 - 1) (InLeapYear y)) ∧
    ((-1440 < tz ∧ tz < 1440) → 100 ≤ y → y ≤ 275760 →
      (Date.getFullYear tz (calculateEaster tz y) = some (y : Int) ∧
        Date.getMonth tz (calculateEaster tz y) = some ((easterMonthDay y).1 - 1) ∧
        Date.getDate tz (calculateEaster tz y) = some (easterMonthDay y).2) ∧
      (∀ goodFriday, goodFriday = (Date.copy (calculateEaster tz y)).setDate tz
          ((Date.getDate tz (calculateEaster tz y)).map (· - 2)) →
        Date.getFullYear tz goodFriday = some (y : Int) ∧
        ((Date.getMonth tz goodFriday = some 2 ∧
            ∃ d, Date.getDate tz goodFriday = some d ∧ 20 ≤ d ∧ d ≤ 31) ∨
          (Date.getMonth tz goodFriday = some 3 ∧
            ∃ d, Date.getDate tz goodFriday = some d ∧ 1 ≤ d ∧ d ≤ 23))) ∧
      (∀ easterMonday, easterMonday = (Date.copy (calculateEaster tz y)).setDate tz
          ((Date.getDate tz (calculateEaster tz y)).map (· + 1)) →
        Date.getFullYear tz easterMonday = some (y : Int) ∧
        ((Date.getMonth tz easterMonday = some 2 ∧
            ∃ d, Date.getDate tz easterMonday = some d ∧ 23 ≤ d ∧ d ≤ 31) ∨
          (Date.getMonth tz easterMonday = some 3 ∧
            ∃ d, Date.getDate tz easterMonday = some d ∧ 1 ≤ d ∧ d ≤ 26)))) := by
  have hv := easterMonthDay_valid y y
  refine ⟨⟨easterMonthDay_range y, hv.2.2⟩, fun htz h100 hy => ⟨?_, ?_, ?_⟩⟩
  · have hm : 0 ≤ (easterMonthDay y).1 - 1 ∧ (easterMonthDay y).1 - 1 ≤ 11 :=
      ⟨hv.1.1, by omega⟩
    rw [calculateEaster_eq tz y htz hy, MakeFullYear_of_ge y h100]
    exact ⟨getFullYear_localMidnight tz y _ _ hm hv.2, getMonth_localMidnight tz y _ _ hm hv.2,
      getDate_localMidnight tz y _ _ hm hv.2⟩
  · intro D hD
    exact easter_offset_getters tz y htz h100 hy (-2) (by omega) D hD
  · intro D hD
    exact easter_offset_getters tz y htz h100 hy 1 (by omega) D hD

/-- C24, as amended, in 2024 on a host two hours east of UTC: Easter is 31
March, Good Friday 29 March and Easter Monday 1 April. -/
theorem calculateEaster_range_witness :
    easterMonthDay 2024 = (3, 31) ∧
    Date.getFullYear 120 (calculateEaster 120 2024) = some 2024 ∧
    Date.getMonth 120 (calculateEaster 120 2024) = some 2 ∧
    Date.getDate 120 (calculateEaster 120 2024) = some 31 :=
  ⟨by decide, ((calculateEaster_range 120 2024).2 (by decide) (by decide) (by decide)).1⟩

/-- C24, as stated, fails for the year 50: the month and the day computed are
27 March, but `new Date(50, 2, 27)` is 27 March 1950, so that Easter, Good
Friday and Easter Monday do not lie in the year 50; and for the year 275761 the
Date returned is the Invalid Date. -/
theorem calculateEaster_outside_year :
    easterMonthDay 50 = (3, 27) ∧
    Date.getFullYear 0 (calculateEaster 0 50) = some 1950 ∧
    Date.getFullYear 0 ((Date.copy (calculateEaster 0 50)).setDate 0
      ((Date.getDate 0 (calculateEaster 0 50)).map (· - 2))) = some 1950 ∧
    Date.getFullYear 0 ((Date.copy (calculateEaster 0 50)).setDate 0
      ((Date.getDate 0 (calculateEaster 0 50)).map (· + 1))) = some 1950 ∧
    calculateEaster 0 275761 = none := by
  refine ⟨by decide, by decide, by decide, by decide, by decide⟩

namespace GlobalHolidayContext

theorem lookup_comment_getters (tz : Int) (htz : -1440 < tz ∧ tz < 1440) (y : Nat) (m d : Int)
    (D : Date) (hD : D = Date.ofYMD tz y (m - 1) d) (h100 : 100 ≤ y) (hy : y ≤ 275760)
    (hm : 1 ≤ m ∧ m ≤ 6) (hd : 1 ≤ d ∧ d ≤ daysInMonth (m - 1) (InLeapYear y)) :
    Date.getFullYear tz D = some (y : Int) ∧ Date.getMonth tz D = some (m - 1) ∧
      Date.getDate tz D = some d := by
  rw [hD]
  exact ofYMD_getters tz y (m - 1) d htz h100 hy (by omega) hd

/-- C23. For every year of 2024..2030 each of `calculateChineseNewYear`,
`calculateEidAlFitr` and `calculateEidAlAdha` returns the date that the comment
beside its table entry names: a Date in that year whose month index plus one is
the commented month and whose day is the commented day, as a local date on
every host. -/
theorem lookup_tables_match_comments (tz : Int) (htz : -1440 < tz ∧ tz < 1440) :
    (∀ e ∈ chineseNewYearComments,
      Date.getFullYear tz (calculateChineseNewYear tz e.1) = some (e.1 : Int) ∧
      Date.getMonth tz (calculateChineseNewYear tz e.1) = some (e.2.1 - 1) ∧
      Date.getDate tz (calculateChineseNewYear tz e.1) = some e.2.2) ∧
    (∀ e ∈ eidAlFitrComments,
      Date.getFullYear tz (calculateEidAlFitr tz e.1) = some (e.1 : Int) ∧
      Date.getMonth tz (calculateEidAlFitr tz e.1) = some (e.2.1 - 1) ∧
      Date.getDate tz (calculateEidAlFitr tz e.1) = some e.2.2) ∧
    (∀ e ∈ eidAlAdhaComments,
      Date.getFullYear tz (calculateEidAlAdha tz e.1) = some (e.1 : Int) ∧
      Date.getMonth tz (calculateEidAlAdha tz e.1) = some (e.2.1 - 1) ∧
      Date.getDate tz (calculateEidAlAdha tz e.1) = some e.2.2) ∧
    chineseNewYearComments.map (·.1) = [2024, 2025, 2026, 2027, 2028, 2029, 2030] ∧
    eidAlFitrComments.map (·.1) = [2024, 2025, 2026, 2027, 2028, 2029, 2030] ∧
    eidAlAdhaComments.map (·.1) = [2024, 2025, 2026, 2027, 2028, 2029, 2030] := by
  refine ⟨?_, ?_, ?_, rfl, rfl, rfl⟩
  · intro e he
    simp only [chineseNewYearComments, List.mem_cons, List.mem_singleton, List.not_mem_nil,
      or_false] at he
    rcases he with rfl | rfl | rfl | rfl | rfl | rfl | rfl <;>
      exact lookup_comment_getters tz htz _ _ _ _ rfl (by decide) (by decide) (by decide)
        (by decide)
  · intro e he
    simp only [eidAlFitrComments, List.mem_cons, List.mem_singleton, List.not_mem_nil,
      or_false] at he
    rcases he with rfl | rfl | rfl | rfl | rfl | rfl | rfl <;>
      exact lookup_comment_getters tz htz _ _ _ _ rfl (by decide) (by decide) (by decide)
        (by decide)
  · intro e he
    simp only [eidAlAdhaComments, List.mem_cons, List.mem_singleton, List.not_mem_nil,
      or_false] at he
    rcases he with rfl | rfl | rfl | rfl | rfl | rfl | rfl <;>
      exact lookup_comment_getters tz htz _ _ _ _ rfl (by decide) (by decide) (by decide)
        (by decide)

/-- C23, at the two dates that the claim names, on a host two hours east of UTC:
`calculateEidAlFitr(2025)` is 30 March 2025 and `calculateChineseNewYear(2028)`
is 26 January 2028. -/
theorem lookup_tables_match_comments_witness :
    (Date.getFullYear 120 (calculateEidAlFitr 120 2025) = some 2025 ∧
      Date.getMonth 120 (calculateEidAlFitr 120 2025) = some (3 - 1) ∧
      Date.getDate 120 (calculateEidAlFitr 120 2025) = some 30) ∧
    (Date.getFullYear 120 (calculateChineseNewYear 120 2028) = some 2028 ∧
      Date.getMonth 120 (calculateChineseNewYear 120 2028) = some (1 - 1) ∧
      Date.getDate 120 (calculateChineseNewYear 120 2028) = some 26) :=
  ⟨(lookup_tables_match_comments 120 (by decide)).2.1 (2025, 3, 30) (by decide),
    (lookup_tables_match_comments 120 (by decide)).1 (2028, 1, 26) (by decide)⟩

/-- C28. The Labour Day exclusion of the default set is never exercised: `US`,
the only excluded code, has a table, and for every country code without a table
every list that `getHolidaysForCountry` returns has "Labour Day" dated y-05-01.
The call returns a list for every code that is not a property name inherited
from `Object.prototype`, in every year up to 275760 (in every year at all when
the country has no moveable holidays). -/
theorem labour_day_in_default_set (tz : Int) (dir : String → Option Country) (cc : String)
    (y : Nat) (hno : holidayData.lookup cc = none) :
    holidayData.lookup "US" ≠ none ∧ cc ∉ ["US"] ∧
    (∀ l, getHolidaysForCountry tz dir cc y = some l →
      ∃ o ∈ l, o.name = "Labour Day" ∧ o.date = numberToString y ++ "-05-01") ∧
    (cc ∉ inheritedKeys → ((y ≤ 275760 ∧ -1440 < tz ∧ tz < 1440) ∨
        (cc ∉ easterCountries ∧ cc ∉ islamicCountries ∧ cc ∉ lunarCountries)) →
      ∃ l, getHolidaysForCountry tz dir cc y = some l) := by
  have hus : cc ∉ ["US"] := by
    intro h
    rw [List.mem_singleton] at h
    subst h
    revert hno
    decide
  refine ⟨by decide, hus, ?_, ?_⟩
  · intro l h
    obtain ⟨base, varf, hb, _, _⟩ := getHolidaysForCountry_eq tz dir cc y l h
    have hbd : base = getDefaultHolidays dir cc := by
      rcases baseHolidays_cases dir cc base hb with h1 | ⟨_, h1⟩
      · have := List.lookup_eq_none_iff.mp hno (cc, base) h1
        simp at this
      · exact h1
    subst hbd
    have hmem : (⟨"Labour Day", 5, 1, "International Workers' Day celebrating laborers",
        "National"⟩ : HolidayDef) ∈ getDefaultHolidays dir cc := by
      unfold getDefaultHolidays
      simp only [hus, not_false_eq_true, if_true]
      simp
    exact ⟨_, (getHolidaysForCountry_mem tz dir cc y l h _ hb _).mpr
      (Or.inl ⟨_, hmem, rfl⟩), rfl, fixedDate_may1 y⟩
  · intro hk hy
    have hb := baseHolidays_of_no_table dir cc hno hk
    rcases hy with ⟨h1, h2, h3⟩ | h4
    · exact getHolidaysForCountry_returns tz dir cc y ⟨h2, h3⟩ h1 _ hb
    · unfold getHolidaysForCountry
      rw [hb, variableHolidays_nil tz cc y h4]
      exact ⟨_, rfl⟩

set_option maxRecDepth 100000 in
/-- C28, at the unknown code ZZ in 2024. -/
theorem labour_day_in_default_set_witness :
    ∃ l, getHolidaysForCountry 120 (fun _ => none) "ZZ" 2024 = some l ∧
      ∃ o ∈ l, o.name = "Labour Day" ∧ o.date = numberToString 2024 ++ "-05-01" :=
  ⟨_, rfl, (labour_day_in_default_set 120 (fun _ => none) "ZZ" 2024 (by decide)).2.2.1 _ rfl⟩

end GlobalHolidayContext

/-! ## Ties in the sort, and the two generators for South Africa -/

namespace JS

/-- Inserting into a list keeps the order of the elements that satisfy `p`,
when the inserted element goes before every such element of the list. -/
theorem orderedInsert_filter {α : Type} (r : α → α → Prop) [DecidableRel r] (p : α → Bool)
    (a : α) : ∀ (l : List α), (∀ c ∈ l, p a = true → p c = true → r a c) →
    (l.orderedInsert r a).filter p = (a :: l).filter p := by
  intro l
  induction l with
  | nil => intro _; rfl
  | cons b l ih =>
    intro h
    simp only [List.orderedInsert]
    by_cases hr : r a b
    · rw [if_pos hr]
    · rw [if_neg hr]
      have ih' := ih (fun c hc => h c (List.mem_cons_of_mem _ hc))
      have hab : ¬ (p a = true ∧ p b = true) := fun hh =>
        hr (h b (List.mem_cons_self _ _) hh.1 hh.2)
      rw [List.filter_cons, ih']
      by_cases ha : p a = true
      · have hb : ¬ p b = true := fun hb => hab ⟨ha, hb⟩
        simp only [List.filter_cons, ha, hb, if_true, if_false]
        simp
      · simp only [List.filter_cons, ha, if_false]
        simp

/-- The insertion sort is stable on the elements that satisfy `p`, when these are
ties of the ordering. -/
theorem insertionSort_filter {α : Type} (r : α → α → Prop) [DecidableRel r] (p : α → Bool)
    (h : ∀ a c, p a = true → p c = true → r a c) :
    ∀ (l : List α), (l.insertionSort r).filter p = l.filter p := by
  intro l
  induction l with
  | nil => rfl
  | cons a l ih =>
    simp only [List.insertionSort]
    rw [orderedInsert_filter r p a _ (fun c _ => h a c), List.filter_cons, List.filter_cons, ih]

theorem dateDifference_self (d : String) : (dateDifference d d).getD 0 = 0 := by
  unfold dateDifference
  cases Date.parse d with
  | none => rfl
  | some t => simp

/-- The sort by date keeps the order of the elements that have one date. -/
theorem sort_filter_date {α : Type} (date : α → String) (d : String) (l : List α) :
    (sort (fun a b => dateDifference (date a) (date b)) l).filter (fun o => date o = d) =
      l.filter (fun o => date o = d) := by
  unfold sort
  apply insertionSort_filter
  intro a c ha hc
  simp only [decide_eq_true_eq] at ha hc
  show (dateDifference (date a) (date c)).getD 0 ≤ 0
  rw [ha, hc, dateDifference_self]

/-- Sorting two lists that are related position by position, by orderings that
agree on related elements, gives lists related position by position. -/
theorem orderedInsert_forall₂ {α β : Type} (R : α → β → Prop) (r : α → α → Prop)
    (s : β → β → Prop) [DecidableRel r] [DecidableRel s]
    (h : ∀ a b c d, R a b → R c d → (r a c ↔ s b d)) (a : α) (b : β) (hab : R a b) :
    ∀ (l : List α) (l' : List β), List.Forall₂ R l l' →
      List.Forall₂ R (l.orderedInsert r a) (l'.orderedInsert s b) := by
  intro l l' hl
  induction hl with
  | nil => exact List.Forall₂.cons hab List.Forall₂.nil
  | cons hcd _ ih =>
    rename_i c d l l' hrest
    simp only [List.orderedInsert]
    by_cases hr : r a c
    · rw [if_pos hr, if_pos ((h a b c d hab hcd).mp hr)]
      exact List.Forall₂.cons hab (List.Forall₂.cons hcd hrest)
    · rw [if_neg hr, if_neg (fun hs => hr ((h a b c d hab hcd).mpr hs))]
      exact List.Forall₂.cons hcd ih

theorem insertionSort_forall₂ {α β : Type} (R : α → β → Prop) (r : α → α → Prop)
    (s : β → β → Prop) [DecidableRel r] [DecidableRel s]
    (h : ∀ a b c d, R a b → R c d → (r a c ↔ s b d)) :
    ∀ (l : List α) (l' : List β), List.Forall₂ R l l' →
      List.Forall₂ R (l.insertionSort r) (l'.insertionSort s) := by
  intro l l' hl
  induction hl with
  | nil => exact List.Forall₂.nil
  | cons hab _ ih =>
    simp only [List.insertionSort]
    exact orderedInsert_forall₂ R r s h _ _ hab _ _ ih

end JS

namespace GlobalHolidayContext

/-- Within the list returned, the occurrences of one date stand in the order of
the concatenation of the fixed and the moveable occurrences. -/
theorem getHolidaysForCountry_stable (tz : Int) (dir : String → Option Country) (cc : String)
    (y : Nat) (l : List Holiday) (h : getHolidaysForCountry tz dir cc y = some l) :
    ∃ base varf, baseHolidays dir cc = some base ∧
      mapThrowing (formatVariable cc y) (variableHolidays tz cc y) = some varf ∧
      (l.Perm (base.map (formatFixed cc y) ++ varf)) ∧
      (∀ d : String, l.filter (fun o => o.date = d) =
        (base.map (formatFixed cc y)).filter (fun o => o.date = d) ++
          varf.filter (fun o => o.date = d)) ∧
      (∀ f ∈ base.map (formatFixed cc y), ∀ v ∈ varf, f.date = v.date → [f, v].Sublist l) := by
  obtain ⟨base, varf, hb, hv, rfl⟩ := getHolidaysForCountry_eq tz dir cc y l h
  have key : ∀ d : String,
      (sort compareDates (base.map (formatFixed cc y) ++ varf)).filter (fun o => o.date = d) =
        (base.map (formatFixed cc y)).filter (fun o => o.date = d) ++
          varf.filter (fun o => o.date = d) := by
    intro d
    rw [← List.filter_append]
    exact sort_filter_date (fun o : Holiday => o.date) d _
  refine ⟨base, varf, hb, hv, sort_perm compareDates _, key, ?_⟩
  intro f hf v hv' hfv
  have s1 : [f].Sublist ((base.map (formatFixed cc y)).filter (fun o => o.date = v.date)) :=
    List.singleton_sublist.mpr (List.mem_filter.mpr ⟨hf, by simpa using hfv⟩)
  have s2 : [v].Sublist (varf.filter (fun o => o.date = v.date)) :=
    List.singleton_sublist.mpr (List.mem_filter.mpr ⟨hv', by simp⟩)
  have s3 := List.Sublist.append s1 s2
  rw [← key v.date] at s3
  exact s3.trans (List.filter_sublist _)

end GlobalHolidayContext

set_option maxRecDepth 1000000 in
/-- C26. Dates within one list need not be distinct, and ties keep the order
of the concatenation. For Brazil in 2025, a year of the window of the app for
every current year from 2020 to 2027, on a host at UTC, "Tiradentes" and "Easter
Monday" are both dated 2025-04-21, the fixed holiday first; on a host two hours
east of UTC the same holds for Brazil in 2030. And for every country code, year
and host: in the list returned the occurrences of one date stand in the order
fixed, then moveable, so that a fixed holiday comes before a moveable one of the
same date. -/
theorem ties_keep_concatenation_order :
    (∃ l, GlobalHolidayContext.getHolidaysForCountry 0 (fun _ => none) "BR" 2025 = some l ∧
      (l.filter (fun o => o.date = "2025-04-21")).map (·.name) =
        ["Tiradentes", "Easter Monday"] ∧
      ¬ (l.map (·.date)).Nodup) ∧
    (∃ l, GlobalHolidayContext.getHolidaysForCountry 120 (fun _ => none) "BR" 2030 = some l ∧
      (l.filter (fun o => o.date = "2030-04-21")).map (·.name) =
        ["Tiradentes", "Easter Monday"] ∧
      ¬ (l.map (·.date)).Nodup) ∧
    (∀ currentYear, 2025 ≤ currentYear → currentYear ≤ 2027 →
      2025 ∈ GlobalHolidayContext.years currentYear ∧
      2030 ∈ GlobalHolidayContext.years currentYear) ∧
    (∀ (tz : Int) (dir : String → Option Country) (cc : String) (y : Nat)
      (l : List GlobalHolidayContext.Holiday),
      GlobalHolidayContext.getHolidaysForCountry tz dir cc y = some l →
      ∃ base varf, GlobalHolidayContext.baseHolidays dir cc = some base ∧
        mapThrowing (GlobalHolidayContext.formatVariable cc y)
          (GlobalHolidayContext.variableHolidays tz cc y) = some varf ∧
        (l.Perm (base.map (GlobalHolidayContext.formatFixed cc y) ++ varf)) ∧
        (∀ d : String, l.filter (fun o => o.date = d) =
          (base.map (GlobalHolidayContext.formatFixed cc y)).filter (fun o => o.date = d) ++
            varf.filter (fun o => o.date = d)) ∧
        (∀ f ∈ base.map (GlobalHolidayContext.formatFixed cc y), ∀ v ∈ varf,
          f.date = v.date → [f, v].Sublist l)) := by
  refine ⟨⟨_, rfl, by decide, by decide⟩, ⟨_, rfl, by decide, by decide⟩, ?_, ?_⟩
  · intro c h1 h2
    interval_cases c <;> decide
  · intro tz dir cc y l h
    exact GlobalHolidayContext.getHolidaysForCountry_stable tz dir cc y l h

/-! ## The South-Africa generator and the global generator -/

theorem za_id (name : String) (y : Nat) :
    GlobalHolidayContext.generateHolidayId name y "ZA" =
      "ZA-" ++ HolidayContext.generateHolidayId name y := by
  unfold GlobalHolidayContext.generateHolidayId HolidayContext.generateHolidayId
  apply String.ext
  simp only [String.data_append, List.append_assoc]
  rfl

theorem southAfrica_not_family_day : ∀ d ∈ HolidayContext.baseHolidays, d.name ≠ "Family Day" := by
  decide

theorem agrees_formatFixed (y : Nat) (d : HolidayDef) (hd : d.name ≠ "Family Day") :
    agrees (GlobalHolidayContext.formatFixed "ZA" y d) (HolidayContext.formatFixed y d) :=
  ⟨rfl, Or.inr ⟨hd, rfl, rfl, rfl, za_id d.name y⟩⟩

theorem agrees_fixed (y : Nat) :
    List.Forall₂ agrees (HolidayContext.baseHolidays.map (GlobalHolidayContext.formatFixed "ZA" y))
      (HolidayContext.baseHolidays.map (HolidayContext.formatFixed y)) := by
  rw [List.forall₂_map_left_iff, List.forall₂_map_right_iff, List.forall₂_same]
  intro d hd
  exact agrees_formatFixed y d (southAfrica_not_family_day d hd)

theorem za_variableHolidays (tz : Int) (y : Nat) :
    GlobalHolidayContext.variableHolidays tz "ZA" y =
      [⟨"Good Friday", (Date.copy (calculateEaster tz y)).setDate tz
          ((Date.getDate tz (calculateEaster tz y)).map (· - 2)),
        "Christian holiday commemorating the crucifixion of Jesus Christ", "Religious"⟩,
       ⟨"Easter Monday", (Date.copy (calculateEaster tz y)).setDate tz
          ((Date.getDate tz (calculateEaster tz y)).map (· + 1)),
        "Day after Easter Sunday, celebrating the resurrection of Jesus Christ",
        "Religious"⟩] := by
  unfold GlobalHolidayContext.variableHolidays
  have h1 : "ZA" ∈ GlobalHolidayContext.easterCountries := by decide
  have h2 : "ZA" ∉ GlobalHolidayContext.islamicCountries := by decide
  have h3 : "ZA" ∉ GlobalHolidayContext.lunarCountries := by decide
  simp only [h1, h2, h3, if_true, if_false, List.append_nil]
  rfl

/-- The moveable occurrences of the two generators agree, and one generator
throws on them when the other does. -/
theorem agrees_variable (tz : Int) (y : Nat) :
    (mapThrowing (GlobalHolidayContext.formatVariable "ZA" y)
        (GlobalHolidayContext.variableHolidays tz "ZA" y) = none ∧
      mapThrowing (HolidayContext.formatVariable y) (HolidayContext.variableHolidays tz y) =
        none) ∨
    ∃ vg vs, mapThrowing (GlobalHolidayContext.formatVariable "ZA" y)
        (GlobalHolidayContext.variableHolidays tz "ZA" y) = some vg ∧
      mapThrowing (HolidayContext.formatVariable y) (HolidayContext.variableHolidays tz y) =
        some vs ∧ List.Forall₂ agrees vg vs ∧ vs.map (·.name) = ["Good Friday", "Family Day"] := by
  rw [za_variableHolidays]
  unfold HolidayContext.variableHolidays
  simp only [mapThrowing, GlobalHolidayContext.formatVariable, HolidayContext.formatVariable]
  cases isoDate ((Date.copy (calculateEaster tz y)).setDate tz
      ((Date.getDate tz (calculateEaster tz y)).map (· - 2))) with
  | none => exact Or.inl ⟨rfl, rfl⟩
  | some d1 =>
    cases isoDate ((Date.copy (calculateEaster tz y)).setDate tz
        ((Date.getDate tz (calculateEaster tz y)).map (· + 1))) with
    | none => exact Or.inl ⟨rfl, rfl⟩
    | some d2 =>
      refine Or.inr ⟨_, _, rfl, rfl, ?_, rfl⟩
      have hne : ("Good Friday" : String) ≠ "Family Day" := by decide
      refine List.Forall₂.cons ⟨rfl, Or.inr ⟨hne, rfl, rfl, rfl, za_id _ y⟩⟩
        (List.Forall₂.cons ⟨rfl, Or.inl ⟨rfl, rfl, rfl, rfl⟩⟩ List.Forall₂.nil)

theorem agrees_compare (a : GlobalHolidayContext.Holiday) (b : HolidayContext.Holiday)
    (c : GlobalHolidayContext.Holiday) (d : HolidayContext.Holiday) (hab : agrees a b)
    (hcd : agrees c d) :
    (GlobalHolidayContext.compareDates a c).getD 0 ≤ 0 ↔
      (HolidayContext.compareDates b d).getD 0 ≤ 0 := by
  unfold GlobalHolidayContext.compareDates HolidayContext.compareDates
  rw [hab.1, hcd.1]

/-- C25. The South-Africa generator agrees with the global generator for `ZA`:
in every year and on every host one call throws exactly when the other does,
and the two lists returned have the same length and position by position the
same date; position by position the names, descriptions and types are equal as
well and the global id is `ZA-` followed by the South-Africa id, except at the
one entry of the day after Easter, "Family Day" (National) in one list and
"Easter Monday" (Religious) in the other. Both calls return a list for every
year up to 275760. -/
theorem south_africa_agrees_with_global (tz : Int) (dir : String → Option Country) (y : Nat) :
    (GlobalHolidayContext.getHolidaysForCountry tz dir "ZA" y = none ↔
      HolidayContext.generateHolidaysForYear tz y = none) ∧
    (∀ g s, GlobalHolidayContext.getHolidaysForCountry tz dir "ZA" y = some g →
      HolidayContext.generateHolidaysForYear tz y = some s →
      g.length = s.length ∧ List.Forall₂ agrees g s ∧
      (s.map (·.name)).count "Family Day" = 1 ∧
      List.Forall₂ (fun a b => a.date = b.date) g s) ∧
    ((-1440 < tz ∧ tz < 1440) → y ≤ 275760 →
      (∃ g, GlobalHolidayContext.getHolidaysForCountry tz dir "ZA" y = some g) ∧
      (∃ s, HolidayContext.generateHolidaysForYear tz y = some s)) := by
  have hb : GlobalHolidayContext.baseHolidays dir "ZA" = some HolidayContext.baseHolidays := rfl
  have hG : GlobalHolidayContext.getHolidaysForCountry tz dir "ZA" y =
      (mapThrowing (GlobalHolidayContext.formatVariable "ZA" y)
        (GlobalHolidayContext.variableHolidays tz "ZA" y)).map (fun vg =>
          sort GlobalHolidayContext.compareDates
            (HolidayContext.baseHolidays.map (GlobalHolidayContext.formatFixed "ZA" y) ++ vg)) := by
    unfold GlobalHolidayContext.getHolidaysForCountry
    rw [hb]
    cases mapThrowing (GlobalHolidayContext.formatVariable "ZA" y)
      (GlobalHolidayContext.variableHolidays tz "ZA" y) <;> rfl
  have hS : HolidayContext.generateHolidaysForYear tz y =
      (mapThrowing (HolidayContext.formatVariable y)
        (HolidayContext.variableHolidays tz y)).map (fun vs =>
          sort HolidayContext.compareDates
            (HolidayContext.baseHolidays.map (HolidayContext.formatFixed y) ++ vs)) := by
    unfold HolidayContext.generateHolidaysForYear
    cases mapThrowing (HolidayContext.formatVariable y)
      (HolidayContext.variableHolidays tz y) <;> rfl
  refine ⟨?_, ?_, ?_⟩
  · rw [hG, hS]
    rcases agrees_variable tz y with ⟨e1, e2⟩ | ⟨vg, vs, e1, e2, _, _⟩
    · rw [e1, e2]
      exact ⟨fun _ => rfl, fun _ => rfl⟩
    · rw [e1, e2]
      simp
  · intro g s hg hs
    rw [hG] at hg
    rw [hS] at hs
    rcases agrees_variable tz y with ⟨e1, e2⟩ | ⟨vg, vs, e1, e2, hv, hn⟩
    · rw [e1] at hg
      cases hg
    · rw [e1, Option.map_some', Option.some.injEq] at hg
      rw [e2, Option.map_some', Option.some.injEq] at hs
      have hpre := List.rel_append (agrees_fixed y) hv
      have hsorted : List.Forall₂ agrees g s := by
        rw [← hg, ← hs]
        exact insertionSort_forall₂ agrees _ _ agrees_compare _ _ hpre
      have hnames : (HolidayContext.baseHolidays.map (HolidayContext.formatFixed y)).map
          (·.name) = HolidayContext.baseHolidays.map (·.name) := by
        rw [List.map_map]
        rfl
      refine ⟨hsorted.length_eq, hsorted, ?_, hsorted.imp (fun _ _ h => h.1)⟩
      rw [← hs, ((sort_perm HolidayContext.compareDates _).map (·.name)).count_eq,
        List.map_append, hn, hnames]
      decide
  · intro htz hy
    obtain ⟨varf, _, he⟩ := HolidayContext.generateHolidaysForYear_returns tz y htz hy
    exact ⟨GlobalHolidayContext.getHolidaysForCountry_returns tz dir "ZA" y htz hy _ hb,
      ⟨_, he⟩⟩

set_option maxRecDepth 1000000 in
/-- C25, in 2024 on a host two hours east of UTC. -/
theorem south_africa_agrees_with_global_witness :
    ∃ g s, GlobalHolidayContext.getHolidaysForCountry 120 (fun _ => none) "ZA" 2024 = some g ∧
      HolidayContext.generateHolidaysForYear 120 2024 = some s ∧
      g.length = s.length ∧ List.Forall₂ agrees g s ∧ g.length = 12 :=
  ⟨_, _, rfl, rfl,
    ((south_africa_agrees_with_global 120 (fun _ => none) 2024).2.1 _ _ rfl rfl).1,
    ((south_africa_agrees_with_global 120 (fun _ => none) 2024).2.1 _ _ rfl rfl).2.1,
    by decide⟩

/-! ## Saving a blog post -/

namespace JS

/-- `findIndex` returns -1 when no element satisfies the test, and else the
index of the first element that does. -/
theorem findIndex_spec {α : Type} (p : α → Bool) : ∀ (l : List α),
    (findIndex p l = -1 ∧ ∀ a ∈ l, p a = false) ∨
    (∃ i : Nat, findIndex p l = (i : Int) ∧ ∃ a, l[i]? = some a ∧ p a = true) := by
  intro l
  induction l with
  | nil => exact Or.inl ⟨rfl, fun a ha => absurd ha (List.not_mem_nil a)⟩
  | cons b l ih =>
    unfold findIndex
    by_cases hb : p b = true
    · rw [if_pos hb]
      exact Or.inr ⟨0, rfl, b, List.getElem?_cons_zero, hb⟩
    · rw [if_neg hb]
      rcases ih with ⟨h1, h2⟩ | ⟨i, h1, a, h2, h3⟩
      · rw [h1, if_pos (by decide)]
        refine Or.inl ⟨rfl, fun a ha => ?_⟩
        rcases List.mem_cons.mp ha with rfl | ha
        · simpa using hb
        · exact h2 a ha
      · rw [h1, if_neg (by omega)]
        exact Or.inr ⟨i + 1, by push_cast; rfl, a, by simpa using h2, h3⟩

/-- Writing at an index the value that stands there leaves a list as it is. -/
theorem set_same {α : Type} : ∀ (l : List α) (i : Nat) (a : α), l[i]? = some a →
    l.set i a = l := by
  intro l
  induction l with
  | nil => intro i a h; simp at h
  | cons b l ih =>
    intro i a h
    cases i with
    | zero =>
      simp only [List.getElem?_cons_zero, Option.some.injEq] at h
      rw [List.set_cons_zero, h]
    | succ i =>
      simp only [List.getElem?_cons_succ] at h
      rw [List.set_cons_succ, ih i a h]

end JS

namespace BlogContext

/-- C29. `savePost` is update-or-append and keeps the ids of the posts
distinct. For a list of posts with pairwise distinct ids and a post `p` with a
non-empty id: when a stored post has the id of `p`, the result is the list with
that one element replaced in place by `p` with a new `updatedAt` (the length and
every other element are unchanged); otherwise the result is the list with one
element appended, `p` with new `publishedAt` and `updatedAt`, whose id is the id
of `p`. In both cases the ids of the result are pairwise distinct. -/
theorem savePost_update_or_append (t1 t2 uuid : String) (posts : List Post) (p : Post)
    (hnd : (posts.map (·.id)).Nodup) (hid : p.id ≠ "") :
    ((∃ q ∈ posts, q.id = p.id) →
      ∃ i q, posts[i]? = some q ∧ q.id = p.id ∧
        savePost t1 t2 uuid posts p = posts.set i { p with updatedAt := some t1 } ∧
        (savePost t1 t2 uuid posts p).length = posts.length ∧
        (savePost t1 t2 uuid posts p)[i]? = some { p with updatedAt := some t1 } ∧
        ∀ j, j ≠ i → (savePost t1 t2 uuid posts p)[j]? = posts[j]?) ∧
    ((¬ ∃ q ∈ posts, q.id = p.id) →
      savePost t1 t2 uuid posts p =
        posts ++ [{ p with publishedAt := some t1, updatedAt := some t2 }] ∧
      (savePost t1 t2 uuid posts p).length = posts.length + 1) ∧
    ((savePost t1 t2 uuid posts p).map (·.id)).Nodup ∧
    (savePost t1 t2 uuid posts p).Pairwise (fun a b => a.id ≠ b.id) := by
  have hspec := findIndex_spec (fun q : Post => decide (q.id = p.id)) posts
  have key : ((∃ q ∈ posts, q.id = p.id) →
      ∃ i q, posts[i]? = some q ∧ q.id = p.id ∧
        savePost t1 t2 uuid posts p = posts.set i { p with updatedAt := some t1 }) ∧
    ((¬ ∃ q ∈ posts, q.id = p.id) →
      savePost t1 t2 uuid posts p =
        posts ++ [{ p with publishedAt := some t1, updatedAt := some t2 }]) := by
    rcases hspec with ⟨h1, h2⟩ | ⟨i, h1, q, h2, h3⟩
    · have hnone : ¬ ∃ q ∈ posts, q.id = p.id := by
        rintro ⟨q, hq, e⟩
        have := h2 q hq
        simp only [decide_eq_false_iff_not] at this
        exact this e
      refine ⟨fun h => absurd h hnone, fun _ => ?_⟩
      unfold savePost
      simp only [h1]
      rw [if_neg (by decide), if_neg hid]
    · have hq : q.id = p.id := by simpa using h3
      refine ⟨fun _ => ⟨i, q, h2, hq, ?_⟩, fun h => absurd ⟨q, List.getElem?_mem h2, hq⟩ h⟩
      unfold savePost
      simp only [h1]
      rw [if_pos (by omega), Int.toNat_ofNat]
  have hnodup : ((savePost t1 t2 uuid posts p).map (·.id)).Nodup := by
    by_cases hex : ∃ q ∈ posts, q.id = p.id
    · obtain ⟨i, q, h2, hq, he⟩ := key.1 hex
      rw [he, List.map_set]
      have hsame : (posts.map (·.id))[i]? = some p.id := by
        rw [List.getElem?_map, h2, Option.map_some', hq]
      rw [set_same _ i _ hsame]
      exact hnd
    · rw [key.2 hex, List.map_append, List.map_singleton]
      refine List.nodup_append.mpr ⟨hnd, List.nodup_singleton _, ?_⟩
      intro x hx hx'
      rw [List.mem_singleton] at hx'
      obtain ⟨q, hq, e⟩ := List.mem_map.mp hx
      exact hex ⟨q, hq, by rw [e, hx']⟩
  refine ⟨fun hex => ?_, fun hex => ?_, hnodup, ?_⟩
  · obtain ⟨i, q, h2, hq, he⟩ := key.1 hex
    have hi : i < posts.length := (List.getElem?_eq_some.mp h2).1
    refine ⟨i, q, h2, hq, he, ?_, ?_, ?_⟩
    · rw [he, List.length_set]
    · rw [he, List.getElem?_set_self hi]
    · intro j hj
      rw [he, List.getElem?_set_ne (fun e => hj e.symm)]
  · have he := key.2 hex
    exact ⟨he, by rw [he, List.length_append, List.length_singleton]⟩
  · exact (List.pairwise_map.mp hnodup)

/-- C29, at a list of two posts: saving a post with the id of the second one
replaces it, and saving a post with a new id appends it. -/
theorem savePost_update_or_append_witness :
    savePost "t1" "t2" "u"
        [⟨"a", "A", "a", "", "", "", "draft", "", "", "", [], none, none⟩,
         ⟨"b", "B", "b", "", "", "", "draft", "", "", "", [], none, none⟩]
        ⟨"b", "B2", "b", "", "", "", "published", "", "", "", [], none, none⟩ =
      [⟨"a", "A", "a", "", "", "", "draft", "", "", "", [], none, none⟩,
       ⟨"b", "B2", "b", "", "", "", "published", "", "", "", [], none, some "t1"⟩] ∧
    ((savePost "t1" "t2" "u"
        [⟨"a", "A", "a", "", "", "", "draft", "", "", "", [], none, none⟩,
         ⟨"b", "B", "b", "", "", "", "draft", "", "", "", [], none, none⟩]
        ⟨"c", "C", "c", "", "", "", "draft", "", "", "", [], none, none⟩).map (·.id)).Nodup ∧
    savePost "t1" "t2" "u"
        [⟨"a", "A", "a", "", "", "", "draft", "", "", "", [], none, none⟩,
         ⟨"b", "B", "b", "", "", "", "draft", "", "", "", [], none, none⟩]
        ⟨"c", "C", "c", "", "", "", "draft", "", "", "", [], none, none⟩ =
      [⟨"a", "A", "a", "", "", "", "draft", "", "", "", [], none, none⟩,
       ⟨"b", "B", "b", "", "", "", "draft", "", "", "", [], none, none⟩,
       ⟨"c", "C", "c", "", "", "", "draft", "", "", "", [], some "t1", some "t2"⟩] :=
  ⟨by decide,
    (savePost_update_or_append "t1" "t2" "u" _
      ⟨"c", "C", "c", "", "", "", "draft", "", "", "", [], none, none⟩ (by decide)
      (by decide)).2.2.1,
    by decide⟩

end BlogContext
